import Mathlib

/-!
Advanced Docking System: `ContainerWidget`

A shallow embedding of `AdvancedDockingSystem/src/ContainerWidget.cpp`.

* Widgets live in a store (`Heap`), addressed by their position; a pointer of the
  C++ code is a `Nat`, a nullable pointer an `Option Nat`.
* Toolkit classes (`QSplitter`, `QLayout`, `QDataStream`) are modelled by the
  operations the container calls on them.
* A null-pointer dereference of the C++ code is the result `none`.
-/

namespace ads

/-! ## Values -/

abbrev QString := String

abbrev QByteArray := List Nat

/-- Value of `Qt::Horizontal`. -/
def Horizontal : Int := 1

/-- Value of `Qt::Vertical`. -/
def Vertical : Int := 2

/-- Content descriptor: `uid()` and `uniqueName()` of a `SectionContent`. -/
structure SectionContent where
  uid : Int
  uniqueName : QString
deriving DecidableEq, Repr

/-- Title widget of a content, `new SectionTitleWidget(sc, NULL)`. -/
structure SectionTitleWidget where
  content : SectionContent
deriving DecidableEq, Repr

/-- Content widget of a content, `new SectionContentWidget(sc, NULL)`. -/
structure SectionContentWidget where
  content : SectionContent
deriving DecidableEq, Repr

/-- Payload moved between sections and floating panels (`InternalContentData`):
the fields the container assigns in `addSectionContent`. -/
structure InternalContentData where
  content : SectionContent
  titleWidget : Option SectionTitleWidget
  contentWidget : Option SectionContentWidget
deriving DecidableEq, Repr

/-- Drop areas named by `dropContent`; `InvalidDropArea` stands for every value
that reaches the `default:` label of its switches. -/
inductive DropArea where
  | TopDropArea
  | RightDropArea
  | BottomDropArea
  | LeftDropArea
  | CenterDropArea
  | InvalidDropArea
deriving DecidableEq, Repr

/-- The registry `SectionContent::LookupMapByName`, read through
`value(name).toStrongRef()`: `none` is a missing or dead entry. -/
abbrev Registry := QString → Option SectionContent

/-! ## The widget store -/

/-- The widgets the container handles. -/
inductive Widget where
  | QSplitter (orientation : Int) (children : List Nat) (sizes : List Int)
  | SectionWidget (tabs : List InternalContentData) (currentIndex : Int)
  | FloatingWidget (content : SectionContent) (titleWidget : Option SectionTitleWidget)
      (contentWidget : Option SectionContentWidget) (geometry : QByteArray)
  | deleted
deriving DecidableEq, Repr

/-- A stored widget with the splitter it sits in (`none`: its parent is the
container or null). -/
structure Cell where
  parent : Option Nat
  widget : Widget
deriving DecidableEq, Repr

abbrev Heap := List Cell

/-- Allocation: the new widget gets the next free address. -/
def alloc (h : Heap) (c : Cell) : Nat × Heap := (h.length, h ++ [c])

/-- Update of the cell at `p`; nothing happens at an address that is not allocated. -/
def updateAt (h : Heap) (p : Nat) (f : Cell → Cell) : Heap :=
  match h[p]? with
  | some c => h.set p (f c)
  | none => h

def widgetOf (h : Heap) (p : Nat) : Widget :=
  match h[p]? with
  | some c => c.widget
  | none => Widget.deleted

def parentOf (h : Heap) (p : Nat) : Option Nat :=
  match h[p]? with
  | some c => c.parent
  | none => none

def isSplitter (h : Heap) (p : Nat) : Bool :=
  match widgetOf h p with
  | Widget.QSplitter _ _ _ => true
  | _ => false

def isSection (h : Heap) (p : Nat) : Bool :=
  match widgetOf h p with
  | Widget.SectionWidget _ _ => true
  | _ => false

/-- Insertion of `w` before position `i` of a list. -/
def insertAt (cs : List Nat) (i : Nat) (w : Nat) : List Nat := cs.take i ++ w :: cs.drop i

/-! ## QSplitter -/

namespace QSplitter

/-- The widgets of the splitter in order: `widget(0)`, ..., `widget(count() - 1)`. -/
def children (h : Heap) (sp : Nat) : List Nat :=
  match widgetOf h sp with
  | Widget.QSplitter _ cs _ => cs
  | _ => []

def count (h : Heap) (sp : Nat) : Int := (children h sp).length

def orientation (h : Heap) (sp : Nat) : Int :=
  match widgetOf h sp with
  | Widget.QSplitter o _ _ => o
  | _ => 0

def sizes (h : Heap) (sp : Nat) : List Int :=
  match widgetOf h sp with
  | Widget.QSplitter _ _ sz => sz
  | _ => []

/-- The position of `w` in the splitter, `-1` when it is not there. -/
def indexOf (h : Heap) (sp : Nat) (w : Nat) : Int :=
  if w ∈ children h sp then ((children h sp).indexOf w : Nat) else -1

def setOrientation (h : Heap) (sp : Nat) (o : Int) : Heap :=
  updateAt h sp fun c =>
    match c.widget with
    | Widget.QSplitter _ cs sz => { c with widget := Widget.QSplitter o cs sz }
    | _ => c

def setSizes (h : Heap) (sp : Nat) (sz : List Int) : Heap :=
  updateAt h sp fun c =>
    match c.widget with
    | Widget.QSplitter o cs _ => { c with widget := Widget.QSplitter o cs sz }
    | _ => c

/-- The splitter `sp` loses the child `w` (the child was removed or given
another parent). -/
def removeChild (h : Heap) (sp : Nat) (w : Nat) : Heap :=
  updateAt h sp fun c =>
    match c.widget with
    | Widget.QSplitter o cs sz => { c with widget := Widget.QSplitter o (cs.erase w) sz }
    | _ => c

/-- The widget `w` leaves the splitter it sits in, if any. -/
def detach (h : Heap) (w : Nat) : Heap :=
  match parentOf h w with
  | some p => updateAt (removeChild h p w) w fun c => { c with parent := none }
  | none => h

/-- The position `insertWidget` uses: an index that is negative or beyond the
end means the end. -/
def clampIndex (index : Int) (len : Nat) : Nat :=
  if index < 0 ∨ index > len then len else index.toNat

/-- Models `QSplitter::insertWidget(index, widget)`: the widget is taken out of the
splitter it sits in (this one included, which makes the call a move) and enters
`sp` at `index`. -/
def insertWidget (h : Heap) (sp : Nat) (index : Int) (w : Nat) : Heap :=
  let h1 := detach h w
  let h2 := updateAt h1 sp fun c =>
    match c.widget with
    | Widget.QSplitter o cs sz =>
        { c with widget := Widget.QSplitter o (insertAt cs (clampIndex index cs.length) w) sz }
    | _ => c
  updateAt h2 w fun c => { c with parent := some sp }

/-- Models `QSplitter::addWidget(widget)`: `insertWidget(count(), widget)`. -/
def addWidget (h : Heap) (sp : Nat) (w : Nat) : Heap :=
  insertWidget h sp (count h sp) w

end QSplitter

/-- The static helper `newSplitter(orientation, parent)`: a splitter without
children. -/
def newSplitter (h : Heap) (orientation : Int) : Nat × Heap :=
  alloc h ⟨none, Widget.QSplitter orientation [] []⟩

/-! ## The container -/

/-- State of a `ContainerWidget`: the widget store and the fields of the class.
`_mainLayout` lists the widget of each layout item (`none`: an item without
widget). -/
structure ContainerWidget where
  heap : Heap
  _mainLayout : List (Option Nat)
  _orientation : Int
  _splitter : Option Nat
  _sections : List Nat
  _floatingWidgets : List Nat
deriving DecidableEq, Repr

/-- The constructor `ContainerWidget::ContainerWidget`. -/
def ContainerWidget.new : ContainerWidget :=
  { heap := [], _mainLayout := [], _orientation := Horizontal, _splitter := none,
    _sections := [], _floatingWidgets := [] }

namespace QLayout

/-- Models `QLayout::addWidget(w)` for a widget `w` that is not null: a new last
item for `w`; the widget becomes a child of the container. The call
dereferences `w`, so a caller that passes a null pointer does not return. -/
def addWidget (st : ContainerWidget) (w : Nat) : ContainerWidget :=
  { st with heap := QSplitter.detach st.heap w, _mainLayout := st._mainLayout ++ [some w] }

/-- Models `QLayout::takeAt(index)`: the item leaves the layout, its widget stays. -/
def takeAt (st : ContainerWidget) (index : Nat) : ContainerWidget :=
  { st with _mainLayout := st._mainLayout.eraseIdx index }

/-- Replacement of the first occurrence of `a` by `b`. -/
def replaceFirst (l : List (Option Nat)) (a b : Option Nat) : List (Option Nat) :=
  match l with
  | [] => []
  | x :: xs => if x = a then b :: xs else x :: replaceFirst xs a b

/-- Models `QLayout::replaceWidget(from, to)`: the item of `from` now holds `to`, which
becomes a child of the container. -/
def replaceWidget (st : ContainerWidget) (old new : Nat) : ContainerWidget :=
  { st with heap := QSplitter.detach st.heap new,
            _mainLayout := replaceFirst st._mainLayout (some old) (some new) }

/-- Models `QLayout::indexOf(w)` followed by `takeAt`: the item of `w` leaves the layout. -/
def takeWidget (st : ContainerWidget) (w : Nat) : ContainerWidget :=
  { st with _mainLayout := st._mainLayout.erase (some w) }

end QLayout

/-! ## Sections and floating panels -/

namespace SectionWidget

/-- Modelled from the spec: the constructor `SectionWidget(container)`, whose
file is not part of the sources. A section is an ordered tab list with an
active index; a new one is empty, has no active tab and enters the container's
section list. -/
def create (st : ContainerWidget) : Nat × ContainerWidget :=
  let r := alloc st.heap ⟨none, Widget.SectionWidget [] (-1)⟩
  (r.1, { st with heap := r.2, _sections := st._sections ++ [r.1] })

/-- The content list `contents()` of the section at `sw`. -/
def tabs (h : Heap) (sw : Nat) : List InternalContentData :=
  match widgetOf h sw with
  | Widget.SectionWidget ts _ => ts
  | _ => []

def contents (h : Heap) (sw : Nat) : List SectionContent := (tabs h sw).map (·.content)

def currentIndex (h : Heap) (sw : Nat) : Int :=
  match widgetOf h sw with
  | Widget.SectionWidget _ i => i
  | _ => -1

/-- Modelled from the spec: `SectionWidget::addContent(data, autoActivate)`,
whose file is not part of the sources: the content is appended to the tab
list and becomes the active tab when the flag says so. -/
def addContent (h : Heap) (sw : Nat) (data : InternalContentData) (autoActivate : Bool) : Heap :=
  updateAt h sw fun c =>
    match c.widget with
    | Widget.SectionWidget ts i =>
        { c with widget := Widget.SectionWidget (ts ++ [data]) (if autoActivate then ts.length else i) }
    | _ => c

/-- Modelled from the spec: `SectionWidget::addContent(sc)`, whose file is not
part of the sources: a tab for the content with its own title and content
widgets is appended. -/
def addContentRef (h : Heap) (sw : Nat) (sc : SectionContent) : Heap :=
  updateAt h sw fun c =>
    match c.widget with
    | Widget.SectionWidget ts i =>
        { c with widget := Widget.SectionWidget (ts ++ [⟨sc, some ⟨sc⟩, some ⟨sc⟩⟩]) i }
    | _ => c

/-- Modelled from the spec: `SectionWidget::setCurrentIndex(index)`, whose file
is not part of the sources: the active index of the section. -/
def setCurrentIndex (h : Heap) (sw : Nat) (index : Int) : Heap :=
  updateAt h sw fun c =>
    match c.widget with
    | Widget.SectionWidget ts _ => { c with widget := Widget.SectionWidget ts index }
    | _ => c

/-- The first tab with the given uid, and the tabs without it. -/
def takeTab (uid : Int) : List InternalContentData → Option (InternalContentData × List InternalContentData)
  | [] => none
  | t :: ts =>
      if t.content.uid = uid then some (t, ts)
      else match takeTab uid ts with
        | some (d, rest) => some (d, t :: rest)
        | none => none

/-- Modelled from the spec: `SectionWidget::takeContent(uid, data)`, whose file
is not part of the sources: the tab of that content is detached and handed
back; `false` and no change when the section does not hold it. -/
def takeContent (h : Heap) (sw : Nat) (uid : Int) : Bool × Option InternalContentData × Heap :=
  match takeTab uid (tabs h sw) with
  | some (d, rest) =>
      (true, some d, updateAt h sw fun c =>
        match c.widget with
        | Widget.SectionWidget _ i => { c with widget := Widget.SectionWidget rest i }
        | _ => c)
  | none => (false, none, h)

end SectionWidget

namespace FloatingWidget

/-- Modelled from the spec: the constructor
`FloatingWidget(container, sc, titleWidget, contentWidget, parent)`, whose file
is not part of the sources: a panel wrapping exactly that content, which enters
the container's floating panel list. -/
def create (st : ContainerWidget) (sc : SectionContent) (tw : Option SectionTitleWidget)
    (cw : Option SectionContentWidget) : Nat × ContainerWidget :=
  let r := alloc st.heap ⟨none, Widget.FloatingWidget sc tw cw []⟩
  (r.1, { st with heap := r.2, _floatingWidgets := st._floatingWidgets ++ [r.1] })

/-- The descriptor `content()` of the panel at `fw`. -/
def content (h : Heap) (fw : Nat) : Option SectionContent :=
  match widgetOf h fw with
  | Widget.FloatingWidget sc _ _ _ => some sc
  | _ => none

def restoreGeometry (h : Heap) (fw : Nat) (geom : QByteArray) : Heap :=
  updateAt h fw fun c =>
    match c.widget with
    | Widget.FloatingWidget sc tw cw _ => { c with widget := Widget.FloatingWidget sc tw cw geom }
    | _ => c

/-- Modelled from the spec: `FloatingWidget::takeContent(data)`, whose file is
not part of the sources: the panel hands back its payload (descriptor, title
widget, content widget) and no longer holds the two widgets. -/
def takeContent (h : Heap) (fw : Nat) : Option InternalContentData × Heap :=
  match widgetOf h fw with
  | Widget.FloatingWidget sc tw cw _ =>
      (some ⟨sc, tw, cw⟩, updateAt h fw fun c =>
        match c.widget with
        | Widget.FloatingWidget sc1 _ _ g => { c with widget := Widget.FloatingWidget sc1 none none g }
        | _ => c)
  | _ => (none, h)

end FloatingWidget

/-- Deletion of a widget: it leaves its splitter, its cell is dead. -/
def deleteWidget (h : Heap) (w : Nat) : Heap :=
  updateAt (QSplitter.detach h w) w fun _ => ⟨none, Widget.deleted⟩

/-- Modelled from the spec: `qDeleteAll` over sections or floating panels; the
destructors (not part of the sources) take the widget out of the container's
lists. -/
def qDeleteAll (st : ContainerWidget) (ws : List Nat) : ContainerWidget :=
  { st with heap := ws.foldl deleteWidget st.heap,
            _sections := st._sections.filter (fun p => !ws.contains p),
            _floatingWidgets := st._floatingWidgets.filter (fun p => !ws.contains p) }

/-- Modelled from the spec: `findParentSplitter(w)` of `Internal.h`, which is
not part of the sources: the immediate parent splitter of the widget. -/
def findParentSplitter (h : Heap) (w : Nat) : Option Nat :=
  match parentOf h w with
  | some p => if isSplitter h p then some p else none
  | none => none

/-- Modelled from the spec: `findImmediateSplitter(container)` of `Internal.h`,
which is not part of the sources: the splitter directly owned by the
container, that is the first splitter among the widgets of its layout. -/
def findImmediateSplitter (st : ContainerWidget) : Option Nat :=
  st._mainLayout.findSome? fun it =>
    match it with
    | some p => if isSplitter st.heap p then some p else none
    | none => none

/-! ## QDataStream -/

/-- The stream operators of `QDataStream` the container uses, over a stream of
items of type `α`: `write*` gives the items `<<` appends, `read*` the value `>>`
extracts and the rest of the stream. -/
structure QDataStream (α : Type) where
  writeUInt32 : Nat → List α
  readUInt32 : List α → Nat × List α
  writeInt : Int → List α
  readInt : List α → Int × List α
  writeString : QString → List α
  readString : List α → QString × List α
  writeByteArray : QByteArray → List α
  readByteArray : List α → QByteArray × List α
  writeIntList : List Int → List α
  readIntList : List α → List Int × List α

/-! ## ContainerWidget: drop, split, add -/

/-- Models `ContainerWidget::addSection`. -/
def addSection (st : ContainerWidget) (sw : Nat) : ContainerWidget :=
  let st1 :=
    match st._splitter with
    | some _ => st
    | none =>
        let r := newSplitter st.heap st._orientation
        QLayout.addWidget { st with heap := r.2, _splitter := some r.1 } r.1
  match st1._splitter with
  | some sp =>
      if QSplitter.indexOf st1.heap sp sw ≠ -1 then st1
      else { st1 with heap := QSplitter.addWidget st1.heap sp sw }
  | none => st1

/-- Models `ContainerWidget::dropContentOuterHelper`; `QT_VERSION` selects the branch
of the `#if QT_VERSION >= 0x050000` blocks. The layout argument is always
`_mainLayout`. -/
def dropContentOuterHelper (QT_VERSION : Nat) (st : ContainerWidget) (data : InternalContentData)
    (orientation : Int) (append : Bool) : Option (Nat × ContainerWidget) :=
  let r := SectionWidget.create st
  let sw := r.1
  let st1 := { r.2 with heap := SectionWidget.addContent r.2.heap sw data true }
  match findImmediateSplitter st1 with
  | none => none
  | some oldsp =>
      if QSplitter.orientation st1.heap oldsp = orientation ∨ QSplitter.count st1.heap oldsp = 1 then
        let h1 := QSplitter.setOrientation st1.heap oldsp orientation
        if append then some (sw, { st1 with heap := QSplitter.addWidget h1 oldsp sw })
        else some (sw, { st1 with heap := QSplitter.insertWidget h1 oldsp 0 sw })
      else
        let r2 := newSplitter st1.heap orientation
        let sp := r2.1
        let st2 := { st1 with heap := r2.2 }
        if append then
          if QT_VERSION ≥ 0x050000 then
            let st3 := QLayout.replaceWidget st2 oldsp sp
            let h4 := QSplitter.addWidget st3.heap sp oldsp
            let h5 := QSplitter.addWidget h4 sp sw
            some (sw, { st3 with heap := h5 })
          else
            let st3 := QLayout.takeWidget st2 oldsp
            let h4 := QSplitter.addWidget st3.heap sp oldsp
            let h5 := QSplitter.addWidget h4 sp sw
            some (sw, { st3 with heap := h5 })
        else
          if QT_VERSION ≥ 0x050000 then
            let h3 := QSplitter.addWidget st2.heap sp sw
            let st4 := QLayout.replaceWidget { st2 with heap := h3 } oldsp sp
            let h5 := QSplitter.addWidget st4.heap sp oldsp
            some (sw, { st4 with heap := h5 })
          else
            let h3 := QSplitter.addWidget st2.heap sp sw
            let st4 := QLayout.takeWidget { st2 with heap := h3 } oldsp
            let h5 := QSplitter.addWidget st4.heap sp oldsp
            some (sw, { st4 with heap := h5 })

/-- Models `ContainerWidget::dropContent`: the returned pointer and the new state. -/
def dropContent (QT_VERSION : Nat) (st : ContainerWidget) (data : InternalContentData)
    (targetSection : Option Nat) (area : DropArea) (autoActive : Bool) :
    Option (Option Nat × ContainerWidget) :=
  match targetSection with
  | none =>
      match area with
      | DropArea.TopDropArea =>
          (dropContentOuterHelper QT_VERSION st data Vertical false).map fun r => (none, r.2)
      | DropArea.RightDropArea =>
          (dropContentOuterHelper QT_VERSION st data Horizontal true).map fun r => (none, r.2)
      | DropArea.BottomDropArea =>
          (dropContentOuterHelper QT_VERSION st data Vertical true).map fun r => (none, r.2)
      | DropArea.LeftDropArea =>
          (dropContentOuterHelper QT_VERSION st data Horizontal false).map fun r => (none, r.2)
      | _ => some (none, st)
  | some target =>
      let targetSectionSplitter := findParentSplitter st.heap target
      match area with
      | DropArea.TopDropArea =>
          let r := SectionWidget.create st
          let sw := r.1
          let h1 := SectionWidget.addContent r.2.heap sw data true
          match targetSectionSplitter with
          | none => none
          | some tss =>
              if QSplitter.orientation h1 tss = Vertical then
                let index := QSplitter.indexOf h1 tss target
                some (some sw, { r.2 with heap := QSplitter.insertWidget h1 tss index sw })
              else
                let index := QSplitter.indexOf h1 tss target
                let r2 := newSplitter h1 Vertical
                let s := r2.1
                let h3 := QSplitter.addWidget r2.2 s sw
                let h4 := QSplitter.addWidget h3 s target
                some (some sw, { r.2 with heap := QSplitter.insertWidget h4 tss index s })
      | DropArea.RightDropArea =>
          let r := SectionWidget.create st
          let sw := r.1
          let h1 := SectionWidget.addContent r.2.heap sw data true
          match targetSectionSplitter with
          | none => none
          | some tss =>
              if QSplitter.orientation h1 tss = Horizontal then
                let index := QSplitter.indexOf h1 tss target
                some (some sw, { r.2 with heap := QSplitter.insertWidget h1 tss (index + 1) sw })
              else
                let index := QSplitter.indexOf h1 tss target
                let r2 := newSplitter h1 Horizontal
                let s := r2.1
                let h3 := QSplitter.addWidget r2.2 s target
                let h4 := QSplitter.addWidget h3 s sw
                some (some sw, { r.2 with heap := QSplitter.insertWidget h4 tss index s })
      | DropArea.BottomDropArea =>
          let r := SectionWidget.create st
          let sw := r.1
          let h1 := SectionWidget.addContent r.2.heap sw data true
          match targetSectionSplitter with
          | none => none
          | some tss =>
              if QSplitter.orientation h1 tss = Vertical then
                let index := QSplitter.indexOf h1 tss target
                some (some sw, { r.2 with heap := QSplitter.insertWidget h1 tss (index + 1) sw })
              else
                let index := QSplitter.indexOf h1 tss target
                let r2 := newSplitter h1 Vertical
                let s := r2.1
                let h3 := QSplitter.addWidget r2.2 s target
                let h4 := QSplitter.addWidget h3 s sw
                some (some sw, { r.2 with heap := QSplitter.insertWidget h4 tss index s })
      | DropArea.LeftDropArea =>
          let r := SectionWidget.create st
          let sw := r.1
          let h1 := SectionWidget.addContent r.2.heap sw data true
          match targetSectionSplitter with
          | none => none
          | some tss =>
              if QSplitter.orientation h1 tss = Horizontal then
                let index := QSplitter.indexOf h1 tss target
                some (some sw, { r.2 with heap := QSplitter.insertWidget h1 tss index sw })
              else
                let r2 := newSplitter h1 Horizontal
                let s := r2.1
                let h3 := QSplitter.addWidget r2.2 s sw
                let index := QSplitter.indexOf h3 tss target
                let h4 := QSplitter.insertWidget h3 tss index s
                some (some sw, { r.2 with heap := QSplitter.addWidget h4 s target })
      | DropArea.CenterDropArea =>
          some (some target,
            { st with heap := SectionWidget.addContent st.heap target data autoActive })
      | DropArea.InvalidDropArea => some (none, st)

/-- Models `ContainerWidget::addSectionContent`. -/
def addSectionContent (QT_VERSION : Nat) (st : ContainerWidget) (sc : SectionContent)
    (sw : Option Nat) (area : DropArea) : Option (Option Nat × ContainerWidget) :=
  let r : Option Nat × ContainerWidget :=
    match sw with
    | some s => (some s, st)
    | none =>
        if st._sections.isEmpty then
          let n := SectionWidget.create st
          (some n.1, addSection n.2 n.1)
        else if area = DropArea.CenterDropArea then (st._sections.head?, st)
        else (none, st)
  let data : InternalContentData := ⟨sc, some ⟨sc⟩, some ⟨sc⟩⟩
  dropContent QT_VERSION r.2 data r.1 area false

/-- Models `ContainerWidget::splitSections`. -/
def splitSections (st : ContainerWidget) (s1 : Nat) (s2 : Option Nat) (orientation : Int) :
    ContainerWidget :=
  let st1 := addSection st s1
  let r : Nat × ContainerWidget :=
    match s2 with
    | some s => (s, st1)
    | none => SectionWidget.create st1
  let st2 := addSection r.2 r.1
  match findParentSplitter st2.heap s1 with
  | some currentSplitter =>
      let index := QSplitter.indexOf st2.heap currentSplitter s1
      let r3 := newSplitter st2.heap orientation
      let h4 := QSplitter.addWidget r3.2 r3.1 s1
      let h5 := QSplitter.addWidget h4 r3.1 r.1
      { st2 with heap := QSplitter.insertWidget h5 currentSplitter index r3.1 }
  | none => st2

/-! ## ContainerWidget: takeContent -/

/-- First loop of `takeContent`: the sections are asked in order until one
holds the content. -/
def takeContentSections (uid : Int) : List Nat → Heap → Bool × Option InternalContentData × Heap
  | [], h => (false, none, h)
  | s :: rest, h =>
      match SectionWidget.takeContent h s uid with
      | (true, d, h1) => (true, d, h1)
      | (false, _, h1) => takeContentSections uid rest h1

/-- Second loop of `takeContent`: each floating panel reached before the
content is found is compared by uid, and `takeContent(data)` is called on it. -/
def takeContentFloatings (uid : Int) :
    List Nat → Option InternalContentData → Heap → Bool × Option InternalContentData × Heap
  | [], data, h => (false, data, h)
  | fw :: rest, data, h =>
      match FloatingWidget.content h fw with
      | some c =>
          let found := decide (c.uid = uid)
          let r := FloatingWidget.takeContent h fw
          if found then (true, r.1, r.2) else takeContentFloatings uid rest r.1 r.2
      | none => takeContentFloatings uid rest data h

/-- Models `ContainerWidget::takeContent`: the result, the payload written to `data`
(`none`: `data` was not written) and the new state. -/
def takeContent (st : ContainerWidget) (sc : SectionContent) :
    Bool × Option InternalContentData × ContainerWidget :=
  match takeContentSections sc.uid st._sections st.heap with
  | (true, d, h1) => (true, d, { st with heap := h1 })
  | (false, d, h1) =>
      let r := takeContentFloatings sc.uid st._floatingWidgets d h1
      (r.1, r.2.1, { st with heap := r.2.2 })

/-! ## ContainerWidget: saveState -/

/-- The loop over the contents of a section in `saveGeometryWalk`. -/
def saveNames {α : Type} (ds : QDataStream α) (out : List α) : List SectionContent → List α
  | [] => out
  | c :: cs => saveNames ds (out ++ ds.writeString c.uniqueName) cs

/-- The loop `for (i < a.count()) out = walk(out, a[i])` of a walk that may not
return. -/
def saveLoop {α : Type} (walk : List α → Nat → Option (List α)) (out : List α) :
    List Nat → Option (List α)
  | [] => some out
  | w :: ws =>
      match walk out w with
      | some out1 => saveLoop walk out1 ws
      | none => none

/-- Models `ContainerWidget::saveGeometryWalk`: the stream after the walk. The first
argument bounds the depth of the recursion; `none` means the bound was
reached. -/
def saveGeometryWalk {α : Type} (ds : QDataStream α) (h : Heap) :
    Nat → List α → Option Nat → Option (List α)
  | 0, _, _ => none
  | _ + 1, out, none => some (out ++ ds.writeInt 0)
  | fuel + 1, out, some widget =>
      match widgetOf h widget with
      | Widget.QSplitter o cs sz =>
          let out1 := out ++ ds.writeInt 1
          let out2 := out1 ++ ds.writeInt (if o = Horizontal then 1 else 2)
          let out3 := out2 ++ ds.writeInt cs.length
          let out4 := out3 ++ ds.writeIntList sz
          saveLoop (fun o1 w => saveGeometryWalk ds h fuel o1 (some w)) out4 cs
      | Widget.SectionWidget ts i =>
          let out1 := out ++ ds.writeInt 2
          let out2 := out1 ++ ds.writeInt i
          let out3 := out2 ++ ds.writeInt ts.length
          some (saveNames ds out3 (ts.map (·.content)))
      | _ => some out

/-- The loop over the floating panels in `saveState`. -/
def saveFloatings {α : Type} (ds : QDataStream α) (h : Heap) (out : List α) : List Nat → List α
  | [] => out
  | fw :: fws =>
      match widgetOf h fw with
      | Widget.FloatingWidget sc _ _ g =>
          saveFloatings ds h (out ++ ds.writeString sc.uniqueName ++ ds.writeByteArray g) fws
      | _ => saveFloatings ds h out fws

/-- The loop over the layout items in `saveState`: items without widget are
skipped. -/
def saveLayout {α : Type} (ds : QDataStream α) (h : Heap) (fuel : Nat) (out : List α) :
    List (Option Nat) → Option (List α)
  | [] => some out
  | none :: items => saveLayout ds h fuel out items
  | some w :: items =>
      match saveGeometryWalk ds h fuel out (some w) with
      | some out1 => saveLayout ds h fuel out1 items
      | none => none

/-- Models `ContainerWidget::saveState`; `fuel` bounds the depth of the walk. -/
def saveState {α : Type} (ds : QDataStream α) (fuel : Nat) (st : ContainerWidget) :
    Option (List α) :=
  let out1 := ds.writeUInt32 0x00001337
  let out2 := out1 ++ ds.writeUInt32 1
  let out3 := out2 ++ ds.writeInt st._floatingWidgets.length
  let out4 := saveFloatings ds st.heap out3 st._floatingWidgets
  saveLayout ds st.heap fuel out4 st._mainLayout

/-! ## ContainerWidget: restoreState -/

/-- The loop `for (i < count) if (!walk(in, sp)) return false;`. -/
def restoreLoop {α : Type}
    (walk : List α → ContainerWidget → Option (Bool × List α × ContainerWidget)) :
    Nat → List α → ContainerWidget → Option (Bool × List α × ContainerWidget)
  | 0, inp, st => some (true, inp, st)
  | n + 1, inp, st =>
      match walk inp st with
      | some (true, inp1, st1) => restoreLoop walk n inp1 st1
      | some (false, inp1, st1) => some (false, inp1, st1)
      | none => none

/-- The loop over the content names of a section in `restoreGeometryWalk`. -/
def restoreNames {α : Type} (ds : QDataStream α) (reg : Registry) (sw : Nat) :
    Nat → List α → Heap → List α × Heap
  | 0, inp, h => (inp, h)
  | n + 1, inp, h =>
      let r := ds.readString inp
      match reg r.1 with
      | some sc => restoreNames ds reg sw n r.2 (SectionWidget.addContentRef h sw sc)
      | none => restoreNames ds reg sw n r.2 h

/-- Models `ContainerWidget::restoreGeometryWalk`: the result, the rest of the stream
and the new state. The first argument bounds the depth of the recursion;
`none` means the bound was reached. -/
def restoreGeometryWalk {α : Type} (ds : QDataStream α) (reg : Registry) :
    Nat → List α → Option Nat → ContainerWidget → Option (Bool × List α × ContainerWidget)
  | 0, _, _, _ => none
  | fuel + 1, inp, currentSplitter, st =>
      let t := ds.readInt inp
      if t.1 = 1 then
        let o := ds.readInt t.2
        let c := ds.readInt o.2
        let sz := ds.readIntList c.2
        let r := newSplitter st.heap o.1
        let sp := r.1
        match restoreLoop (fun i s => restoreGeometryWalk ds reg fuel i (some sp) s)
            c.1.toNat sz.2 { st with heap := r.2 } with
        | none => none
        | some (false, inp1, st1) => some (false, inp1, st1)
        | some (true, inp1, st1) =>
            let h2 := QSplitter.setSizes st1.heap sp sz.1
            match currentSplitter with
            | none => some (true, inp1, { st1 with heap := h2, _splitter := some sp })
            | some cur => some (true, inp1, { st1 with heap := QSplitter.addWidget h2 cur sp })
      else if t.1 = 2 then
        match currentSplitter with
        | none => some (false, t.2, st)
        | some cur =>
            let ci := ds.readInt t.2
            let c := ds.readInt ci.2
            let r := SectionWidget.create st
            let sw := r.1
            let l := restoreNames ds reg sw c.1.toNat c.2 r.2.heap
            let h2 := SectionWidget.setCurrentIndex l.2 sw ci.1
            some (true, l.1, { r.2 with heap := QSplitter.addWidget h2 cur sw })
      else some (true, t.2, st)

/-- The loop over the floating entries in `restoreState`. -/
def restoreFloatings {α : Type} (ds : QDataStream α) (reg : Registry) :
    Nat → List α → ContainerWidget → List α × ContainerWidget
  | 0, inp, st => (inp, st)
  | n + 1, inp, st =>
      let uname := ds.readString inp
      let geom := ds.readByteArray uname.2
      match reg uname.1 with
      | none => restoreFloatings ds reg n geom.2 st
      | some sc =>
          match takeContent st sc with
          | (false, _, st1) => restoreFloatings ds reg n geom.2 st1
          | (true, data, st1) =>
              let fw := FloatingWidget.create st1 sc (data.bind (·.titleWidget))
                (data.bind (·.contentWidget))
              restoreFloatings ds reg n geom.2
                { fw.2 with heap := FloatingWidget.restoreGeometry fw.2.heap fw.1 geom.1 }

/-- Models `ContainerWidget::restoreState`: the result and the new state; `fuel`
bounds the depth of the walk. `none` means that the call does not return: the
bound was reached, or the walk succeeded without setting `_splitter` on a
container whose `_splitter` is null, and `_mainLayout->addWidget(_splitter)`
dereferences the null pointer. -/
def restoreState {α : Type} (ds : QDataStream α) (reg : Registry) (fuel : Nat)
    (st : ContainerWidget) (data : List α) : Option (Bool × ContainerWidget) :=
  let magic := ds.readUInt32 data
  if magic.1 ≠ 0x00001337 then some (false, st)
  else
    let version := ds.readUInt32 magic.2
    if version.1 ≠ 1 then some (false, st)
    else
      let oldFloatings := st._floatingWidgets
      let oldSections := st._sections
      let fwCount := ds.readInt version.2
      let fl := restoreFloatings ds reg fwCount.1.toNat fwCount.2 st
      let st1 := { fl.2 with _sections := [] }
      match restoreGeometryWalk ds reg fuel fl.1 none st1 with
      | none => none
      | some (success, _, st2) =>
          if success then
            let st3 := QLayout.takeAt st2 0
            match st3._splitter with
            | none => none
            | some sp =>
                let st4 := QLayout.addWidget st3 sp
                let st5 := qDeleteAll st4 oldFloatings
                let st6 := qDeleteAll st5 oldSections
                some (true, st6)
          else some (false, st2)

/-! ## A concrete stream -/

/-- One item of a stream: the value a `<<` wrote. -/
inductive Field where
  | u32 (v : Nat)
  | i32 (v : Int)
  | str (v : QString)
  | bytes (v : QByteArray)
  | ints (v : List Int)
deriving DecidableEq, Repr

/-- A stream of typed items. A read from the exhausted stream, or of an item of
another type, gives the zero value (0, the empty string or list) and skips the
item. -/
def fieldStream : QDataStream Field where
  writeUInt32 := fun v => [Field.u32 v]
  readUInt32 := fun s =>
    match s with
    | Field.u32 v :: r => (v, r)
    | _ :: r => (0, r)
    | [] => (0, [])
  writeInt := fun v => [Field.i32 v]
  readInt := fun s =>
    match s with
    | Field.i32 v :: r => (v, r)
    | _ :: r => (0, r)
    | [] => (0, [])
  writeString := fun v => [Field.str v]
  readString := fun s =>
    match s with
    | Field.str v :: r => (v, r)
    | _ :: r => ("", r)
    | [] => ("", [])
  writeByteArray := fun v => [Field.bytes v]
  readByteArray := fun s =>
    match s with
    | Field.bytes v :: r => (v, r)
    | _ :: r => ([], r)
    | [] => ([], [])
  writeIntList := fun v => [Field.ints v]
  readIntList := fun s =>
    match s with
    | Field.ints v :: r => (v, r)
    | _ :: r => ([], r)
    | [] => ([], [])


/-! ## Vocabulary of the drop claims -/

/-- The four edge areas. -/
def DropArea.isEdge : DropArea → Bool
  | DropArea.TopDropArea => true
  | DropArea.RightDropArea => true
  | DropArea.BottomDropArea => true
  | DropArea.LeftDropArea => true
  | _ => false

/-- The axis an edge area asks for: Top and Bottom split vertically, Left and
Right horizontally. -/
def DropArea.axis : DropArea → Int
  | DropArea.TopDropArea => Vertical
  | DropArea.BottomDropArea => Vertical
  | _ => Horizontal

/-- Top and Left put the new section before the target, Bottom and Right after. -/
def DropArea.before : DropArea → Bool
  | DropArea.TopDropArea => true
  | DropArea.LeftDropArea => true
  | _ => false

/-- Bottom and Right append the new section, Top and Left put it first: the
`append` argument `dropContent` passes to `dropContentOuterHelper`. -/
def DropArea.append (a : DropArea) : Bool := !a.before

/-! ## Sample data -/

def contentA : SectionContent := ⟨1, "a"⟩

def contentB : SectionContent := ⟨2, "b"⟩

def contentC : SectionContent := ⟨3, "c"⟩

/-- A registry in which the names a, b and c are alive. -/
def sampleRegistry : Registry := fun n =>
  if n = "a" then some contentA
  else if n = "b" then some contentB
  else if n = "c" then some contentC
  else none

/-- The payload `addSectionContent` builds for a content. -/
def dataOf (sc : SectionContent) : InternalContentData := ⟨sc, some ⟨sc⟩, some ⟨sc⟩⟩

/-- The container after `addSectionContent(a, NULL, CenterDropArea)` on a new
container: one section holding a. -/
def oneSection : ContainerWidget :=
  { heap := [⟨some 1, Widget.SectionWidget [dataOf contentA] (-1)⟩,
             ⟨none, Widget.QSplitter 1 [0] []⟩],
    _mainLayout := [some 1], _orientation := 1, _splitter := some 1,
    _sections := [0], _floatingWidgets := [] }

/-- The container `oneSection` after `addSectionContent(b, NULL, RightDropArea)`:
a horizontal top-level splitter with the sections of a and b. -/
def twoSections : ContainerWidget :=
  { heap := [⟨some 1, Widget.SectionWidget [dataOf contentA] (-1)⟩,
             ⟨none, Widget.QSplitter 1 [0, 2] []⟩,
             ⟨some 1, Widget.SectionWidget [dataOf contentB] 0⟩],
    _mainLayout := [some 1], _orientation := 1, _splitter := some 1,
    _sections := [0, 2], _floatingWidgets := [] }

/-! ## Vocabulary of the restore claims -/

/-- The tab list of a widget: empty unless it is a section. -/
def Widget.tabs : Widget → List InternalContentData
  | Widget.SectionWidget ts _ => ts
  | _ => []

/-- The next `n` strings of a stream, and the stream after them: the content
names an encoded section node lists. -/
def readStrings {α : Type} (ds : QDataStream α) : Nat → List α → List QString × List α
  | 0, inp => ([], inp)
  | n + 1, inp =>
      let r := ds.readString inp
      let rest := readStrings ds n r.2
      (r.1 :: rest.1, rest.2)

/-- The tab `SectionWidget::addContent(sc)` makes for a content. -/
def tabOf (sc : SectionContent) : InternalContentData := ⟨sc, some ⟨sc⟩, some ⟨sc⟩⟩

/-- What a widget is apart from the splitter data: a splitter counts as
nothing, every other widget as itself. The splitter operations never change it. -/
def Widget.leaf : Widget → Widget
  | Widget.QSplitter _ _ _ => Widget.deleted
  | w => w

/-- The widget at `p`, apart from the splitter data. -/
def leafOf (h : Heap) (p : Nat) : Widget := (widgetOf h p).leaf

/-! ## Vocabulary of the drop sequences -/

/-- A drop operation: a call of `addSectionContent` or of `dropContent`. -/
inductive DropOp where
  | addSectionContent (sc : SectionContent) (sw : Option Nat) (area : DropArea)
  | dropContent (data : InternalContentData) (targetSection : Option Nat) (area : DropArea)
      (autoActive : Bool)
deriving DecidableEq, Repr

/-- The content a drop operation drops. -/
def DropOp.content : DropOp → SectionContent
  | DropOp.addSectionContent sc _ _ => sc
  | DropOp.dropContent data _ _ _ => data.content

/-- The state after a drop operation; `none` when the call dereferences null. -/
def DropOp.apply (QT_VERSION : Nat) (st : ContainerWidget) : DropOp → Option ContainerWidget
  | DropOp.addSectionContent sc sw area =>
      (ads.addSectionContent QT_VERSION st sc sw area).map (·.2)
  | DropOp.dropContent data t area autoActive =>
      (ads.dropContent QT_VERSION st data t area autoActive).map (·.2)

/-- The state after a sequence of drop operations. -/
def runDrops (QT_VERSION : Nat) : ContainerWidget → List DropOp → Option ContainerWidget
  | st, [] => some st
  | st, op :: ops =>
      match op.apply QT_VERSION st with
      | some st1 => runDrops QT_VERSION st1 ops
      | none => none

/-- The content a floating panel holds: its descriptor, as long as the panel
still has its title or content widget. -/
def FloatingWidget.holds (h : Heap) (fw : Nat) : Option SectionContent :=
  match widgetOf h fw with
  | Widget.FloatingWidget sc tw cw _ => if tw.isSome || cw.isSome then some sc else none
  | _ => none

/-- Every content held in the container, once per tab or panel that holds it:
the contents of the sections of `_sections`, then those of the floating panels
of `_floatingWidgets`. -/
def heldContents (st : ContainerWidget) : List SectionContent :=
  st._sections.flatMap (SectionWidget.contents st.heap) ++
    st._floatingWidgets.filterMap (FloatingWidget.holds st.heap)

/-- How many tabs and floating panels of the container hold the content with
this uid. -/
def occurrences (uid : Int) (st : ContainerWidget) : Nat :=
  ((heldContents st).map (·.uid)).count uid

/-- The drop operations of the claim: one of the five areas, a target that is
a section of the container or no target, and no `dropContent` call with
neither a target nor an edge area. -/
def DropOp.admissible (st : ContainerWidget) : DropOp → Bool
  | DropOp.addSectionContent _ sw area =>
      decide (area ≠ DropArea.InvalidDropArea) &&
        (match sw with
         | none => true
         | some s => decide (s ∈ st._sections))
  | DropOp.dropContent _ t area _ =>
      match t with
      | none => area.isEdge
      | some s => decide (area ≠ DropArea.InvalidDropArea) && decide (s ∈ st._sections)

/-- Every operation of the sequence is admissible in the state it meets. -/
def admissibleRun (QT_VERSION : Nat) : ContainerWidget → List DropOp → Bool
  | _, [] => true
  | st, op :: ops =>
      op.admissible st &&
        (match op.apply QT_VERSION st with
         | some st1 => admissibleRun QT_VERSION st1 ops
         | none => true)

/-- The states of a container on which only drop operations ran: no floating
panel, and the section list names distinct live sections. -/
def DropInv (st : ContainerWidget) : Prop :=
  st._floatingWidgets = [] ∧ st._sections.Nodup ∧
    ∀ p ∈ st._sections, isSection st.heap p = true

/-- A sample drop sequence: a into the empty container, b at the right outer
edge, c above the section of a. -/
def sampleDrops : List DropOp :=
  [DropOp.addSectionContent contentA none DropArea.CenterDropArea,
   DropOp.addSectionContent contentB none DropArea.RightDropArea,
   DropOp.dropContent (dataOf contentC) (some 0) DropArea.TopDropArea false]

/-! ## Vocabulary of the round trip -/

/-- What saving and restoring are meant to keep of a splitter tree: the
orientation and the children of every splitter in order, the active index and
the content names of every section in tab order. -/
inductive Tree where
  | splitter (orientation : Int) (children : List Tree) : Tree
  | leaf (currentIndex : Int) (names : List QString) : Tree

/-- The results of `f` on the elements of a list, when all of them exist. -/
def shapes (f : Nat → Option Tree) : List Nat → Option (List Tree)
  | [] => some []
  | p :: ps =>
      match f p, shapes f ps with
      | some t, some ts => some (t :: ts)
      | _, _ => none

/-- The tree under the widget `p` of a store, followed to depth `fuel`; `none`
when the depth does not suffice or a widget below is neither a splitter nor a
section. -/
def shapeOf (h : Heap) : Nat → Nat → Option Tree
  | 0, _ => none
  | fuel + 1, p =>
      match widgetOf h p with
      | Widget.QSplitter o cs _ =>
          match shapes (shapeOf h fuel) cs with
          | some ts => some (Tree.splitter o ts)
          | none => none
      | Widget.SectionWidget ts i => some (Tree.leaf i (ts.map (·.content.uniqueName)))
      | _ => none

/-- The name is resolvable: the registry has a live content for it, and that
content bears the name. -/
def resolvable (reg : Registry) (name : QString) : Bool :=
  match reg name with
  | some sc => decide (sc.uniqueName = name)
  | none => false

/-- The tree under `p`, followed to depth `fuel`, is made of splitters that are
horizontal or vertical and of sections whose content names are all resolvable;
`false` when the depth does not suffice. -/
def restorable (reg : Registry) (h : Heap) : Nat → Nat → Bool
  | 0, _ => false
  | fuel + 1, p =>
      match widgetOf h p with
      | Widget.QSplitter o cs _ =>
          (decide (o = Horizontal) || decide (o = Vertical)) && cs.all (restorable reg h fuel)
      | Widget.SectionWidget ts _ => ts.all fun t => resolvable reg t.content.uniqueName
      | _ => false

/-- Reading back what was written: each `>>` returns the value the matching
`<<` wrote and leaves the rest of the stream. -/
structure QDataStream.Lawful {α : Type} (ds : QDataStream α) : Prop where
  readUInt32_write : ∀ (v : Nat) (rest : List α),
    ds.readUInt32 (ds.writeUInt32 v ++ rest) = (v, rest)
  readInt_write : ∀ (v : Int) (rest : List α), ds.readInt (ds.writeInt v ++ rest) = (v, rest)
  readString_write : ∀ (v : QString) (rest : List α),
    ds.readString (ds.writeString v ++ rest) = (v, rest)
  readByteArray_write : ∀ (v : QByteArray) (rest : List α),
    ds.readByteArray (ds.writeByteArray v ++ rest) = (v, rest)
  readIntList_write : ∀ (v : List Int) (rest : List α),
    ds.readIntList (ds.writeIntList v ++ rest) = (v, rest)

/-- The store `H` holds at `lo` a freshly built copy of the tree under `p` of
the store `h`: the copy lives in the addresses from `lo` on, and any store that
agrees with `H` there shows the same tree. -/
structure NewSubtree (h : Heap) (fuel p lo : Nat) (H : Heap) : Prop where
  grows : lo < H.length
  shape : ∀ h2 : Heap, (∀ q, lo ≤ q → q < H.length → widgetOf h2 q = widgetOf H q) →
    shapeOf h2 fuel lo = shapeOf h fuel p
  kids : ∀ q, lo ≤ q → ∀ c ∈ QSplitter.children H q, lo ≤ c

/-- The store `H` holds at the addresses `ps` freshly built copies of the trees
under the widgets `cs` of the store `h`, all in the addresses from `lo` on. -/
structure NewChildren (h : Heap) (fuel : Nat) (cs : List Nat) (lo : Nat) (H : Heap)
    (ps : List Nat) : Prop where
  grows : lo ≤ H.length
  shape : ∀ h2 : Heap, (∀ q, lo ≤ q → q < H.length → widgetOf h2 q = widgetOf H q) →
    shapes (shapeOf h2 fuel) ps = shapes (shapeOf h fuel) cs
  kids : ∀ q, lo ≤ q → ∀ c ∈ QSplitter.children H q, lo ≤ c
  fresh : ∀ c ∈ ps, lo ≤ c

/-- The fields of the container a nested walk leaves alone. -/
def sameFields (st st1 : ContainerWidget) : Prop :=
  st1._mainLayout = st._mainLayout ∧ st1._splitter = st._splitter ∧
    st1._floatingWidgets = st._floatingWidgets ∧ st1._orientation = st._orientation

/-- What decoding the encoding `enc` of the tree under `p` of `h` does below a
splitter `cur`: the walk succeeds, consumes exactly `enc`, builds a copy of the
tree at the next free address, appends it to `cur` and touches nothing else. -/
def Decodes {α : Type} (ds : QDataStream α) (reg : Registry) (fuel : Nat) (h : Heap) (p : Nat)
    (enc : List α) : Prop :=
  ∀ (st : ContainerWidget) (cur : Nat) (rest : List α) (pc : Option Nat) (o : Int)
    (cs : List Nat) (sz : List Int),
    st.heap[cur]? = some ⟨pc, Widget.QSplitter o cs sz⟩ →
    ∃ st1, restoreGeometryWalk ds reg fuel (enc ++ rest) (some cur) st = some (true, rest, st1) ∧
      NewSubtree h fuel p st.heap.length st1.heap ∧
      st1.heap[cur]? = some ⟨pc, Widget.QSplitter o (cs ++ [st.heap.length]) sz⟩ ∧
      (∀ q, q < st.heap.length → q ≠ cur → st1.heap[q]? = st.heap[q]?) ∧
      sameFields st st1

/-- Saving the tree under a restorable widget gives an encoding that decodes
to a copy of the tree. -/
def RoundTrips {α : Type} (ds : QDataStream α) (reg : Registry) (fuel : Nat) : Prop :=
  ∀ (h : Heap) (p : Nat), restorable reg h fuel p = true →
    ∀ out : List α, ∃ enc,
      saveGeometryWalk ds h fuel out (some p) = some (out ++ enc) ∧ Decodes ds reg fuel h p enc

/-- The stream after `n` floating entries (a name and a geometry each). -/
def skipFloatings {α : Type} (ds : QDataStream α) : Nat → List α → List α
  | 0, inp => inp
  | n + 1, inp => skipFloatings ds n (ds.readByteArray (ds.readString inp).2).2

/-- A blob with a valid header, no floating entry and one splitter node of
orientation 3 without children. -/
def blobOrientation3 : List Field :=
  [Field.u32 0x1337, Field.u32 1, Field.i32 0, Field.i32 1, Field.i32 3, Field.i32 0,
   Field.ints []]

/-- The container after `restoreState(blobOrientation3)` on a new container: a
top-level splitter whose orientation is the value 3 of the blob. -/
def orientation3 : ContainerWidget :=
  { heap := [⟨none, Widget.QSplitter 3 [] []⟩],
    _mainLayout := [some 0], _orientation := 1, _splitter := some 0,
    _sections := [], _floatingWidgets := [] }

/-! ## Sample data: floating panels and nested sections -/

/-- A blob with a valid header, the floating entries a and b, and a top-level
splitter without children. -/
def blobFloatingAB : List Field :=
  [Field.u32 0x1337, Field.u32 1, Field.i32 2, Field.str "a", Field.bytes [7],
   Field.str "b", Field.bytes [8], Field.i32 1, Field.i32 1, Field.i32 0, Field.ints []]

/-- The container `twoSections` after `restoreState(blobFloatingAB)`: the
contents a and b sit in floating panels, the old sections are deleted and the
new top-level splitter is empty. -/
def twoFloating : ContainerWidget :=
  { heap := [⟨none, Widget.deleted⟩,
             ⟨none, Widget.QSplitter 1 [] []⟩,
             ⟨none, Widget.deleted⟩,
             ⟨none, Widget.FloatingWidget contentA (some ⟨contentA⟩) (some ⟨contentA⟩) [7]⟩,
             ⟨none, Widget.FloatingWidget contentB (some ⟨contentB⟩) (some ⟨contentB⟩) [8]⟩,
             ⟨none, Widget.QSplitter 1 [] []⟩],
    _mainLayout := [some 5], _orientation := 1, _splitter := some 5,
    _sections := [], _floatingWidgets := [3, 4] }

/-- The container after the drops of `sampleDrops` on a new container: the
top-level splitter 1 holds the vertical splitter 4 and the section of b; the
splitter 4 holds the sections of c and a. -/
def nestedSections : ContainerWidget :=
  { heap := [⟨some 4, Widget.SectionWidget [dataOf contentA] (-1)⟩,
             ⟨none, Widget.QSplitter 1 [4, 2] []⟩,
             ⟨some 1, Widget.SectionWidget [dataOf contentB] 0⟩,
             ⟨some 4, Widget.SectionWidget [dataOf contentC] 0⟩,
             ⟨some 1, Widget.QSplitter 2 [3, 0] []⟩],
    _mainLayout := [some 1], _orientation := 1, _splitter := some 1,
    _sections := [0, 2, 3], _floatingWidgets := [] }

/-- A blob with a valid header that names the content a twice: in a floating
entry and in the one section of its top-level splitter. -/
def blobTwice : List Field :=
  [Field.u32 0x1337, Field.u32 1, Field.i32 1, Field.str "a", Field.bytes [7],
   Field.i32 1, Field.i32 1, Field.i32 1, Field.ints [],
   Field.i32 2, Field.i32 0, Field.i32 1, Field.str "a"]

/-- The root-splitter property of a container state: the `_splitter` field is
unset and the main layout is empty, or the field names a splitter and the main
layout holds exactly this splitter. -/
def rootSplitterInstalled (st : ContainerWidget) : Bool :=
  match st._splitter with
  | none => st._mainLayout.isEmpty
  | some sp => decide (st._mainLayout = [some sp]) && isSplitter st.heap sp


/-! ## Vocabulary of the tree decoder -/

/-- Reads use up the stream: no read makes the stream longer, and a read that
gives an int other than 0 has taken at least one item (the exhausted stream
reads as 0). -/
structure QDataStream.Consuming {α : Type} (ds : QDataStream α) : Prop where
  readInt_le : ∀ inp : List α, (ds.readInt inp).2.length ≤ inp.length
  readInt_lt : ∀ inp : List α, (ds.readInt inp).1 ≠ 0 → (ds.readInt inp).2.length < inp.length
  readString_le : ∀ inp : List α, (ds.readString inp).2.length ≤ inp.length
  readIntList_le : ∀ inp : List α, (ds.readIntList inp).2.length ≤ inp.length

/-! ## Vocabulary of the floating entries -/

theorem getElem?_updateAt (h : Heap) (p q : Nat) (f : Cell → Cell) :
    (updateAt h p f)[q]? = if q = p then (h[p]?).map f else h[q]? := by
  unfold updateAt
  cases hp : h[p]? with
  | none => by_cases hq : q = p <;> simp [hq, hp]
  | some c =>
      by_cases hq : q = p
      · subst hq
        have : q < h.length := by
          rcases List.getElem?_eq_some_iff.mp hp with ⟨hlt, _⟩
          exact hlt
        simp [List.getElem?_set, this]
      · have : ¬ p = q := fun e => hq e.symm
        simp [List.getElem?_set, hq, this]

theorem length_updateAt (h : Heap) (p : Nat) (f : Cell → Cell) :
    (updateAt h p f).length = h.length := by
  unfold updateAt
  cases h[p]? <;> simp

theorem lt_of_getElem?_some {h : Heap} {p : Nat} {c : Cell} (hp : h[p]? = some c) : p < h.length := by
  rcases List.getElem?_eq_some_iff.mp hp with ⟨hlt, _⟩
  exact hlt

theorem getElem?_alloc (h : Heap) (c : Cell) (q : Nat) :
    (alloc h c).2[q]? = if q = h.length then some c else h[q]? := by
  unfold alloc
  by_cases hq : q = h.length
  · subst hq
    simp
  · by_cases hlt : q < h.length
    · simp [List.getElem?_append, hlt, hq]
    · have : h.length < q := by omega
      simp [hq]
      rw [List.getElem?_eq_none (by simp; omega), List.getElem?_eq_none (by omega)]

namespace QSplitter

theorem length_detach (h : Heap) (w : Nat) : (detach h w).length = h.length := by
  unfold detach removeChild
  cases parentOf h w <;> simp [length_updateAt]

theorem length_insertWidget (h : Heap) (sp : Nat) (idx : Int) (w : Nat) :
    (insertWidget h sp idx w).length = h.length := by
  simp [insertWidget, length_updateAt, length_detach]

theorem length_addWidget (h : Heap) (sp w : Nat) : (addWidget h sp w).length = h.length := by
  simp [addWidget, length_insertWidget]

/-- Insertion of a widget that sits in no splitter. -/
theorem getElem?_insertWidget_detached {h : Heap} {sp w : Nat} {ww : Widget} {psp : Option Nat}
    {o : Int} {cs : List Nat} {sz : List Int} (idx : Int)
    (hw : h[w]? = some ⟨none, ww⟩) (hsp : h[sp]? = some ⟨psp, Widget.QSplitter o cs sz⟩)
    (hne2 : w ≠ sp) (q : Nat) :
    (insertWidget h sp idx w)[q]? =
      if q = w then some ⟨some sp, ww⟩
      else if q = sp then some ⟨psp, Widget.QSplitter o (insertAt cs (clampIndex idx cs.length) w) sz⟩
      else h[q]? := by
  have hne : sp ≠ w := fun e => hne2 e.symm
  simp only [insertWidget, detach, parentOf, hw, getElem?_updateAt, hsp, Option.map_some']
  by_cases h1 : q = w
  · simp [h1, hne2, hw]
  · by_cases h2 : q = sp
    · simp [h2, hne, hsp]
    · simp [h1, h2]

/-- Insertion of a widget that sits in another splitter. -/
theorem getElem?_insertWidget_moved {h : Heap} {sp w p : Nat} {ww : Widget} {psp pp : Option Nat}
    {o o1 : Int} {cs cs1 : List Nat} {sz sz1 : List Int} (idx : Int)
    (hw : h[w]? = some ⟨some p, ww⟩) (hp : h[p]? = some ⟨pp, Widget.QSplitter o1 cs1 sz1⟩)
    (hsp : h[sp]? = some ⟨psp, Widget.QSplitter o cs sz⟩) (hpsp : p ≠ sp) (hwsp : w ≠ sp) (hwp : w ≠ p)
    (q : Nat) :
    (insertWidget h sp idx w)[q]? =
      if q = w then some ⟨some sp, ww⟩
      else if q = sp then some ⟨psp, Widget.QSplitter o (insertAt cs (clampIndex idx cs.length) w) sz⟩
      else if q = p then some ⟨pp, Widget.QSplitter o1 (cs1.erase w) sz1⟩
      else h[q]? := by
  have e1 : sp ≠ p := fun e => hpsp e.symm
  have e2 : sp ≠ w := fun e => hwsp e.symm
  have e3 : p ≠ w := fun e => hwp e.symm
  simp only [insertWidget, detach, removeChild, parentOf, hw, getElem?_updateAt, hsp, hp, Option.map_some',
    e1, e2, e3, hpsp, hwsp, hwp, if_true, if_false]
  by_cases h1 : q = w
  · simp [h1, hw]
  · by_cases h2 : q = sp
    · simp [h2, e2, hsp]
    · by_cases h3 : q = p
      · simp [h3, e3, hpsp]
      · simp [h1, h2, h3]

/-- Insertion of a widget that already sits in the splitter: a move. -/
theorem getElem?_insertWidget_same {h : Heap} {sp w : Nat} {ww : Widget} {psp : Option Nat}
    {o : Int} {cs : List Nat} {sz : List Int} (idx : Int)
    (hw : h[w]? = some ⟨some sp, ww⟩) (hsp : h[sp]? = some ⟨psp, Widget.QSplitter o cs sz⟩)
    (hwsp : w ≠ sp) (q : Nat) :
    (insertWidget h sp idx w)[q]? =
      if q = w then some ⟨some sp, ww⟩
      else if q = sp then
        some ⟨psp, Widget.QSplitter o
          (insertAt (cs.erase w) (clampIndex idx (cs.erase w).length) w) sz⟩
      else h[q]? := by
  have e2 : sp ≠ w := fun e => hwsp e.symm
  simp only [insertWidget, detach, removeChild, parentOf, hw, getElem?_updateAt, hsp, Option.map_some',
    e2, hwsp, if_true, if_false]
  by_cases h1 : q = w
  · simp [h1, hw]
  · by_cases h2 : q = sp
    · simp [h2, e2]
    · simp [h1, h2]

end QSplitter

theorem insertAt_length (cs : List Nat) (w : Nat) : insertAt cs cs.length w = cs ++ [w] := by
  simp [insertAt]

theorem insertAt_zero (cs : List Nat) (w : Nat) : insertAt cs 0 w = w :: cs := by
  simp [insertAt]

theorem insertAt_append (pre post : List Nat) (w : Nat) :
    insertAt (pre ++ post) pre.length w = pre ++ w :: post := by
  simp [insertAt]

theorem insertAt_append_succ (pre post : List Nat) (t w : Nat) :
    insertAt (pre ++ t :: post) (pre.length + 1) w = pre ++ t :: w :: post := by
  have h1 : (pre ++ t :: post).take (pre.length + 1) = pre ++ [t] := by
    rw [List.take_append_eq_append_take]
    simp [List.take_of_length_le]
  have h2 : (pre ++ t :: post).drop (pre.length + 1) = post := by
    rw [List.drop_append_eq_append_drop]
    simp [List.drop_of_length_le]
  simp [insertAt, h1, h2]

theorem indexOf_append_cons {pre : List Nat} {t : Nat} (post : List Nat) (hpre : t ∉ pre) :
    (pre ++ t :: post).indexOf t = pre.length := by
  induction pre with
  | nil => simp
  | cons x xs ih =>
      have hx : x ≠ t := fun e => hpre (by simp [e])
      have hxs : t ∉ xs := fun e => hpre (by simp [e])
      simp [List.indexOf_cons, hx, ih hxs]

theorem erase_append_cons {pre : List Nat} {t : Nat} (post : List Nat) (hpre : t ∉ pre) :
    (pre ++ t :: post).erase t = pre ++ post := by
  rw [List.erase_append_right _ hpre]
  simp

namespace QSplitter

theorem clampIndex_of_le {k len : Nat} (hk : k ≤ len) : clampIndex (k : Int) len = k := by
  unfold clampIndex
  have h1 : ¬ ((k : Int) < 0 ∨ (k : Int) > (len : Int)) := by omega
  rw [if_neg h1]
  simp

theorem clampIndex_succ_of_lt {k len : Nat} (hk : k < len) : clampIndex ((k : Int) + 1) len = k + 1 := by
  unfold clampIndex
  have h1 : ¬ ((k : Int) + 1 < 0 ∨ (k : Int) + 1 > (len : Int)) := by omega
  rw [if_neg h1]
  omega

theorem clampIndex_beyond {k len : Nat} (hk : len ≤ k) : clampIndex (k : Int) len = len := by
  unfold clampIndex
  by_cases h : (k : Int) < 0 ∨ (k : Int) > (len : Int)
  · rw [if_pos h]
  · rw [if_neg h]
    omega

theorem children_of_cell {h : Heap} {sp : Nat} {par : Option Nat} {o : Int} {cs : List Nat}
    {sz : List Int} (hsp : h[sp]? = some ⟨par, Widget.QSplitter o cs sz⟩) : children h sp = cs := by
  simp [children, widgetOf, hsp]

theorem orientation_of_cell {h : Heap} {sp : Nat} {par : Option Nat} {o : Int} {cs : List Nat}
    {sz : List Int} (hsp : h[sp]? = some ⟨par, Widget.QSplitter o cs sz⟩) : orientation h sp = o := by
  simp [orientation, widgetOf, hsp]

theorem count_of_cell {h : Heap} {sp : Nat} {par : Option Nat} {o : Int} {cs : List Nat}
    {sz : List Int} (hsp : h[sp]? = some ⟨par, Widget.QSplitter o cs sz⟩) :
    count h sp = (cs.length : Int) := by
  simp [count, children_of_cell hsp]

theorem indexOf_of_cell {h : Heap} {sp : Nat} {par : Option Nat} {o : Int} {pre post : List Nat}
    {t : Nat} {sz : List Int} (hsp : h[sp]? = some ⟨par, Widget.QSplitter o (pre ++ t :: post) sz⟩)
    (hpre : t ∉ pre) : indexOf h sp t = (pre.length : Int) := by
  simp [indexOf, children_of_cell hsp, indexOf_append_cons post hpre]

end QSplitter

theorem isSplitter_cell {h : Heap} {p : Nat} (hs : isSplitter h p = true) :
    ∃ par o cs sz, h[p]? = some ⟨par, Widget.QSplitter o cs sz⟩ := by
  unfold isSplitter widgetOf at hs
  cases hp : h[p]? with
  | none => simp [hp] at hs
  | some c =>
      rcases c with ⟨par, w⟩
      cases w <;> simp [hp] at hs
      exact ⟨par, _, _, _, rfl⟩

theorem isSection_cell {h : Heap} {p : Nat} (hs : isSection h p = true) :
    ∃ par ts i, h[p]? = some ⟨par, Widget.SectionWidget ts i⟩ := by
  unfold isSection widgetOf at hs
  cases hp : h[p]? with
  | none => simp [hp] at hs
  | some c =>
      rcases c with ⟨par, w⟩
      cases w <;> simp [hp] at hs
      exact ⟨par, _, _, rfl⟩

theorem findParentSplitter_cell {h : Heap} {w p : Nat} (hf : findParentSplitter h w = some p) :
    (∃ ww, h[w]? = some ⟨some p, ww⟩) ∧
      ∃ par o cs sz, h[p]? = some ⟨par, Widget.QSplitter o cs sz⟩ := by
  unfold findParentSplitter at hf
  cases hpar : parentOf h w with
  | none => simp [hpar] at hf
  | some q =>
      simp only [hpar] at hf
      by_cases hs : isSplitter h q = true
      · simp only [hs, if_true, Option.some.injEq] at hf
        subst hf
        refine ⟨?_, isSplitter_cell hs⟩
        unfold parentOf at hpar
        cases hw : h[w]? with
        | none => simp [hw] at hpar
        | some c =>
            rcases c with ⟨pp, ww⟩
            simp [hw] at hpar
            subst hpar
            exact ⟨ww, rfl⟩
      · simp [hs] at hf

/-- The store after `new SectionWidget(this)` and `addContent(data, true)`. -/
theorem getElem?_newSection (st : ContainerWidget) (data : InternalContentData) (q : Nat) :
    (SectionWidget.addContent (SectionWidget.create st).2.heap (SectionWidget.create st).1 data true)[q]? =
      if q = st.heap.length then some ⟨none, Widget.SectionWidget [data] 0⟩ else st.heap[q]? := by
  simp only [SectionWidget.addContent, SectionWidget.create, getElem?_updateAt, getElem?_alloc]
  by_cases hq : q = st.heap.length
  · simp [hq, alloc]
  · simp [hq, alloc]

theorem length_newSection (st : ContainerWidget) (data : InternalContentData) :
    (SectionWidget.addContent (SectionWidget.create st).2.heap (SectionWidget.create st).1 data true).length =
      st.heap.length + 1 := by
  simp [SectionWidget.addContent, SectionWidget.create, length_updateAt, alloc]

/-! ## The sample states are reached by the operations -/

theorem oneSection_reached (v : Nat) :
    addSectionContent v ContainerWidget.new contentA none DropArea.CenterDropArea
      = some (some 0, oneSection) := by rfl

theorem twoSections_reached (v : Nat) :
    addSectionContent v oneSection contentB none DropArea.RightDropArea
      = some (none, twoSections) := by rfl

/-! ## restoreState: header check -/

/-- C2: a blob whose magic is not 0x00001337 or whose version is not 1 makes
`restoreState` return false and leaves the whole container state as it was. -/
theorem restoreState_rejects_bad_header {α : Type} (ds : QDataStream α) (reg : Registry)
    (fuel : Nat) (st : ContainerWidget) (data : List α)
    (hbad : (ds.readUInt32 data).1 ≠ 0x00001337 ∨
      (ds.readUInt32 (ds.readUInt32 data).2).1 ≠ 1) :
    restoreState ds reg fuel st data = some (false, st) := by
  unfold restoreState
  by_cases hm : (ds.readUInt32 data).1 = 0x00001337
  · have hv : (ds.readUInt32 (ds.readUInt32 data).2).1 ≠ 1 := by
      rcases hbad with h | h
      · exact absurd hm h
      · exact h
    simp [hm, hv]
  · simp [hm]

/-! ## dropContent with a target section -/

/-- C9: a Center drop returns the target, appends the content at the end of the
target's content list, and changes nothing else: every other widget (each
splitter with its orientation and children, each other section with its
contents) and the container's fields are as before. -/
theorem dropContent_center_appends (QT_VERSION : Nat) (st : ContainerWidget)
    (data : InternalContentData) (T : Nat) (autoActive : Bool)
    (hT : isSection st.heap T = true) :
    ∃ st', dropContent QT_VERSION st data (some T) DropArea.CenterDropArea autoActive
        = some (some T, st') ∧
      SectionWidget.contents st'.heap T = SectionWidget.contents st.heap T ++ [data.content] ∧
      SectionWidget.tabs st'.heap T = SectionWidget.tabs st.heap T ++ [data] ∧
      parentOf st'.heap T = parentOf st.heap T ∧
      (∀ q, q ≠ T → st'.heap[q]? = st.heap[q]?) ∧
      st'.heap.length = st.heap.length ∧
      st'._mainLayout = st._mainLayout ∧ st'._splitter = st._splitter ∧
      st'._sections = st._sections ∧ st'._floatingWidgets = st._floatingWidgets ∧
      st'._orientation = st._orientation := by
  obtain ⟨par, ts, i, hc⟩ := isSection_cell hT
  refine ⟨_, rfl, ?_, ?_, ?_, ?_, ?_, rfl, rfl, rfl, rfl, rfl⟩
  · simp [SectionWidget.contents, SectionWidget.tabs, widgetOf, SectionWidget.addContent,
      getElem?_updateAt, hc]
  · simp [SectionWidget.tabs, widgetOf, SectionWidget.addContent, getElem?_updateAt, hc]
  · simp [parentOf, SectionWidget.addContent, getElem?_updateAt, hc]
  · intro q hq
    simp [SectionWidget.addContent, getElem?_updateAt, hq]
  · simp [SectionWidget.addContent, length_updateAt]

/-- The store after a new section with the dropped content was inserted into
the splitter `P` at position `k`. -/
theorem sibling_insert {st : ContainerWidget} {data : InternalContentData} {P : Nat}
    {par : Option Nat} {o : Int} {cs : List Nat} {sz : List Int} (idx : Int)
    (hP : st.heap[P]? = some ⟨par, Widget.QSplitter o cs sz⟩) (q : Nat) :
    (QSplitter.insertWidget
        (SectionWidget.addContent (SectionWidget.create st).2.heap (SectionWidget.create st).1 data true)
        P idx st.heap.length)[q]? =
      if q = st.heap.length then some ⟨some P, Widget.SectionWidget [data] 0⟩
      else if q = P then
        some ⟨par, Widget.QSplitter o (insertAt cs (QSplitter.clampIndex idx cs.length) st.heap.length) sz⟩
      else st.heap[q]? := by
  have hPlt := lt_of_getElem?_some hP
  have hne : st.heap.length ≠ P := by omega
  have hne2 : P ≠ st.heap.length := by omega
  have h1 := getElem?_newSection st data st.heap.length
  have h2 := getElem?_newSection st data P
  simp only [if_true, hne2, if_false] at h1 h2
  rw [hP] at h2
  rw [QSplitter.getElem?_insertWidget_detached idx h1 h2 hne q]
  by_cases e1 : q = st.heap.length
  · simp [e1]
  · by_cases e2 : q = P
    · simp [e2, hne2]
    · simp [e1, e2, getElem?_newSection]

/-- C5: an edge drop on a target `T` whose parent splitter `P` already has the
axis of the area keeps the orientation of `P`, creates one widget only (the new
section holding the dropped content, no splitter) and makes it the neighbour of
`T` in `P`: just before `T` for Top and Left, just after `T` for Bottom and
Right, the other children keeping their order; nothing else changes. -/
theorem dropContent_sibling_same_axis (QT_VERSION : Nat) (st : ContainerWidget)
    (data : InternalContentData) (T P : Nat) (a : DropArea) (autoActive : Bool)
    (pre post : List Nat)
    (hedge : a.isEdge = true)
    (hpar : findParentSplitter st.heap T = some P)
    (hch : QSplitter.children st.heap P = pre ++ T :: post)
    (hpre : T ∉ pre)
    (hax : QSplitter.orientation st.heap P = a.axis) :
    ∃ st', dropContent QT_VERSION st data (some T) a autoActive
        = some (some st.heap.length, st') ∧
      QSplitter.orientation st'.heap P = QSplitter.orientation st.heap P ∧
      QSplitter.children st'.heap P =
        (if a.before = true then pre ++ st.heap.length :: T :: post
         else pre ++ T :: st.heap.length :: post) ∧
      widgetOf st'.heap st.heap.length = Widget.SectionWidget [data] 0 ∧
      parentOf st'.heap st.heap.length = some P ∧
      st'.heap.length = st.heap.length + 1 ∧
      (∀ q, q ≠ P → q < st.heap.length → st'.heap[q]? = st.heap[q]?) ∧
      st'._mainLayout = st._mainLayout ∧ st'._splitter = st._splitter ∧
      st'._sections = st._sections ++ [st.heap.length] ∧
      st'._floatingWidgets = st._floatingWidgets := by
  obtain ⟨⟨ww, hT⟩, ⟨par, o, cs, sz, hP⟩⟩ := findParentSplitter_cell hpar
  have hPlt := lt_of_getElem?_some hP
  have hcs : cs = pre ++ T :: post := by
    rw [← hch, QSplitter.children_of_cell hP]
  have ho : o = a.axis := by
    rw [← hax, QSplitter.orientation_of_cell hP]
  subst hcs
  have hne2 : P ≠ st.heap.length := by omega
  have hP1 := getElem?_newSection st data P
  simp only [hne2, if_false] at hP1
  rw [hP] at hP1
  have hidx := QSplitter.indexOf_of_cell hP1 hpre
  have hor := QSplitter.orientation_of_cell hP1
  have hlen : pre.length ≤ (pre ++ T :: post).length := by simp
  have hlen2 : pre.length < (pre ++ T :: post).length := by simp
  have key : ∀ (idx : Int) (k : Nat), QSplitter.clampIndex idx (pre ++ T :: post).length = k →
      dropContent QT_VERSION st data (some T) a autoActive
        = some (some st.heap.length, { (SectionWidget.create st).2 with
            heap := QSplitter.insertWidget
              (SectionWidget.addContent (SectionWidget.create st).2.heap
                (SectionWidget.create st).1 data true) P idx st.heap.length }) →
      ∃ st', dropContent QT_VERSION st data (some T) a autoActive
          = some (some st.heap.length, st') ∧
        QSplitter.orientation st'.heap P = QSplitter.orientation st.heap P ∧
        QSplitter.children st'.heap P = insertAt (pre ++ T :: post) k st.heap.length ∧
        widgetOf st'.heap st.heap.length = Widget.SectionWidget [data] 0 ∧
        parentOf st'.heap st.heap.length = some P ∧
        st'.heap.length = st.heap.length + 1 ∧
        (∀ q, q ≠ P → q < st.heap.length → st'.heap[q]? = st.heap[q]?) ∧
        st'._mainLayout = st._mainLayout ∧ st'._splitter = st._splitter ∧
        st'._sections = st._sections ++ [st.heap.length] ∧
        st'._floatingWidgets = st._floatingWidgets := by
    intro idx k hk hd
    refine ⟨_, hd, ?_, ?_, ?_, ?_, ?_, ?_, rfl, rfl, rfl, rfl⟩
    · simp [QSplitter.orientation, widgetOf, sibling_insert idx hP, hne2, hP]
    · have hk2 := hk
      simp only [List.length_append, List.length_cons] at hk2
      simp [QSplitter.children, widgetOf, sibling_insert idx hP, hne2, hk2]
    · simp [widgetOf, sibling_insert idx hP]
    · simp [parentOf, sibling_insert idx hP]
    · simp [QSplitter.length_insertWidget, length_newSection]
    · intro q h1 h2
      have h3 : q ≠ st.heap.length := by omega
      simp [sibling_insert idx hP, h1, h3]
  cases a <;> simp [DropArea.isEdge] at hedge
  · obtain ⟨st', h1, h2, h3, h4⟩ := key (pre.length : Int) pre.length
      (QSplitter.clampIndex_of_le hlen)
      (by simp only [dropContent, hpar, hor, ho, DropArea.axis, if_true, hidx]; rfl)
    exact ⟨st', h1, h2, by simp [h3, DropArea.before, insertAt_append], h4⟩
  · obtain ⟨st', h1, h2, h3, h4⟩ := key ((pre.length : Int) + 1) (pre.length + 1)
      (QSplitter.clampIndex_succ_of_lt hlen2)
      (by simp only [dropContent, hpar, hor, ho, DropArea.axis, if_true, hidx]; rfl)
    exact ⟨st', h1, h2, by simp [h3, DropArea.before, insertAt_append_succ], h4⟩
  · obtain ⟨st', h1, h2, h3, h4⟩ := key ((pre.length : Int) + 1) (pre.length + 1)
      (QSplitter.clampIndex_succ_of_lt hlen2)
      (by simp only [dropContent, hpar, hor, ho, DropArea.axis, if_true, hidx]; rfl)
    exact ⟨st', h1, h2, by simp [h3, DropArea.before, insertAt_append_succ], h4⟩
  · obtain ⟨st', h1, h2, h3, h4⟩ := key (pre.length : Int) pre.length
      (QSplitter.clampIndex_of_le hlen)
      (by simp only [dropContent, hpar, hor, ho, DropArea.axis, if_true, hidx]; rfl)
    exact ⟨st', h1, h2, by simp [h3, DropArea.before, insertAt_append], h4⟩

namespace QSplitter

theorem getElem?_addWidget_detached {h : Heap} {sp w : Nat} {ww : Widget} {psp : Option Nat}
    {o : Int} {cs : List Nat} {sz : List Int}
    (hw : h[w]? = some ⟨none, ww⟩) (hsp : h[sp]? = some ⟨psp, Widget.QSplitter o cs sz⟩)
    (hne2 : w ≠ sp) (q : Nat) :
    (addWidget h sp w)[q]? =
      if q = w then some ⟨some sp, ww⟩
      else if q = sp then some ⟨psp, Widget.QSplitter o (cs ++ [w]) sz⟩
      else h[q]? := by
  unfold addWidget
  rw [getElem?_insertWidget_detached _ hw hsp hne2 q, count_of_cell hsp,
    clampIndex_of_le (Nat.le_refl _), insertAt_length]

theorem getElem?_addWidget_moved {h : Heap} {sp w p : Nat} {ww : Widget} {psp pp : Option Nat}
    {o o1 : Int} {cs cs1 : List Nat} {sz sz1 : List Int}
    (hw : h[w]? = some ⟨some p, ww⟩) (hp : h[p]? = some ⟨pp, Widget.QSplitter o1 cs1 sz1⟩)
    (hsp : h[sp]? = some ⟨psp, Widget.QSplitter o cs sz⟩) (hpsp : p ≠ sp) (hwsp : w ≠ sp) (hwp : w ≠ p)
    (q : Nat) :
    (addWidget h sp w)[q]? =
      if q = w then some ⟨some sp, ww⟩
      else if q = sp then some ⟨psp, Widget.QSplitter o (cs ++ [w]) sz⟩
      else if q = p then some ⟨pp, Widget.QSplitter o1 (cs1.erase w) sz1⟩
      else h[q]? := by
  unfold addWidget
  rw [getElem?_insertWidget_moved _ hw hp hsp hpsp hwsp hwp q, count_of_cell hsp,
    clampIndex_of_le (Nat.le_refl _), insertAt_length]

end QSplitter

/-- The store after `newSplitter` on top of a new section with the dropped content. -/
theorem getElem?_newSection_newSplitter (st : ContainerWidget) (data : InternalContentData)
    (ax : Int) (q : Nat) :
    (newSplitter (SectionWidget.addContent (SectionWidget.create st).2.heap
        (SectionWidget.create st).1 data true) ax).2[q]? =
      if q = st.heap.length + 1 then some ⟨none, Widget.QSplitter ax [] []⟩
      else if q = st.heap.length then some ⟨none, Widget.SectionWidget [data] 0⟩
      else st.heap[q]? := by
  unfold newSplitter
  rw [getElem?_alloc, length_newSection, getElem?_newSection]

theorem fst_newSection_newSplitter (st : ContainerWidget) (data : InternalContentData) (ax : Int) :
    (newSplitter (SectionWidget.addContent (SectionWidget.create st).2.heap
        (SectionWidget.create st).1 data true) ax).1 = st.heap.length + 1 := by
  unfold newSplitter alloc
  simp [length_newSection]

/-- The wrap of the Top case: `s->addWidget(sw)`, `s->addWidget(targetSection)`,
`targetSectionSplitter->insertWidget(index, s)`. -/
theorem wrap_new_first {h : Heap} {n s P T : Nat} {wn ww : Widget} {par : Option Nat}
    {o ax : Int} {pre post : List Nat} {sz : List Int}
    (hn : h[n]? = some ⟨none, wn⟩) (hs : h[s]? = some ⟨none, Widget.QSplitter ax [] []⟩)
    (hP : h[P]? = some ⟨par, Widget.QSplitter o (pre ++ T :: post) sz⟩)
    (hT : h[T]? = some ⟨some P, ww⟩)
    (hns : n ≠ s) (hnP : n ≠ P) (hnT : n ≠ T) (hsP : s ≠ P) (hsT : s ≠ T) (hTP : T ≠ P)
    (hpre : T ∉ pre) (q : Nat) :
    (QSplitter.insertWidget (QSplitter.addWidget (QSplitter.addWidget h s n) s T)
        P (pre.length : Int) s)[q]? =
      if q = s then some ⟨some P, Widget.QSplitter ax [n, T] []⟩
      else if q = n then some ⟨some s, wn⟩
      else if q = T then some ⟨some s, ww⟩
      else if q = P then some ⟨par, Widget.QSplitter o (pre ++ s :: post) sz⟩
      else h[q]? := by
  have a1 : ∀ q, (QSplitter.addWidget h s n)[q]? =
      if q = n then some ⟨some s, wn⟩
      else if q = s then some ⟨none, Widget.QSplitter ax ([] ++ [n]) []⟩
      else h[q]? := fun q => QSplitter.getElem?_addWidget_detached hn hs hns q
  have a2 : ∀ q, (QSplitter.addWidget (QSplitter.addWidget h s n) s T)[q]? =
      if q = T then some ⟨some s, ww⟩
      else if q = s then some ⟨none, Widget.QSplitter ax (([] ++ [n]) ++ [T]) []⟩
      else if q = P then some ⟨par, Widget.QSplitter o ((pre ++ T :: post).erase T) sz⟩
      else (QSplitter.addWidget h s n)[q]? := fun q =>
    QSplitter.getElem?_addWidget_moved
      (by rw [a1]; simp [hnT.symm, hsT.symm, hT])
      (by rw [a1]; simp [hnP.symm, hsP.symm, hP])
      (by rw [a1]; simp [hns.symm]) hsP.symm hsT.symm hTP q
  have a3 : ∀ q, (QSplitter.insertWidget (QSplitter.addWidget (QSplitter.addWidget h s n) s T)
        P (pre.length : Int) s)[q]? =
      if q = s then some ⟨some P, Widget.QSplitter ax (([] ++ [n]) ++ [T]) []⟩
      else if q = P then
        some ⟨par, Widget.QSplitter o (insertAt ((pre ++ T :: post).erase T)
          (QSplitter.clampIndex (pre.length : Int) ((pre ++ T :: post).erase T).length) s) sz⟩
      else (QSplitter.addWidget (QSplitter.addWidget h s n) s T)[q]? := fun q =>
    QSplitter.getElem?_insertWidget_detached (pre.length : Int)
      (by rw [a2]; simp [hsT])
      (by rw [a2]; simp [hTP.symm, hsP.symm]) hsP q
  rw [a3, a2, a1, erase_append_cons post hpre, QSplitter.clampIndex_of_le (by simp),
    insertAt_append]
  by_cases c1 : q = s
  · simp [c1]
  · by_cases c2 : q = n
    · simp [c2, hns, hnT, hnP]
    · by_cases c3 : q = T
      · simp [c3, hsT.symm, hnT.symm, hTP]
      · by_cases c4 : q = P
        · simp [c4, hsP.symm, hnP.symm, hTP.symm]
        · simp [c1, c2, c3, c4]

/-- The wrap of the Right and Bottom cases: `s->addWidget(targetSection)`,
`s->addWidget(sw)`, `targetSectionSplitter->insertWidget(index, s)`. -/
theorem wrap_target_first {h : Heap} {n s P T : Nat} {wn ww : Widget} {par : Option Nat}
    {o ax : Int} {pre post : List Nat} {sz : List Int}
    (hn : h[n]? = some ⟨none, wn⟩) (hs : h[s]? = some ⟨none, Widget.QSplitter ax [] []⟩)
    (hP : h[P]? = some ⟨par, Widget.QSplitter o (pre ++ T :: post) sz⟩)
    (hT : h[T]? = some ⟨some P, ww⟩)
    (hns : n ≠ s) (hnP : n ≠ P) (hnT : n ≠ T) (hsP : s ≠ P) (hsT : s ≠ T) (hTP : T ≠ P)
    (hpre : T ∉ pre) (q : Nat) :
    (QSplitter.insertWidget (QSplitter.addWidget (QSplitter.addWidget h s T) s n)
        P (pre.length : Int) s)[q]? =
      if q = s then some ⟨some P, Widget.QSplitter ax [T, n] []⟩
      else if q = n then some ⟨some s, wn⟩
      else if q = T then some ⟨some s, ww⟩
      else if q = P then some ⟨par, Widget.QSplitter o (pre ++ s :: post) sz⟩
      else h[q]? := by
  have a1 : ∀ q, (QSplitter.addWidget h s T)[q]? =
      if q = T then some ⟨some s, ww⟩
      else if q = s then some ⟨none, Widget.QSplitter ax ([] ++ [T]) []⟩
      else if q = P then some ⟨par, Widget.QSplitter o ((pre ++ T :: post).erase T) sz⟩
      else h[q]? := fun q =>
    QSplitter.getElem?_addWidget_moved hT hP hs hsP.symm hsT.symm hTP q
  have a2 : ∀ q, (QSplitter.addWidget (QSplitter.addWidget h s T) s n)[q]? =
      if q = n then some ⟨some s, wn⟩
      else if q = s then some ⟨none, Widget.QSplitter ax (([] ++ [T]) ++ [n]) []⟩
      else (QSplitter.addWidget h s T)[q]? := fun q =>
    QSplitter.getElem?_addWidget_detached
      (by rw [a1]; simp [hnT, hns, hnP, hn])
      (by rw [a1]; simp [hsT]) hns q
  have a3 : ∀ q, (QSplitter.insertWidget (QSplitter.addWidget (QSplitter.addWidget h s T) s n)
        P (pre.length : Int) s)[q]? =
      if q = s then some ⟨some P, Widget.QSplitter ax (([] ++ [T]) ++ [n]) []⟩
      else if q = P then
        some ⟨par, Widget.QSplitter o (insertAt ((pre ++ T :: post).erase T)
          (QSplitter.clampIndex (pre.length : Int) ((pre ++ T :: post).erase T).length) s) sz⟩
      else (QSplitter.addWidget (QSplitter.addWidget h s T) s n)[q]? := fun q =>
    QSplitter.getElem?_insertWidget_detached (pre.length : Int)
      (by rw [a2]; simp [hns.symm])
      (by rw [a2, a1]; simp [hnP.symm, hTP.symm, hsP.symm]) hsP q
  rw [a3, a2, a1, erase_append_cons post hpre, QSplitter.clampIndex_of_le (by simp),
    insertAt_append]
  by_cases c1 : q = s
  · simp [c1]
  · by_cases c2 : q = n
    · simp [c2, hns, hnT, hnP]
    · by_cases c3 : q = T
      · simp [c3, hsT.symm, hnT.symm, hTP]
      · by_cases c4 : q = P
        · simp [c4, hsP.symm, hnP.symm, hTP.symm]
        · simp [c1, c2, c3, c4]

/-- The wrap of the Left case: `s->addWidget(sw)`,
`targetSectionSplitter->insertWidget(index, s)`, `s->addWidget(targetSection)`. -/
theorem wrap_insert_first {h : Heap} {n s P T : Nat} {wn ww : Widget} {par : Option Nat}
    {o ax : Int} {pre post : List Nat} {sz : List Int}
    (hn : h[n]? = some ⟨none, wn⟩) (hs : h[s]? = some ⟨none, Widget.QSplitter ax [] []⟩)
    (hP : h[P]? = some ⟨par, Widget.QSplitter o (pre ++ T :: post) sz⟩)
    (hT : h[T]? = some ⟨some P, ww⟩)
    (hns : n ≠ s) (hnP : n ≠ P) (hnT : n ≠ T) (hsP : s ≠ P) (hsT : s ≠ T) (hTP : T ≠ P)
    (hpre : T ∉ pre) (q : Nat) :
    (QSplitter.addWidget (QSplitter.insertWidget (QSplitter.addWidget h s n)
        P (pre.length : Int) s) s T)[q]? =
      if q = s then some ⟨some P, Widget.QSplitter ax [n, T] []⟩
      else if q = n then some ⟨some s, wn⟩
      else if q = T then some ⟨some s, ww⟩
      else if q = P then some ⟨par, Widget.QSplitter o (pre ++ s :: post) sz⟩
      else h[q]? := by
  have a1 : ∀ q, (QSplitter.addWidget h s n)[q]? =
      if q = n then some ⟨some s, wn⟩
      else if q = s then some ⟨none, Widget.QSplitter ax ([] ++ [n]) []⟩
      else h[q]? := fun q => QSplitter.getElem?_addWidget_detached hn hs hns q
  have a2 : ∀ q, (QSplitter.insertWidget (QSplitter.addWidget h s n) P (pre.length : Int) s)[q]? =
      if q = s then some ⟨some P, Widget.QSplitter ax ([] ++ [n]) []⟩
      else if q = P then
        some ⟨par, Widget.QSplitter o (insertAt (pre ++ T :: post)
          (QSplitter.clampIndex (pre.length : Int) (pre ++ T :: post).length) s) sz⟩
      else (QSplitter.addWidget h s n)[q]? := fun q =>
    QSplitter.getElem?_insertWidget_detached (pre.length : Int)
      (by rw [a1]; simp [hns.symm])
      (by rw [a1]; simp [hnP.symm, hsP.symm, hP]) hsP q
  have a3 : ∀ q, (QSplitter.addWidget (QSplitter.insertWidget (QSplitter.addWidget h s n)
        P (pre.length : Int) s) s T)[q]? =
      if q = T then some ⟨some s, ww⟩
      else if q = s then some ⟨some P, Widget.QSplitter ax (([] ++ [n]) ++ [T]) []⟩
      else if q = P then
        some ⟨par, Widget.QSplitter o ((insertAt (pre ++ T :: post)
          (QSplitter.clampIndex (pre.length : Int) (pre ++ T :: post).length) s).erase T) sz⟩
      else (QSplitter.insertWidget (QSplitter.addWidget h s n) P (pre.length : Int) s)[q]? :=
    fun q => QSplitter.getElem?_addWidget_moved
      (by rw [a2, a1]; simp [hsT.symm, hTP, hnT.symm, hT])
      (by rw [a2]; simp [hsP.symm])
      (by rw [a2]; simp) hsP.symm hsT.symm hTP q
  have hins : insertAt (pre ++ T :: post) pre.length s = (pre ++ [s]) ++ T :: post := by
    rw [insertAt_append]
    simp
  have hpre2 : T ∉ pre ++ [s] := by
    simp [hpre, hsT.symm]
  rw [a3, a2, a1, QSplitter.clampIndex_of_le (by simp), hins, erase_append_cons post hpre2]
  by_cases c1 : q = s
  · simp [c1, hsT]
  · by_cases c2 : q = n
    · simp [c2, hns, hnT, hnP]
    · by_cases c3 : q = T
      · simp [c3, hsT.symm, hnT.symm]
      · by_cases c4 : q = P
        · simp [c4, hsP.symm, hnP.symm, hTP.symm]
        · simp [c1, c2, c3, c4]

/-- C6: an edge drop on a target section `T` whose parent splitter `P` has the
other axis leaves `P` with the same number of children and the same other
children in the same order, and puts into the slot of `T` a new splitter of the
axis of the area with exactly two children: `T` and a new section holding only
the dropped content, the new one first for Top and Left, `T` first for Bottom
and Right. The new splitter is the parent of `T`, and `P` the parent of the new
splitter. -/
theorem dropContent_sibling_other_axis (QT_VERSION : Nat) (st : ContainerWidget)
    (data : InternalContentData) (T P : Nat) (a : DropArea) (autoActive : Bool)
    (pre post : List Nat)
    (hedge : a.isEdge = true)
    (hsec : isSection st.heap T = true)
    (hpar : findParentSplitter st.heap T = some P)
    (hch : QSplitter.children st.heap P = pre ++ T :: post)
    (hpre : T ∉ pre)
    (hax : QSplitter.orientation st.heap P ≠ a.axis) :
    ∃ st', dropContent QT_VERSION st data (some T) a autoActive
        = some (some st.heap.length, st') ∧
      QSplitter.children st'.heap P = pre ++ (st.heap.length + 1) :: post ∧
      QSplitter.orientation st'.heap P = QSplitter.orientation st.heap P ∧
      widgetOf st'.heap (st.heap.length + 1) =
        Widget.QSplitter a.axis
          (if a.before = true then [st.heap.length, T] else [T, st.heap.length]) [] ∧
      parentOf st'.heap (st.heap.length + 1) = some P ∧
      widgetOf st'.heap st.heap.length = Widget.SectionWidget [data] 0 ∧
      parentOf st'.heap st.heap.length = some (st.heap.length + 1) ∧
      widgetOf st'.heap T = widgetOf st.heap T ∧
      parentOf st'.heap T = some (st.heap.length + 1) ∧
      st'.heap.length = st.heap.length + 2 ∧
      (∀ q, q ≠ P → q ≠ T → q < st.heap.length → st'.heap[q]? = st.heap[q]?) ∧
      st'._mainLayout = st._mainLayout ∧ st'._splitter = st._splitter ∧
      st'._sections = st._sections ++ [st.heap.length] ∧
      st'._floatingWidgets = st._floatingWidgets := by
  obtain ⟨⟨ww, hT⟩, ⟨par, o, cs, sz, hP⟩⟩ := findParentSplitter_cell hpar
  obtain ⟨parT, ts, i, hT2⟩ := isSection_cell hsec
  have hPlt := lt_of_getElem?_some hP
  have hTlt := lt_of_getElem?_some hT
  have hTP : T ≠ P := by
    intro e
    rw [e, hP] at hT2
    cases hT2
  have hcs : cs = pre ++ T :: post := by
    rw [← hch, QSplitter.children_of_cell hP]
  have ho : o ≠ a.axis := by
    rw [← QSplitter.orientation_of_cell hP]
    exact hax
  subst hcs
  have e1 : P ≠ st.heap.length := by omega
  have e2 : P ≠ st.heap.length + 1 := by omega
  have e3 : T ≠ st.heap.length := by omega
  have e4 : T ≠ st.heap.length + 1 := by omega
  have e5 : st.heap.length ≠ st.heap.length + 1 := by omega
  have hP1 := getElem?_newSection st data P
  simp only [e1, if_false] at hP1
  rw [hP] at hP1
  have hidx := QSplitter.indexOf_of_cell hP1 hpre
  have hor := QSplitter.orientation_of_cell hP1
  -- the store after `newSplitter`
  have b := fun ax q => getElem?_newSection_newSplitter st data ax q
  have bn : ∀ ax, (newSplitter (SectionWidget.addContent (SectionWidget.create st).2.heap
      (SectionWidget.create st).1 data true) ax).2[st.heap.length]? =
      some ⟨none, Widget.SectionWidget [data] 0⟩ := fun ax => by rw [b]; simp
  have bs : ∀ ax, (newSplitter (SectionWidget.addContent (SectionWidget.create st).2.heap
      (SectionWidget.create st).1 data true) ax).2[st.heap.length + 1]? =
      some ⟨none, Widget.QSplitter ax [] []⟩ := fun ax => by rw [b]; simp
  have bP : ∀ ax, (newSplitter (SectionWidget.addContent (SectionWidget.create st).2.heap
      (SectionWidget.create st).1 data true) ax).2[P]? =
      some ⟨par, Widget.QSplitter o (pre ++ T :: post) sz⟩ := fun ax => by
    rw [b]; simp [e1, e2, hP]
  have bT : ∀ ax, (newSplitter (SectionWidget.addContent (SectionWidget.create st).2.heap
      (SectionWidget.create st).1 data true) ax).2[T]? = some ⟨some P, ww⟩ := fun ax => by
    rw [b]; simp [e3, e4, hT]
  have key : ∀ (H : Heap) (kids : List Nat),
      (∀ q, H[q]? =
        if q = st.heap.length + 1 then some ⟨some P, Widget.QSplitter a.axis kids []⟩
        else if q = st.heap.length then
          some ⟨some (st.heap.length + 1), Widget.SectionWidget [data] 0⟩
        else if q = T then some ⟨some (st.heap.length + 1), ww⟩
        else if q = P then some ⟨par, Widget.QSplitter o (pre ++ (st.heap.length + 1) :: post) sz⟩
        else (newSplitter (SectionWidget.addContent (SectionWidget.create st).2.heap
          (SectionWidget.create st).1 data true) a.axis).2[q]?) →
      H.length = st.heap.length + 2 →
      kids = (if a.before = true then [st.heap.length, T] else [T, st.heap.length]) →
      dropContent QT_VERSION st data (some T) a autoActive
        = some (some st.heap.length, { (SectionWidget.create st).2 with heap := H }) →
      ∃ st', dropContent QT_VERSION st data (some T) a autoActive
          = some (some st.heap.length, st') ∧
        QSplitter.children st'.heap P = pre ++ (st.heap.length + 1) :: post ∧
        QSplitter.orientation st'.heap P = QSplitter.orientation st.heap P ∧
        widgetOf st'.heap (st.heap.length + 1) =
          Widget.QSplitter a.axis
            (if a.before = true then [st.heap.length, T] else [T, st.heap.length]) [] ∧
        parentOf st'.heap (st.heap.length + 1) = some P ∧
        widgetOf st'.heap st.heap.length = Widget.SectionWidget [data] 0 ∧
        parentOf st'.heap st.heap.length = some (st.heap.length + 1) ∧
        widgetOf st'.heap T = widgetOf st.heap T ∧
        parentOf st'.heap T = some (st.heap.length + 1) ∧
        st'.heap.length = st.heap.length + 2 ∧
        (∀ q, q ≠ P → q ≠ T → q < st.heap.length → st'.heap[q]? = st.heap[q]?) ∧
        st'._mainLayout = st._mainLayout ∧ st'._splitter = st._splitter ∧
        st'._sections = st._sections ++ [st.heap.length] ∧
        st'._floatingWidgets = st._floatingWidgets := by
    intro H kids hH hlen hkids hd
    refine ⟨_, hd, ?_, ?_, ?_, ?_, ?_, ?_, ?_, ?_, hlen, ?_, rfl, rfl, rfl, rfl⟩
    · simp [QSplitter.children, widgetOf, hH, e1, e2, hTP.symm]
    · simp [QSplitter.orientation, widgetOf, hH, e1, e2, hTP.symm, hP]
    · simp [widgetOf, hH, hkids]
    · simp [parentOf, hH]
    · simp [widgetOf, hH]
    · simp [parentOf, hH]
    · simp [widgetOf, hH, e3, e4, hT]
    · simp [parentOf, hH, e3, e4]
    · intro q h1 h2 h3
      have h4 : q ≠ st.heap.length := by omega
      have h5 : q ≠ st.heap.length + 1 := by omega
      simp [hH, h1, h2, h4, h5, b]
  have hl : ∀ ax, (newSplitter (SectionWidget.addContent (SectionWidget.create st).2.heap
      (SectionWidget.create st).1 data true) ax).2.length = st.heap.length + 2 := fun ax => by
    simp [newSplitter, alloc, length_newSection]
  cases a <;> simp [DropArea.isEdge] at hedge
  · refine key _ _ (fun q => wrap_new_first (bn _) (bs _) (bP _) (bT _) e5 e1.symm e3.symm
      e2.symm e4.symm hTP hpre q) ?_ (by simp [DropArea.before]) ?_
    · simp [QSplitter.length_insertWidget, QSplitter.length_addWidget, hl]
    · simp only [dropContent, hpar, hor, hidx, fst_newSection_newSplitter]
      rw [if_neg (show ¬ o = Vertical from ho)]
      rfl
  · refine key _ _ (fun q => wrap_target_first (bn _) (bs _) (bP _) (bT _) e5 e1.symm e3.symm
      e2.symm e4.symm hTP hpre q) ?_ (by simp [DropArea.before]) ?_
    · simp [QSplitter.length_insertWidget, QSplitter.length_addWidget, hl]
    · simp only [dropContent, hpar, hor, hidx, fst_newSection_newSplitter]
      rw [if_neg (show ¬ o = Horizontal from ho)]
      rfl
  · refine key _ _ (fun q => wrap_target_first (bn _) (bs _) (bP _) (bT _) e5 e1.symm e3.symm
      e2.symm e4.symm hTP hpre q) ?_ (by simp [DropArea.before]) ?_
    · simp [QSplitter.length_insertWidget, QSplitter.length_addWidget, hl]
    · simp only [dropContent, hpar, hor, hidx, fst_newSection_newSplitter]
      rw [if_neg (show ¬ o = Vertical from ho)]
      rfl
  · have hidx2 : QSplitter.indexOf (QSplitter.addWidget
        (newSplitter (SectionWidget.addContent (SectionWidget.create st).2.heap
          st.heap.length data true) Horizontal).2
        (st.heap.length + 1) st.heap.length) P T = (pre.length : Int) := by
      show QSplitter.indexOf (QSplitter.addWidget
        (newSplitter (SectionWidget.addContent (SectionWidget.create st).2.heap
          (SectionWidget.create st).1 data true) Horizontal).2
        (st.heap.length + 1) st.heap.length) P T = (pre.length : Int)
      refine @QSplitter.indexOf_of_cell _ P par o pre post T sz ?_ hpre
      rw [QSplitter.getElem?_addWidget_detached (bn _) (bs _) e5]
      simp [e1, e2, bP]
    refine key _ _ (fun q => wrap_insert_first (bn _) (bs _) (bP _) (bT _) e5 e1.symm e3.symm
      e2.symm e4.symm hTP hpre q) ?_ (by simp [DropArea.before]) ?_
    · simp [QSplitter.length_insertWidget, QSplitter.length_addWidget, hl]
    · have hc : (SectionWidget.create st).1 = st.heap.length := rfl
      simp only [dropContent, hpar, hor, fst_newSection_newSplitter]
      rw [if_neg (show ¬ o = Horizontal from ho), hc, hidx2]
      rfl

/-! ## dropContent without a target section: the outer edges -/

theorem isSplitter_of_cell {h : Heap} {p : Nat} {par : Option Nat} {o : Int} {cs : List Nat}
    {sz : List Int} (hp : h[p]? = some ⟨par, Widget.QSplitter o cs sz⟩) : isSplitter h p = true := by
  simp [isSplitter, widgetOf, hp]

theorem isSplitter_congr {h h1 : Heap} {p : Nat} (hp : h1[p]? = h[p]?) :
    isSplitter h1 p = isSplitter h p := by
  simp [isSplitter, widgetOf, hp]

/-- The top-level splitter depends on the layout and on which of its widgets
are splitters only. -/
theorem findImmediateSplitter_congr {st st1 : ContainerWidget}
    (hl : st1._mainLayout = st._mainLayout)
    (hs : ∀ p, some p ∈ st._mainLayout → isSplitter st1.heap p = isSplitter st.heap p) :
    findImmediateSplitter st1 = findImmediateSplitter st := by
  unfold findImmediateSplitter
  rw [hl]
  generalize st._mainLayout = l at hs
  induction l with
  | nil => rfl
  | cons x xs ih =>
      have ih2 := ih (fun p hp => hs p (List.mem_cons_of_mem _ hp))
      cases x with
      | none => simpa [List.findSome?_cons] using ih2
      | some p =>
          have hp := hs p (List.mem_cons_self _ _)
          simp only [List.findSome?_cons, hp]
          by_cases c : isSplitter st.heap p = true
          · simp [c]
          · simp [c, ih2]

theorem isSplitter_newSection (st : ContainerWidget) (data : InternalContentData) (p : Nat) :
    isSplitter (SectionWidget.addContent (SectionWidget.create st).2.heap
      (SectionWidget.create st).1 data true) p = isSplitter st.heap p := by
  by_cases hp : p = st.heap.length
  · subst hp
    simp [isSplitter, widgetOf, getElem?_newSection]
  · exact isSplitter_congr (by rw [getElem?_newSection]; simp [hp])

/-- The function `dropContent` without target hands an edge area to `dropContentOuterHelper`
and returns null. -/
theorem dropContent_outer (QT_VERSION : Nat) (st : ContainerWidget) (data : InternalContentData)
    (a : DropArea) (autoActive : Bool) (hedge : a.isEdge = true) :
    dropContent QT_VERSION st data none a autoActive =
      (dropContentOuterHelper QT_VERSION st data a.axis a.append).map fun r => (none, r.2) := by
  cases a <;> simp [DropArea.isEdge] at hedge <;> rfl

/-- C7: when the top-level splitter `S` has the orientation the edge area asks
for, or has exactly one child, the outer drop gives `S` that orientation and
inserts a new section holding only the dropped content as first child (Top,
Left) or last child (Bottom, Right) of `S`; no other widget is created, `S`
stays the top-level splitter with its previous children in their order, and
nothing else changes. -/
theorem dropContentOuterHelper_in_place (QT_VERSION : Nat) (st : ContainerWidget)
    (data : InternalContentData) (S : Nat) (a : DropArea) (autoActive : Bool)
    (hedge : a.isEdge = true)
    (hS : findImmediateSplitter st = some S)
    (hcond : QSplitter.orientation st.heap S = a.axis ∨ QSplitter.count st.heap S = 1) :
    ∃ st', dropContentOuterHelper QT_VERSION st data a.axis a.append
        = some (st.heap.length, st') ∧
      dropContent QT_VERSION st data none a autoActive = some (none, st') ∧
      QSplitter.orientation st'.heap S = a.axis ∧
      QSplitter.children st'.heap S =
        (if a.before = true then st.heap.length :: QSplitter.children st.heap S
         else QSplitter.children st.heap S ++ [st.heap.length]) ∧
      widgetOf st'.heap st.heap.length = Widget.SectionWidget [data] 0 ∧
      parentOf st'.heap st.heap.length = some S ∧
      findImmediateSplitter st' = some S ∧
      st'._mainLayout = st._mainLayout ∧ st'._splitter = st._splitter ∧
      st'.heap.length = st.heap.length + 1 ∧
      (∀ q, q ≠ S → q < st.heap.length → st'.heap[q]? = st.heap[q]?) ∧
      st'._sections = st._sections ++ [st.heap.length] ∧
      st'._floatingWidgets = st._floatingWidgets := by
  have hS1 : findImmediateSplitter
      { (SectionWidget.create st).2 with
        heap := (SectionWidget.addContent (SectionWidget.create st).2.heap
          (SectionWidget.create st).1 data true) } = some S := by
    rw [← hS]
    exact findImmediateSplitter_congr rfl (fun p _ => isSplitter_newSection st data p)
  have hSs : isSplitter st.heap S = true := by
    unfold findImmediateSplitter at hS
    obtain ⟨x, _, hx⟩ := List.exists_of_findSome?_eq_some hS
    cases x with
    | none => simp at hx
    | some p =>
        by_cases c : isSplitter st.heap p = true
        · simp [c] at hx
          rw [← hx]
          exact c
        · simp [c] at hx
  obtain ⟨par, o, cs, sz, hc⟩ := isSplitter_cell hSs
  have hSlt := lt_of_getElem?_some hc
  have e1 : S ≠ st.heap.length := by omega
  have hc1 := getElem?_newSection st data S
  simp only [e1, if_false] at hc1
  rw [hc] at hc1
  have hn1 := getElem?_newSection st data st.heap.length
  simp only [if_true] at hn1
  have hcond1 : QSplitter.orientation (SectionWidget.addContent (SectionWidget.create st).2.heap
      (SectionWidget.create st).1 data true) S = a.axis ∨
      QSplitter.count (SectionWidget.addContent (SectionWidget.create st).2.heap
      (SectionWidget.create st).1 data true) S = 1 := by
    rw [QSplitter.orientation_of_cell hc1, QSplitter.count_of_cell hc1]
    rw [QSplitter.orientation_of_cell hc, QSplitter.count_of_cell hc] at hcond
    exact hcond
  -- the store after `setOrientation`
  have h2 : ∀ q, (QSplitter.setOrientation (SectionWidget.addContent (SectionWidget.create st).2.heap
      (SectionWidget.create st).1 data true) S a.axis)[q]? =
      if q = S then some ⟨par, Widget.QSplitter a.axis cs sz⟩
      else if q = st.heap.length then some ⟨none, Widget.SectionWidget [data] 0⟩
      else st.heap[q]? := by
    intro q
    simp only [QSplitter.setOrientation, getElem?_updateAt, hc1, Option.map_some',
      getElem?_newSection]
  have h2S := h2 S
  simp only [if_true] at h2S
  have h2n := h2 st.heap.length
  simp only [e1.symm, if_true, if_false] at h2n
  have hchild : QSplitter.children st.heap S = cs := QSplitter.children_of_cell hc
  have key : ∀ (H : Heap) (kids : List Nat),
      (∀ q, H[q]? =
        if q = st.heap.length then some ⟨some S, Widget.SectionWidget [data] 0⟩
        else if q = S then some ⟨par, Widget.QSplitter a.axis kids sz⟩
        else (QSplitter.setOrientation (SectionWidget.addContent (SectionWidget.create st).2.heap
          (SectionWidget.create st).1 data true) S a.axis)[q]?) →
      H.length = st.heap.length + 1 →
      kids = (if a.before = true then st.heap.length :: cs else cs ++ [st.heap.length]) →
      dropContentOuterHelper QT_VERSION st data a.axis a.append
        = some (st.heap.length, { (SectionWidget.create st).2 with heap := H }) →
      ∃ st', dropContentOuterHelper QT_VERSION st data a.axis a.append
          = some (st.heap.length, st') ∧
        dropContent QT_VERSION st data none a autoActive = some (none, st') ∧
        QSplitter.orientation st'.heap S = a.axis ∧
        QSplitter.children st'.heap S =
          (if a.before = true then st.heap.length :: QSplitter.children st.heap S
           else QSplitter.children st.heap S ++ [st.heap.length]) ∧
        widgetOf st'.heap st.heap.length = Widget.SectionWidget [data] 0 ∧
        parentOf st'.heap st.heap.length = some S ∧
        findImmediateSplitter st' = some S ∧
        st'._mainLayout = st._mainLayout ∧ st'._splitter = st._splitter ∧
        st'.heap.length = st.heap.length + 1 ∧
        (∀ q, q ≠ S → q < st.heap.length → st'.heap[q]? = st.heap[q]?) ∧
        st'._sections = st._sections ++ [st.heap.length] ∧
        st'._floatingWidgets = st._floatingWidgets := by
    intro H kids hH hlen hkids hd
    refine ⟨_, hd, ?_, ?_, ?_, ?_, ?_, ?_, rfl, rfl, hlen, ?_, rfl, rfl⟩
    · rw [dropContent_outer QT_VERSION st data a autoActive hedge, hd]
      rfl
    · simp [QSplitter.orientation, widgetOf, hH, e1]
    · simp [QSplitter.children, widgetOf, hH, e1, hkids, hc]
    · simp [widgetOf, hH]
    · simp [parentOf, hH]
    · rw [← hS]
      refine findImmediateSplitter_congr rfl (fun p _ => ?_)
      by_cases c1 : p = st.heap.length
      · subst c1
        simp [isSplitter, widgetOf, hH]
      · by_cases c2 : p = S
        · subst c2
          simp [isSplitter, widgetOf, hH, c1, hc]
        · exact isSplitter_congr (by rw [hH, h2]; simp [c1, c2])
    · intro q c2 c3
      have c1 : q ≠ st.heap.length := by omega
      simp [hH, h2, c1, c2]
  by_cases hb : a.before = true
  · -- Top, Left: `insertWidget(0, sw)`
    have happ : a.append = false := by simp [DropArea.append, hb]
    refine key (QSplitter.insertWidget (QSplitter.setOrientation (SectionWidget.addContent
        (SectionWidget.create st).2.heap (SectionWidget.create st).1 data true) S a.axis)
        S 0 st.heap.length)
      (st.heap.length :: cs) (fun q => ?_) ?_ (by simp [hb]) ?_
    · rw [QSplitter.getElem?_insertWidget_detached 0 h2n h2S e1.symm q,
        show (0 : Int) = ((0 : Nat) : Int) from rfl,
        QSplitter.clampIndex_of_le (Nat.zero_le _), insertAt_zero]
    · simp [QSplitter.length_insertWidget, QSplitter.setOrientation, length_updateAt, length_newSection]
    · unfold dropContentOuterHelper
      simp only [hS1, hcond1, if_true, happ]
      rfl
  · -- Bottom, Right: `addWidget`
    have happ : a.append = true := by simp [DropArea.append, hb]
    refine key (QSplitter.addWidget (QSplitter.setOrientation (SectionWidget.addContent
        (SectionWidget.create st).2.heap (SectionWidget.create st).1 data true) S a.axis)
        S st.heap.length)
      (cs ++ [st.heap.length]) (fun q => ?_) ?_ (by simp [hb]) ?_
    · rw [QSplitter.getElem?_addWidget_detached h2n h2S e1.symm q]
    · simp [QSplitter.length_addWidget, QSplitter.setOrientation, length_updateAt, length_newSection]
    · unfold dropContentOuterHelper
      simp only [hS1, hcond1, if_true, happ]
      rfl

namespace QSplitter

theorem detach_of_cell_none {h : Heap} {w : Nat} {ww : Widget} (hw : h[w]? = some ⟨none, ww⟩) :
    detach h w = h := by
  simp [detach, parentOf, hw]

end QSplitter

theorem findImmediateSplitter_replaceFirst {h h1 : Heap} {l : List (Option Nat)} {S N : Nat}
    (hS : (l.findSome? fun it =>
      match it with
      | some p => if isSplitter h p then some p else none
      | none => none) = some S)
    (hN : isSplitter h1 N = true)
    (hs : ∀ p, some p ∈ l → p ≠ S → isSplitter h1 p = isSplitter h p) :
    ((QLayout.replaceFirst l (some S) (some N)).findSome? fun it =>
      match it with
      | some p => if isSplitter h1 p then some p else none
      | none => none) = some N := by
  induction l with
  | nil => simp at hS
  | cons x xs ih =>
      by_cases hx : x = some S
      · subst hx
        simp [QLayout.replaceFirst, List.findSome?_cons, hN]
      · have ih2 := fun hh => ih hh (fun p hp => hs p (List.mem_cons_of_mem _ hp))
        cases x with
        | none =>
            simp only [List.findSome?_cons] at hS
            simp only [QLayout.replaceFirst, hx, if_false, List.findSome?_cons]
            exact ih2 hS
        | some p =>
            have hpS : p ≠ S := fun e => hx (by rw [e])
            have hp := hs p (List.mem_cons_self _ _) hpS
            by_cases c : isSplitter h p = true
            · simp [List.findSome?_cons, c] at hS
              exact absurd hS hpS
            · simp only [List.findSome?_cons, c] at hS
              simp only [QLayout.replaceFirst, hx, if_false, List.findSome?_cons, hp, c]
              exact ih2 hS

/-- Two widgets that sit in no splitter enter the empty splitter `N`. -/
theorem addWidget_two {h : Heap} {N x y : Nat} {wx wy : Widget} {ax : Int}
    (hN : h[N]? = some ⟨none, Widget.QSplitter ax [] []⟩)
    (hx : h[x]? = some ⟨none, wx⟩) (hy : h[y]? = some ⟨none, wy⟩)
    (hxN : x ≠ N) (hyN : y ≠ N) (hxy : x ≠ y) (q : Nat) :
    (QSplitter.addWidget (QSplitter.addWidget h N x) N y)[q]? =
      if q = N then some ⟨none, Widget.QSplitter ax [x, y] []⟩
      else if q = x then some ⟨some N, wx⟩
      else if q = y then some ⟨some N, wy⟩
      else h[q]? := by
  have a1 : ∀ q, (QSplitter.addWidget h N x)[q]? =
      if q = x then some ⟨some N, wx⟩
      else if q = N then some ⟨none, Widget.QSplitter ax ([] ++ [x]) []⟩
      else h[q]? := fun q => QSplitter.getElem?_addWidget_detached hx hN hxN q
  have a2 : ∀ q, (QSplitter.addWidget (QSplitter.addWidget h N x) N y)[q]? =
      if q = y then some ⟨some N, wy⟩
      else if q = N then some ⟨none, Widget.QSplitter ax (([] ++ [x]) ++ [y]) []⟩
      else (QSplitter.addWidget h N x)[q]? := fun q =>
    QSplitter.getElem?_addWidget_detached
      (by rw [a1]; simp [hxy.symm, hyN, hy])
      (by rw [a1]; simp [hxN.symm]) hyN q
  rw [a2, a1]
  by_cases c1 : q = N
  · simp [c1, hyN.symm]
  · by_cases c2 : q = x
    · simp [c2, hxN, hxy]
    · by_cases c3 : q = y
      · simp [c3, hyN, hxy.symm]
      · simp [c1, c2, c3]

theorem findImmediateSplitter_isSplitter {st : ContainerWidget} {S : Nat}
    (hS : findImmediateSplitter st = some S) :
    isSplitter st.heap S = true ∧ some S ∈ st._mainLayout := by
  unfold findImmediateSplitter at hS
  obtain ⟨x, hmem, hx⟩ := List.exists_of_findSome?_eq_some hS
  cases x with
  | none => simp at hx
  | some p =>
      by_cases c : isSplitter st.heap p = true
      · simp [c] at hx
        rw [← hx]
        exact ⟨c, hmem⟩
      · simp [c] at hx

/-- The Qt 5 branches of the wrap case of the outer drop: when the top-level
splitter `S` has another orientation than the edge area asks for and not
exactly one child, a new splitter `N` of the required orientation is created,
its children are exactly `S` (unchanged, with its subtree) and a new section
holding only the dropped content, the new one first for Top and Left, `S`
first for Bottom and Right, and `N` takes the layout slot of `S`: it is the
container's top-level splitter. -/
theorem dropContentOuterHelper_wrap_qt5 (QT_VERSION : Nat) (st : ContainerWidget)
    (data : InternalContentData) (S : Nat) (a : DropArea) (autoActive : Bool)
    (hqt : QT_VERSION ≥ 0x050000)
    (hedge : a.isEdge = true)
    (hS : findImmediateSplitter st = some S)
    (hroot : parentOf st.heap S = none)
    (hlay : ∀ p, some p ∈ st._mainLayout → p < st.heap.length)
    (hor : QSplitter.orientation st.heap S ≠ a.axis)
    (hcount : QSplitter.count st.heap S ≠ 1) :
    ∃ st', dropContentOuterHelper QT_VERSION st data a.axis a.append
        = some (st.heap.length, st') ∧
      dropContent QT_VERSION st data none a autoActive = some (none, st') ∧
      widgetOf st'.heap (st.heap.length + 1) =
        Widget.QSplitter a.axis
          (if a.before = true then [st.heap.length, S] else [S, st.heap.length]) [] ∧
      parentOf st'.heap (st.heap.length + 1) = none ∧
      widgetOf st'.heap S = widgetOf st.heap S ∧
      parentOf st'.heap S = some (st.heap.length + 1) ∧
      widgetOf st'.heap st.heap.length = Widget.SectionWidget [data] 0 ∧
      parentOf st'.heap st.heap.length = some (st.heap.length + 1) ∧
      st'._mainLayout =
        QLayout.replaceFirst st._mainLayout (some S) (some (st.heap.length + 1)) ∧
      findImmediateSplitter st' = some (st.heap.length + 1) ∧
      st'.heap.length = st.heap.length + 2 ∧
      (∀ q, q ≠ S → q < st.heap.length → st'.heap[q]? = st.heap[q]?) ∧
      st'._sections = st._sections ++ [st.heap.length] ∧
      st'._floatingWidgets = st._floatingWidgets := by
  have hS1 : findImmediateSplitter
      { (SectionWidget.create st).2 with
        heap := (SectionWidget.addContent (SectionWidget.create st).2.heap
          (SectionWidget.create st).1 data true) } = some S := by
    rw [← hS]
    exact findImmediateSplitter_congr rfl (fun p _ => isSplitter_newSection st data p)
  obtain ⟨hSs, hSmem⟩ := findImmediateSplitter_isSplitter hS
  obtain ⟨par, o, cs, sz, hc0⟩ := isSplitter_cell hSs
  have hpar : par = none := by
    simpa [parentOf, hc0] using hroot
  subst hpar
  have hc := hc0
  have hSlt := lt_of_getElem?_some hc
  have e1 : S ≠ st.heap.length := by omega
  have e2 : S ≠ st.heap.length + 1 := by omega
  have e5 : st.heap.length ≠ st.heap.length + 1 := by omega
  have hc1 := getElem?_newSection st data S
  simp only [e1, if_false] at hc1
  rw [hc] at hc1
  have hcond1 : ¬ (QSplitter.orientation (SectionWidget.addContent (SectionWidget.create st).2.heap
      (SectionWidget.create st).1 data true) S = a.axis ∨
      QSplitter.count (SectionWidget.addContent (SectionWidget.create st).2.heap
      (SectionWidget.create st).1 data true) S = 1) := by
    rw [QSplitter.orientation_of_cell hc1, QSplitter.count_of_cell hc1]
    rw [QSplitter.orientation_of_cell hc] at hor
    rw [QSplitter.count_of_cell hc] at hcount
    intro h
    rcases h with h | h
    · exact hor h
    · exact hcount h
  have b := fun q => getElem?_newSection_newSplitter st data a.axis q
  have bn : (newSplitter (SectionWidget.addContent (SectionWidget.create st).2.heap
      (SectionWidget.create st).1 data true) a.axis).2[st.heap.length]? =
      some ⟨none, Widget.SectionWidget [data] 0⟩ := by rw [b]; simp
  have bs : (newSplitter (SectionWidget.addContent (SectionWidget.create st).2.heap
      (SectionWidget.create st).1 data true) a.axis).2[st.heap.length + 1]? =
      some ⟨none, Widget.QSplitter a.axis [] []⟩ := by rw [b]; simp
  have bS : (newSplitter (SectionWidget.addContent (SectionWidget.create st).2.heap
      (SectionWidget.create st).1 data true) a.axis).2[S]? =
      some ⟨none, Widget.QSplitter o cs sz⟩ := by rw [b]; simp [e1, e2, hc]
  have hl : (newSplitter (SectionWidget.addContent (SectionWidget.create st).2.heap
      (SectionWidget.create st).1 data true) a.axis).2.length = st.heap.length + 2 := by
    simp [newSplitter, alloc, length_newSection]
  have key : ∀ (H : Heap) (kids : List Nat),
      (∀ q, H[q]? =
        if q = st.heap.length + 1 then some ⟨none, Widget.QSplitter a.axis kids []⟩
        else if q = st.heap.length then
          some ⟨some (st.heap.length + 1), Widget.SectionWidget [data] 0⟩
        else if q = S then some ⟨some (st.heap.length + 1), Widget.QSplitter o cs sz⟩
        else st.heap[q]?) →
      H.length = st.heap.length + 2 →
      kids = (if a.before = true then [st.heap.length, S] else [S, st.heap.length]) →
      dropContentOuterHelper QT_VERSION st data a.axis a.append
        = some (st.heap.length, { (SectionWidget.create st).2 with
            heap := H,
            _mainLayout :=
              QLayout.replaceFirst st._mainLayout (some S) (some (st.heap.length + 1)) }) →
      ∃ st', dropContentOuterHelper QT_VERSION st data a.axis a.append
          = some (st.heap.length, st') ∧
        dropContent QT_VERSION st data none a autoActive = some (none, st') ∧
        widgetOf st'.heap (st.heap.length + 1) =
          Widget.QSplitter a.axis
            (if a.before = true then [st.heap.length, S] else [S, st.heap.length]) [] ∧
        parentOf st'.heap (st.heap.length + 1) = none ∧
        widgetOf st'.heap S = widgetOf st.heap S ∧
        parentOf st'.heap S = some (st.heap.length + 1) ∧
        widgetOf st'.heap st.heap.length = Widget.SectionWidget [data] 0 ∧
        parentOf st'.heap st.heap.length = some (st.heap.length + 1) ∧
        st'._mainLayout =
          QLayout.replaceFirst st._mainLayout (some S) (some (st.heap.length + 1)) ∧
        findImmediateSplitter st' = some (st.heap.length + 1) ∧
        st'.heap.length = st.heap.length + 2 ∧
        (∀ q, q ≠ S → q < st.heap.length → st'.heap[q]? = st.heap[q]?) ∧
        st'._sections = st._sections ++ [st.heap.length] ∧
        st'._floatingWidgets = st._floatingWidgets := by
    intro H kids hH hlen hkids hd
    refine ⟨_, hd, ?_, ?_, ?_, ?_, ?_, ?_, ?_, rfl, ?_, hlen, ?_, rfl, rfl⟩
    · rw [dropContent_outer QT_VERSION st data a autoActive hedge, hd]
      rfl
    · simp [widgetOf, hH, hkids]
    · simp [parentOf, hH]
    · simp [widgetOf, hH, e1, e2, hc]
    · simp [parentOf, hH, e1, e2]
    · simp [widgetOf, hH]
    · simp [parentOf, hH]
    · unfold findImmediateSplitter at hS ⊢
      refine findImmediateSplitter_replaceFirst hS ?_ ?_
      · simp [isSplitter, widgetOf, hH]
      · intro p hp hpS
        have hplt := hlay p hp
        have c1 : p ≠ st.heap.length := by omega
        have c2 : p ≠ st.heap.length + 1 := by omega
        exact isSplitter_congr (by rw [hH]; simp [c1, c2, hpS])
    · intro q c3 c4
      have c1 : q ≠ st.heap.length := by omega
      have c2 : q ≠ st.heap.length + 1 := by omega
      simp [hH, c1, c2, c3]
  by_cases hb : a.before = true
  · have happ : a.append = false := by simp [DropArea.append, hb]
    refine key (QSplitter.addWidget (QSplitter.addWidget
        (newSplitter (SectionWidget.addContent (SectionWidget.create st).2.heap
          (SectionWidget.create st).1 data true) a.axis).2
        (st.heap.length + 1) st.heap.length) (st.heap.length + 1) S)
      [st.heap.length, S] (fun q => ?_) ?_ (by simp [hb]) ?_
    · rw [addWidget_two bs bn bS e5 e2 e1.symm q, b]
      by_cases c1 : q = st.heap.length + 1
      · simp [c1]
      · by_cases c2 : q = st.heap.length
        · simp [c2]
        · simp [c1, c2]
    · simp [QSplitter.length_addWidget, hl]
    · have hdet : QSplitter.detach (QSplitter.addWidget
          (newSplitter (SectionWidget.addContent (SectionWidget.create st).2.heap
            (SectionWidget.create st).1 data true) a.axis).2
          (st.heap.length + 1) st.heap.length) (st.heap.length + 1) =
          QSplitter.addWidget
          (newSplitter (SectionWidget.addContent (SectionWidget.create st).2.heap
            (SectionWidget.create st).1 data true) a.axis).2
          (st.heap.length + 1) st.heap.length := by
        refine @QSplitter.detach_of_cell_none _ _ (Widget.QSplitter a.axis ([] ++ [st.heap.length]) []) ?_
        rw [QSplitter.getElem?_addWidget_detached bn bs e5]
        simp
      unfold dropContentOuterHelper
      simp only [hS1, hcond1, if_false, happ, hqt, if_true, QLayout.replaceWidget,
        fst_newSection_newSplitter]
      rw [if_neg (by simp)]
      erw [hdet]
      rfl
  · have happ : a.append = true := by simp [DropArea.append, hb]
    refine key (QSplitter.addWidget (QSplitter.addWidget
        (newSplitter (SectionWidget.addContent (SectionWidget.create st).2.heap
          (SectionWidget.create st).1 data true) a.axis).2
        (st.heap.length + 1) S) (st.heap.length + 1) st.heap.length)
      [S, st.heap.length] (fun q => ?_) ?_ (by simp [hb]) ?_
    · rw [addWidget_two bs bS bn e2 e5 e1 q, b]
      by_cases c1 : q = st.heap.length + 1
      · simp [c1]
      · by_cases c2 : q = st.heap.length
        · simp [c2, e1.symm]
        · by_cases c3 : q = S
          · simp [c3, e1, e2]
          · simp [c1, c2, c3]
    · simp [QSplitter.length_addWidget, hl]
    · have hdet : QSplitter.detach
          (newSplitter (SectionWidget.addContent (SectionWidget.create st).2.heap
            (SectionWidget.create st).1 data true) a.axis).2 (st.heap.length + 1) =
          (newSplitter (SectionWidget.addContent (SectionWidget.create st).2.heap
            (SectionWidget.create st).1 data true) a.axis).2 :=
        QSplitter.detach_of_cell_none bs
      unfold dropContentOuterHelper
      simp only [hS1, hcond1, if_false, happ, hqt, if_true, QLayout.replaceWidget,
        fst_newSection_newSplitter]
      erw [hdet]
      rfl

theorem restoreState_rejects_bad_header_witness :
    ((fieldStream.readUInt32 [Field.u32 0x1338, Field.u32 1, Field.i32 0]).1 ≠ 0x00001337 ∨
      (fieldStream.readUInt32
        (fieldStream.readUInt32 [Field.u32 0x1338, Field.u32 1, Field.i32 0]).2).1 ≠ 1) ∧
    restoreState fieldStream sampleRegistry 3 twoSections
      [Field.u32 0x1338, Field.u32 1, Field.i32 0] = some (false, twoSections) :=
  ⟨Or.inl (by decide),
   restoreState_rejects_bad_header fieldStream sampleRegistry 3 twoSections
     [Field.u32 0x1338, Field.u32 1, Field.i32 0] (Or.inl (by decide))⟩

theorem dropContent_center_appends_witness :
    isSection twoSections.heap 2 = true ∧
    ∃ st', dropContent 0x050000 twoSections (dataOf contentC) (some 2) DropArea.CenterDropArea true
        = some (some 2, st') ∧
      SectionWidget.contents st'.heap 2 = [contentB, contentC] ∧
      (∀ q, q ≠ 2 → st'.heap[q]? = twoSections.heap[q]?) :=
  ⟨by decide, by
    obtain ⟨st', h1, h2, _, _, h5, _⟩ :=
      dropContent_center_appends 0x050000 twoSections (dataOf contentC) 2 true (by decide)
    exact ⟨st', h1, h2, h5⟩⟩

theorem dropContent_sibling_same_axis_witness :
    DropArea.RightDropArea.isEdge = true ∧
    findParentSplitter twoSections.heap 0 = some 1 ∧
    QSplitter.children twoSections.heap 1 = [] ++ 0 :: [2] ∧
    (0 ∉ ([] : List Nat)) ∧
    QSplitter.orientation twoSections.heap 1 = DropArea.RightDropArea.axis ∧
    ∃ st', dropContent 0x050000 twoSections (dataOf contentC) (some 0) DropArea.RightDropArea false
        = some (some 3, st') ∧
      QSplitter.children st'.heap 1 = [0, 3, 2] ∧
      st'.heap.length = 4 :=
  ⟨by decide, by decide, by decide, by decide, by decide, by
    obtain ⟨st', h1, _, h3, _, _, h6, _⟩ :=
      dropContent_sibling_same_axis 0x050000 twoSections (dataOf contentC) 0 1
        DropArea.RightDropArea false [] [2] (by decide) (by decide) (by decide) (by decide)
        (by decide)
    exact ⟨st', h1, h3, h6⟩⟩

theorem dropContent_sibling_other_axis_witness :
    DropArea.TopDropArea.isEdge = true ∧
    isSection twoSections.heap 2 = true ∧
    findParentSplitter twoSections.heap 2 = some 1 ∧
    QSplitter.children twoSections.heap 1 = [0] ++ 2 :: [] ∧
    (2 ∉ [0]) ∧
    QSplitter.orientation twoSections.heap 1 ≠ DropArea.TopDropArea.axis ∧
    ∃ st', dropContent 0x050000 twoSections (dataOf contentC) (some 2) DropArea.TopDropArea false
        = some (some 3, st') ∧
      QSplitter.children st'.heap 1 = [0, 4] ∧
      widgetOf st'.heap 4 = Widget.QSplitter Vertical [3, 2] [] ∧
      parentOf st'.heap 2 = some 4 :=
  ⟨by decide, by decide, by decide, by decide, by decide, by decide, by
    obtain ⟨st', h1, h2, _, h4, _, _, _, _, h9, _⟩ :=
      dropContent_sibling_other_axis 0x050000 twoSections (dataOf contentC) 2 1
        DropArea.TopDropArea false [0] [] (by decide) (by decide) (by decide) (by decide)
        (by decide) (by decide)
    exact ⟨st', h1, h2, h4, h9⟩⟩

theorem dropContentOuterHelper_in_place_witness :
    DropArea.LeftDropArea.isEdge = true ∧
    findImmediateSplitter twoSections = some 1 ∧
    (QSplitter.orientation twoSections.heap 1 = DropArea.LeftDropArea.axis ∨
      QSplitter.count twoSections.heap 1 = 1) ∧
    ∃ st', dropContentOuterHelper 0x050000 twoSections (dataOf contentC) Horizontal false
        = some (3, st') ∧
      QSplitter.children st'.heap 1 = [3, 0, 2] ∧
      findImmediateSplitter st' = some 1 ∧
      st'.heap.length = 4 :=
  ⟨by decide, by decide, Or.inl (by decide), by
    obtain ⟨st', h1, _, _, h4, _, _, h7, _, _, h10, _⟩ :=
      dropContentOuterHelper_in_place 0x050000 twoSections (dataOf contentC) 1
        DropArea.LeftDropArea false (by decide) (by decide) (Or.inl (by decide))
    exact ⟨st', h1, h4, h7, h10⟩⟩

theorem dropContentOuterHelper_wrap_qt5_witness :
    0x050000 ≥ 0x050000 ∧
    DropArea.TopDropArea.isEdge = true ∧
    findImmediateSplitter twoSections = some 1 ∧
    parentOf twoSections.heap 1 = none ∧
    (∀ p, some p ∈ twoSections._mainLayout → p < twoSections.heap.length) ∧
    QSplitter.orientation twoSections.heap 1 ≠ DropArea.TopDropArea.axis ∧
    QSplitter.count twoSections.heap 1 ≠ 1 ∧
    ∃ st', dropContentOuterHelper 0x050000 twoSections (dataOf contentC) Vertical false
        = some (3, st') ∧
      widgetOf st'.heap 4 = Widget.QSplitter Vertical [3, 1] [] ∧
      st'._mainLayout = [some 4] ∧
      findImmediateSplitter st' = some 4 :=
  ⟨by decide, by decide, by decide, by decide,
   by intro p hp; simp [twoSections] at hp; subst hp; decide,
   by decide, by decide, by
    obtain ⟨st', h1, _, h3, _, _, _, _, _, h9, h10, _⟩ :=
      dropContentOuterHelper_wrap_qt5 0x050000 twoSections (dataOf contentC) 1
        DropArea.TopDropArea false (by decide) (by decide) (by decide) (by decide)
        (by intro p hp; simp [twoSections] at hp; subst hp; decide)
        (by decide) (by decide)
    exact ⟨st', h1, h3, h9, h10⟩⟩

/-- C8, at a build against Qt 4: the `#else` branches of the wrap case take
the item of the old top-level splitter out of the layout and nest the old
splitter and the new section in the new splitter, but never add the new
splitter to the layout. After a Top drop on the outer edge of a container
whose top-level splitter is horizontal with two sections, the new splitter
holds the new section and the old splitter, and the main layout is empty: the
container has no top-level splitter. -/
theorem dropContentOuterHelper_wrap_qt4_not_installed :
    findImmediateSplitter twoSections = some 1 ∧
    QSplitter.orientation twoSections.heap 1 = Horizontal ∧
    QSplitter.children twoSections.heap 1 = [0, 2] ∧
    ∃ st', dropContentOuterHelper 0x040800 twoSections (dataOf contentC) Vertical false
        = some (3, st') ∧
      dropContent 0x040800 twoSections (dataOf contentC) none DropArea.TopDropArea false
        = some (none, st') ∧
      widgetOf st'.heap 4 = Widget.QSplitter Vertical [3, 1] [] ∧
      st'._mainLayout = [] ∧
      findImmediateSplitter st' = none := by
  refine ⟨by decide, by decide, by decide, ?_⟩
  exact ⟨_, rfl, rfl, by decide, by decide, by decide⟩

/-! ## Sections and floating panels are touched by their own operations only -/

theorem tabs_eq (h : Heap) (p : Nat) : SectionWidget.tabs h p = (leafOf h p).tabs := by
  unfold SectionWidget.tabs leafOf Widget.tabs Widget.leaf
  cases widgetOf h p <;> rfl

theorem isSection_eq (h : Heap) (p : Nat) :
    isSection h p = (match leafOf h p with | Widget.SectionWidget _ _ => true | _ => false) := by
  unfold isSection leafOf Widget.leaf
  cases widgetOf h p <;> rfl

theorem widgetOf_updateAt (h : Heap) (p q : Nat) (f : Cell → Cell) :
    widgetOf (updateAt h p f) q =
      if q = p then (match h[p]? with | some c => (f c).widget | none => Widget.deleted)
      else widgetOf h q := by
  unfold widgetOf
  rw [getElem?_updateAt]
  by_cases hq : q = p
  · subst hq
    cases h[q]? <;> simp
  · simp [hq]

/-- An update that keeps the non-splitter part of the cell keeps it everywhere. -/
theorem leafOf_updateAt {h : Heap} {p : Nat} {f : Cell → Cell}
    (hf : ∀ c, (f c).widget.leaf = c.widget.leaf) (q : Nat) :
    leafOf (updateAt h p f) q = leafOf h q := by
  unfold leafOf
  rw [widgetOf_updateAt]
  by_cases hq : q = p
  · subst hq
    unfold widgetOf
    cases hc : h[q]? with
    | none => simp
    | some c => simp [hf c]
  · simp [hq]

theorem leafOf_alloc (h : Heap) (c : Cell) (q : Nat) :
    leafOf (alloc h c).2 q = if q = h.length then c.widget.leaf else leafOf h q := by
  unfold leafOf widgetOf
  rw [getElem?_alloc]
  by_cases hq : q = h.length
  · simp [hq]
  · simp [hq]

theorem leafOf_length (h : Heap) : leafOf h h.length = Widget.deleted := by
  unfold leafOf widgetOf
  rw [List.getElem?_eq_none (Nat.le_refl _)]
  rfl

theorem leafOf_newSplitter (h : Heap) (o : Int) (q : Nat) :
    leafOf (newSplitter h o).2 q = leafOf h q := by
  unfold newSplitter
  rw [leafOf_alloc]
  by_cases hq : q = h.length
  · subst hq
    simp [leafOf_length, Widget.leaf]
  · simp [hq]

namespace QSplitter

theorem leafOf_detach (h : Heap) (w q : Nat) : leafOf (detach h w) q = leafOf h q := by
  unfold detach removeChild
  cases parentOf h w with
  | none => rfl
  | some p =>
      simp only
      refine (leafOf_updateAt ?_ q).trans (leafOf_updateAt ?_ q)
      · intro c
        rfl
      · intro c
        rcases c with ⟨par, wd⟩
        cases wd <;> rfl

theorem leafOf_insertWidget (h : Heap) (sp : Nat) (idx : Int) (w q : Nat) :
    leafOf (insertWidget h sp idx w) q = leafOf h q := by
  unfold insertWidget
  simp only
  refine (leafOf_updateAt ?_ q).trans ((leafOf_updateAt ?_ q).trans (leafOf_detach h w q))
  · intro c
    rfl
  · intro c
    rcases c with ⟨par, wd⟩
    cases wd <;> rfl

theorem leafOf_addWidget (h : Heap) (sp w q : Nat) :
    leafOf (addWidget h sp w) q = leafOf h q :=
  leafOf_insertWidget h sp _ w q

theorem leafOf_setOrientation (h : Heap) (sp : Nat) (o : Int) (q : Nat) :
    leafOf (setOrientation h sp o) q = leafOf h q := by
  unfold setOrientation
  refine leafOf_updateAt ?_ q
  intro c
  rcases c with ⟨par, wd⟩
  cases wd <;> rfl

theorem leafOf_setSizes (h : Heap) (sp : Nat) (sz : List Int) (q : Nat) :
    leafOf (setSizes h sp sz) q = leafOf h q := by
  unfold setSizes
  refine leafOf_updateAt ?_ q
  intro c
  rcases c with ⟨par, wd⟩
  cases wd <;> rfl

theorem tabs_addWidget (h : Heap) (sp w q : Nat) :
    SectionWidget.tabs (addWidget h sp w) q = SectionWidget.tabs h q := by
  rw [tabs_eq, tabs_eq, leafOf_addWidget]

end QSplitter

theorem tabs_setCurrentIndex (h : Heap) (sw : Nat) (i : Int) (q : Nat) :
    SectionWidget.tabs (SectionWidget.setCurrentIndex h sw i) q = SectionWidget.tabs h q := by
  rw [tabs_eq, tabs_eq]
  unfold SectionWidget.setCurrentIndex leafOf
  rw [widgetOf_updateAt]
  by_cases hq : q = sw
  · subst hq
    unfold widgetOf
    cases hc : h[q]? with
    | none => simp
    | some c =>
        rcases c with ⟨par, wd⟩
        cases wd <;> simp [Widget.leaf, Widget.tabs]
  · simp [hq]

/-- The store after `new SectionWidget(this)` and `addContent(data, true)`,
apart from the splitter data. -/
theorem leafOf_newSection (st : ContainerWidget) (data : InternalContentData) (q : Nat) :
    leafOf (SectionWidget.addContent (SectionWidget.create st).2.heap
      (SectionWidget.create st).1 data true) q =
      if q = st.heap.length then Widget.SectionWidget [data] 0 else leafOf st.heap q := by
  unfold leafOf widgetOf
  rw [getElem?_newSection]
  by_cases hq : q = st.heap.length
  · simp [hq, Widget.leaf]
  · simp [hq]

theorem tabs_addContentRef {h : Heap} {sw : Nat} (hs : isSection h sw = true)
    (sc : SectionContent) :
    SectionWidget.tabs (SectionWidget.addContentRef h sw sc) sw =
      SectionWidget.tabs h sw ++ [tabOf sc] := by
  obtain ⟨par, ts, i, hc⟩ := isSection_cell hs
  simp [SectionWidget.tabs, widgetOf, SectionWidget.addContentRef, getElem?_updateAt, hc, tabOf]

theorem isSection_addContentRef {h : Heap} {sw : Nat} (hs : isSection h sw = true)
    (sc : SectionContent) : isSection (SectionWidget.addContentRef h sw sc) sw = true := by
  obtain ⟨par, ts, i, hc⟩ := isSection_cell hs
  simp [isSection, widgetOf, SectionWidget.addContentRef, getElem?_updateAt, hc]

/-- The name loop of a section node: it consumes the `n` names and appends the
resolvable ones in order. -/
theorem restoreNames_spec {α : Type} (ds : QDataStream α) (reg : Registry) (sw : Nat) :
    ∀ (n : Nat) (inp : List α) (h : Heap), isSection h sw = true →
      (restoreNames ds reg sw n inp h).1 = (readStrings ds n inp).2 ∧
      SectionWidget.tabs (restoreNames ds reg sw n inp h).2 sw =
        SectionWidget.tabs h sw ++ ((readStrings ds n inp).1.filterMap reg).map tabOf ∧
      isSection (restoreNames ds reg sw n inp h).2 sw = true := by
  intro n
  induction n with
  | zero =>
      intro inp h hs
      simp [restoreNames, readStrings, hs]
  | succ n ih =>
      intro inp h hs
      simp only [restoreNames, readStrings]
      cases hr : reg (ds.readString inp).1 with
      | none =>
          obtain ⟨h1, h2, h3⟩ := ih (ds.readString inp).2 h hs
          simp [h1, h2, h3, List.filterMap_cons, hr]
      | some sc =>
          obtain ⟨h1, h2, h3⟩ := ih (ds.readString inp).2
            (SectionWidget.addContentRef h sw sc) (isSection_addContentRef hs sc)
          simp [h1, h2, h3, List.filterMap_cons, hr, tabs_addContentRef hs]

/-! ## restoreGeometryWalk: a section node -/

/-- C10: a section node under a splitter (kind 2, active index, count `N`, then
`N` names) is decoded without failure: the walk returns true, the new section
holds exactly the resolvable ones among the `N` names, in their encoded order
(the encoded list filtered by the registry), hence at most `N` contents, and
the stream is left right after the `N` names. -/
theorem restoreGeometryWalk_section_resolves {α : Type} (ds : QDataStream α) (reg : Registry)
    (fuel : Nat) (inp : List α) (cur : Nat) (st : ContainerWidget)
    (hkind : (ds.readInt inp).1 = 2) :
    ∃ st', restoreGeometryWalk ds reg (fuel + 1) inp (some cur) st =
        some (true,
          (readStrings ds (ds.readInt (ds.readInt (ds.readInt inp).2).2).1.toNat
            (ds.readInt (ds.readInt (ds.readInt inp).2).2).2).2, st') ∧
      SectionWidget.contents st'.heap st.heap.length =
        (readStrings ds (ds.readInt (ds.readInt (ds.readInt inp).2).2).1.toNat
          (ds.readInt (ds.readInt (ds.readInt inp).2).2).2).1.filterMap reg ∧
      (SectionWidget.contents st'.heap st.heap.length).length ≤
        (ds.readInt (ds.readInt (ds.readInt inp).2).2).1.toNat ∧
      st'._sections = st._sections ++ [st.heap.length] := by
  have hlen : ∀ (n : Nat) (s : List α), (readStrings ds n s).1.length = n := by
    intro n
    induction n with
    | zero => intro s; rfl
    | succ n ih => intro s; simp [readStrings, ih]
  have hsec : isSection (SectionWidget.create st).2.heap st.heap.length = true := by
    simp [isSection, widgetOf, SectionWidget.create, alloc]
  have h0 : SectionWidget.tabs (SectionWidget.create st).2.heap st.heap.length = [] := by
    simp [SectionWidget.tabs, widgetOf, SectionWidget.create, alloc]
  obtain ⟨h1, h2, _⟩ := restoreNames_spec ds reg st.heap.length
    (ds.readInt (ds.readInt (ds.readInt inp).2).2).1.toNat
    (ds.readInt (ds.readInt (ds.readInt inp).2).2).2 (SectionWidget.create st).2.heap hsec
  have hcontents : SectionWidget.contents
      (QSplitter.addWidget (SectionWidget.setCurrentIndex
        (restoreNames ds reg st.heap.length (ds.readInt (ds.readInt (ds.readInt inp).2).2).1.toNat
          (ds.readInt (ds.readInt (ds.readInt inp).2).2).2 (SectionWidget.create st).2.heap).2
        st.heap.length (ds.readInt (ds.readInt inp).2).1) cur st.heap.length) st.heap.length =
      (readStrings ds (ds.readInt (ds.readInt (ds.readInt inp).2).2).1.toNat
        (ds.readInt (ds.readInt (ds.readInt inp).2).2).2).1.filterMap reg := by
    unfold SectionWidget.contents
    rw [QSplitter.tabs_addWidget, tabs_setCurrentIndex, h2, h0]
    simp [List.map_map, Function.comp_def, tabOf]
  refine ⟨{ (SectionWidget.create st).2 with
      heap := (QSplitter.addWidget (SectionWidget.setCurrentIndex
        (restoreNames ds reg st.heap.length (ds.readInt (ds.readInt (ds.readInt inp).2).2).1.toNat
          (ds.readInt (ds.readInt (ds.readInt inp).2).2).2 (SectionWidget.create st).2.heap).2
        st.heap.length (ds.readInt (ds.readInt inp).2).1) cur st.heap.length) },
    ?_, hcontents, ?_, rfl⟩
  · have h2ne : (2 : Int) ≠ 1 := by decide
    simp only [restoreGeometryWalk, hkind, h2ne, if_false, if_true]
    rw [← h1]
    rfl
  · rw [hcontents]
    exact (List.length_filterMap_le _ _).trans (le_of_eq (hlen _ _))

/-! ## Drop operations place the content once -/

/-- Every edge drop on a target that returns creates one section holding the
dropped content and leaves every other section and panel as it was. -/
theorem dropContent_target_edge_leaf {QT_VERSION : Nat} {st st1 : ContainerWidget}
    {data : InternalContentData} {T : Nat} {a : DropArea} {autoActive : Bool} {r : Option Nat}
    (hedge : a.isEdge = true)
    (hd : dropContent QT_VERSION st data (some T) a autoActive = some (r, st1)) :
    st1._sections = st._sections ++ [st.heap.length] ∧
      st1._floatingWidgets = st._floatingWidgets ∧
      ∀ q, leafOf st1.heap q =
        if q = st.heap.length then Widget.SectionWidget [data] 0 else leafOf st.heap q := by
  cases a <;> simp [DropArea.isEdge] at hedge <;>
    simp only [dropContent] at hd <;>
    cases hfp : findParentSplitter st.heap T <;> simp only [hfp] at hd <;>
    first
    | exact absurd hd (by simp)
    | (split_ifs at hd <;> simp only [Option.some.injEq, Prod.mk.injEq] at hd <;>
        obtain ⟨_, rfl⟩ := hd <;>
        exact ⟨rfl, rfl, fun q => by
          simp only [QSplitter.leafOf_insertWidget, QSplitter.leafOf_addWidget,
            leafOf_newSplitter, leafOf_newSection]⟩)

/-- Every outer drop that returns creates one section holding the dropped
content and leaves every other section and panel as it was. -/
theorem dropContentOuterHelper_leaf {QT_VERSION : Nat} {st st1 : ContainerWidget}
    {data : InternalContentData} {o : Int} {app : Bool} {sw : Nat}
    (hd : dropContentOuterHelper QT_VERSION st data o app = some (sw, st1)) :
    st1._sections = st._sections ++ [st.heap.length] ∧
      st1._floatingWidgets = st._floatingWidgets ∧
      ∀ q, leafOf st1.heap q =
        if q = st.heap.length then Widget.SectionWidget [data] 0 else leafOf st.heap q := by
  unfold dropContentOuterHelper at hd
  simp only at hd
  split at hd
  · exact absurd hd (by simp)
  · split_ifs at hd <;> simp only [Option.some.injEq, Prod.mk.injEq] at hd <;>
      obtain ⟨_, rfl⟩ := hd <;>
      exact ⟨rfl, rfl, fun q => by
        simp only [QSplitter.leafOf_insertWidget, QSplitter.leafOf_addWidget,
          QSplitter.leafOf_setOrientation, QSplitter.leafOf_detach, QLayout.replaceWidget,
          QLayout.takeWidget, leafOf_newSplitter, leafOf_newSection]⟩

theorem lt_of_isSection {h : Heap} {p : Nat} (hs : isSection h p = true) : p < h.length := by
  obtain ⟨par, ts, i, hc⟩ := isSection_cell hs
  exact lt_of_getElem?_some hc

theorem contents_eq (h : Heap) (p : Nat) :
    SectionWidget.contents h p = (leafOf h p).tabs.map (·.content) := by
  unfold SectionWidget.contents
  rw [tabs_eq]

theorem heldContents_of_no_floating {st : ContainerWidget} (hf : st._floatingWidgets = []) :
    heldContents st = st._sections.flatMap (SectionWidget.contents st.heap) := by
  simp [heldContents, hf]

/-- A step that adds one section at the next free address and keeps every
other section. -/
theorem DropInv_append {st st1 : ContainerWidget} {ts : List InternalContentData} {i : Int}
    (hs : st1._sections = st._sections ++ [st.heap.length])
    (hf : st1._floatingWidgets = st._floatingWidgets)
    (hl : ∀ q, leafOf st1.heap q =
      if q = st.heap.length then Widget.SectionWidget ts i else leafOf st.heap q)
    (hinv : DropInv st) :
    DropInv st1 ∧ heldContents st1 = heldContents st ++ ts.map (·.content) := by
  obtain ⟨h1, h2, h3⟩ := hinv
  have hlt : ∀ p ∈ st._sections, p ≠ st.heap.length := fun p hp => by
    have := lt_of_isSection (h3 p hp)
    omega
  refine ⟨⟨by rw [hf, h1], ?_, ?_⟩, ?_⟩
  · rw [hs]
    refine List.Nodup.append h2 (List.nodup_singleton _) ?_
    intro p hp hp2
    simp only [List.mem_singleton] at hp2
    exact hlt p hp hp2
  · intro p hp
    rw [hs] at hp
    rw [isSection_eq, hl]
    rcases List.mem_append.mp hp with hp | hp
    · rw [if_neg (hlt p hp), ← isSection_eq]
      exact h3 p hp
    · simp only [List.mem_singleton] at hp
      simp [hp]
  · rw [heldContents_of_no_floating (by rw [hf, h1]), heldContents_of_no_floating h1, hs,
      List.flatMap_append, List.flatMap_singleton]
    congr 1
    · refine List.flatMap_congr (fun p hp => ?_)
      rw [contents_eq, contents_eq, hl, if_neg (hlt p hp)]
    · rw [contents_eq, hl]
      simp [Widget.tabs]

theorem count_flatMap_update {β : Type} [DecidableEq β] (f g : Nat → List β) (e : List β)
    (T : Nat) (x : β) (hT : g T = f T ++ e) (hq : ∀ q, q ≠ T → g q = f q) :
    ∀ l : List Nat, l.Nodup → T ∈ l →
      (l.flatMap g).count x = (l.flatMap f).count x + e.count x := by
  intro l
  induction l with
  | nil => intro _ hmem; simp at hmem
  | cons p ps ih =>
      intro hnd hmem
      obtain ⟨hp, hps⟩ := List.nodup_cons.mp hnd
      by_cases c : p = T
      · subst c
        have hrest : ps.flatMap g = ps.flatMap f :=
          List.flatMap_congr (fun q hq2 => hq q (fun e2 => hp (e2 ▸ hq2)))
        simp only [List.flatMap_cons, List.count_append, hT, hrest]
        omega
      · have hmem2 : T ∈ ps := by
          rcases List.mem_cons.mp hmem with h | h
          · exact absurd h.symm c
          · exact h
        simp only [List.flatMap_cons, List.count_append, hq p c, ih hps hmem2]
        omega

theorem occurrences_eq {st : ContainerWidget} (hf : st._floatingWidgets = []) (uid : Int) :
    occurrences uid st =
      (st._sections.flatMap fun p => (SectionWidget.contents st.heap p).map (·.uid)).count uid := by
  unfold occurrences
  rw [heldContents_of_no_floating hf, List.map_flatMap]

/-- The Center drop as a step on the held contents. -/
theorem DropInv_center {st : ContainerWidget} {data : InternalContentData} {T : Nat}
    (autoActive : Bool) (hT : T ∈ st._sections) (hinv : DropInv st) :
    DropInv { st with heap := SectionWidget.addContent st.heap T data autoActive } ∧
      ∀ uid, occurrences uid { st with heap := SectionWidget.addContent st.heap T data autoActive }
        = occurrences uid st + (if data.content.uid = uid then 1 else 0) := by
  obtain ⟨h1, h2, h3⟩ := hinv
  obtain ⟨par, ts, i, hc⟩ := isSection_cell (h3 T hT)
  have hleaf : ∀ q, leafOf (SectionWidget.addContent st.heap T data autoActive) q =
      if q = T then Widget.SectionWidget (ts ++ [data]) (if autoActive then ts.length else i)
      else leafOf st.heap q := by
    intro q
    unfold leafOf SectionWidget.addContent
    rw [widgetOf_updateAt]
    by_cases c : q = T
    · simp [c, hc, Widget.leaf]
    · simp [c]
  have hTleaf : leafOf st.heap T = Widget.SectionWidget ts i := by
    simp [leafOf, widgetOf, hc, Widget.leaf]
  refine ⟨⟨h1, h2, ?_⟩, ?_⟩
  · intro p hp
    show isSection (SectionWidget.addContent st.heap T data autoActive) p = true
    rw [isSection_eq, hleaf]
    by_cases c : p = T
    · simp [c]
    · rw [if_neg c, ← isSection_eq]
      exact h3 p hp
  · intro uid
    rw [@occurrences_eq { st with heap := SectionWidget.addContent st.heap T data autoActive } h1 uid,
      @occurrences_eq st h1 uid]
    show List.count uid (st._sections.flatMap fun p =>
        (SectionWidget.contents (SectionWidget.addContent st.heap T data autoActive) p).map (·.uid))
      = _
    rw [count_flatMap_update
      (fun p => (SectionWidget.contents st.heap p).map (·.uid)) _ [data.content.uid] T uid ?_ ?_
      st._sections h2 hT]
    · simp [List.count_singleton]
    · simp [contents_eq, hleaf, hTleaf, Widget.tabs]
    · intro q hq
      simp [contents_eq, hleaf, hq]

theorem occurrences_of_heldContents {st st1 : ContainerWidget} {cs : List SectionContent}
    (h : heldContents st1 = heldContents st ++ cs) (uid : Int) :
    occurrences uid st1 = occurrences uid st + (cs.map (·.uid)).count uid := by
  unfold occurrences
  rw [h, List.map_append, List.count_append]

/-- The function `addSection` changes no section and no panel. -/
theorem leafOf_addSection (st : ContainerWidget) (sw : Nat) (q : Nat) :
    leafOf (addSection st sw).heap q = leafOf st.heap q ∧
      (addSection st sw)._sections = st._sections ∧
      (addSection st sw)._floatingWidgets = st._floatingWidgets := by
  unfold addSection
  cases hsp : st._splitter with
  | some sp =>
      simp only [hsp]
      split_ifs
      · exact ⟨rfl, rfl, rfl⟩
      · exact ⟨QSplitter.leafOf_addWidget _ _ _ _, rfl, rfl⟩
  | none =>
      simp only [QLayout.addWidget, hsp]
      split_ifs
      · exact ⟨by simp only [QSplitter.leafOf_detach, leafOf_newSplitter], rfl, rfl⟩
      · exact ⟨by simp only [QSplitter.leafOf_addWidget, QSplitter.leafOf_detach,
          leafOf_newSplitter], rfl, rfl⟩

theorem occurrences_append_one {st st1 : ContainerWidget} {data : InternalContentData}
    (h : heldContents st1 = heldContents st ++ [data].map (·.content)) (uid : Int) :
    occurrences uid st1 = occurrences uid st + (if data.content.uid = uid then 1 else 0) := by
  rw [occurrences_of_heldContents h uid]
  simp [List.count_singleton]

/-- An admissible `dropContent` call that returns keeps the section list
sound and adds exactly one holder of the dropped content. -/
theorem dropContent_step {QT_VERSION : Nat} {st st1 : ContainerWidget}
    {data : InternalContentData} {t : Option Nat} {a : DropArea} {autoActive : Bool}
    {r : Option Nat}
    (hd : dropContent QT_VERSION st data t a autoActive = some (r, st1))
    (hadm : (DropOp.dropContent data t a autoActive).admissible st = true)
    (hinv : DropInv st) :
    DropInv st1 ∧
      ∀ uid, occurrences uid st1 = occurrences uid st + (if data.content.uid = uid then 1 else 0) := by
  cases t with
  | none =>
      have hedge : a.isEdge = true := by simpa [DropOp.admissible] using hadm
      rw [dropContent_outer QT_VERSION st data a autoActive hedge] at hd
      cases hh : dropContentOuterHelper QT_VERSION st data a.axis a.append with
      | none => simp [hh] at hd
      | some res =>
          simp only [hh, Option.map_some', Option.some.injEq, Prod.mk.injEq] at hd
          obtain ⟨_, hst⟩ := hd
          have hh2 : dropContentOuterHelper QT_VERSION st data a.axis a.append = some (res.1, st1) := by
            rw [hh, ← hst]
          obtain ⟨h1, h2, h3⟩ := dropContentOuterHelper_leaf hh2
          obtain ⟨i1, i2⟩ := DropInv_append h1 h2 h3 hinv
          exact ⟨i1, occurrences_append_one i2⟩
  | some T =>
      simp only [DropOp.admissible, Bool.and_eq_true, decide_eq_true_eq] at hadm
      obtain ⟨hne, hT⟩ := hadm
      by_cases hedge : a.isEdge = true
      · obtain ⟨h1, h2, h3⟩ := dropContent_target_edge_leaf hedge hd
        obtain ⟨i1, i2⟩ := DropInv_append h1 h2 h3 hinv
        exact ⟨i1, occurrences_append_one i2⟩
      · have hc : a = DropArea.CenterDropArea := by
          cases a <;> simp [DropArea.isEdge] at hedge hne ⊢
        subst hc
        simp only [dropContent, Option.some.injEq, Prod.mk.injEq] at hd
        obtain ⟨_, hst⟩ := hd
        rw [← hst]
        exact DropInv_center autoActive hT hinv

/-- An admissible `addSectionContent` call that returns keeps the section list
sound and adds exactly one holder of the dropped content. -/
theorem addSectionContent_step {QT_VERSION : Nat} {st st1 : ContainerWidget}
    {sc : SectionContent} {sw : Option Nat} {a : DropArea} {r : Option Nat}
    (hd : addSectionContent QT_VERSION st sc sw a = some (r, st1))
    (hadm : (DropOp.addSectionContent sc sw a).admissible st = true)
    (hinv : DropInv st) :
    DropInv st1 ∧
      ∀ uid, occurrences uid st1 = occurrences uid st + (if sc.uid = uid then 1 else 0) := by
  simp only [DropOp.admissible, Bool.and_eq_true, decide_eq_true_eq] at hadm
  obtain ⟨hne, hsw⟩ := hadm
  unfold addSectionContent at hd
  cases sw with
  | some s =>
      simp only at hd hsw
      refine dropContent_step hd ?_ hinv
      simp only [DropOp.admissible, Bool.and_eq_true, decide_eq_true_eq]
      exact ⟨hne, by simpa using hsw⟩
  | none =>
      by_cases hemp : st._sections.isEmpty = true
      · simp only [hemp, if_true] at hd
        -- the default section
        have hs0 : (addSection (SectionWidget.create st).2 (SectionWidget.create st).1)._sections
            = st._sections ++ [st.heap.length] :=
          (leafOf_addSection _ _ 0).2.1
        have hf0 : (addSection (SectionWidget.create st).2 (SectionWidget.create st).1)._floatingWidgets
            = st._floatingWidgets :=
          (leafOf_addSection _ _ 0).2.2
        have hl0 : ∀ q, leafOf
            (addSection (SectionWidget.create st).2 (SectionWidget.create st).1).heap q =
            if q = st.heap.length then Widget.SectionWidget [] (-1) else leafOf st.heap q := by
          intro q
          rw [(leafOf_addSection _ _ q).1]
          show leafOf (alloc st.heap _).2 q = _
          rw [leafOf_alloc]
          rfl
        obtain ⟨i1, i2⟩ := DropInv_append hs0 hf0 hl0 hinv
        have hadm2 : (DropOp.dropContent (⟨sc, some ⟨sc⟩, some ⟨sc⟩⟩ : InternalContentData)
            (some (SectionWidget.create st).1) a false).admissible
            (addSection (SectionWidget.create st).2 (SectionWidget.create st).1) = true := by
          simp only [DropOp.admissible, Bool.and_eq_true, decide_eq_true_eq]
          refine ⟨hne, ?_⟩
          rw [hs0]
          simp [SectionWidget.create, alloc]
        obtain ⟨j1, j2⟩ := dropContent_step hd hadm2 i1
        refine ⟨j1, fun uid => ?_⟩
        rw [j2 uid, occurrences_of_heldContents i2 uid]
        simp
      · simp only [hemp] at hd
        by_cases hc : a = DropArea.CenterDropArea
        · simp only [hc, if_true] at hd
          cases hhd : st._sections.head? with
          | none =>
              have : st._sections = [] := List.head?_eq_none_iff.mp hhd
              simp [this] at hemp
          | some s =>
              simp only [hhd] at hd
              refine dropContent_step hd ?_ hinv
              simp [DropOp.admissible, List.mem_of_mem_head? hhd]
        · simp only [hc, if_false] at hd
          refine dropContent_step hd ?_ hinv
          simp only [DropOp.admissible]
          cases a <;> simp [DropArea.isEdge] at hne hc ⊢

theorem DropOp_step {QT_VERSION : Nat} {st st1 : ContainerWidget} {op : DropOp}
    (hd : op.apply QT_VERSION st = some st1) (hadm : op.admissible st = true)
    (hinv : DropInv st) :
    DropInv st1 ∧
      ∀ uid, occurrences uid st1 = occurrences uid st + (if op.content.uid = uid then 1 else 0) := by
  cases op with
  | addSectionContent sc sw a =>
      simp only [DropOp.apply] at hd
      cases hh : addSectionContent QT_VERSION st sc sw a with
      | none => simp [hh] at hd
      | some res =>
          simp only [hh, Option.map_some', Option.some.injEq] at hd
          exact @addSectionContent_step QT_VERSION st st1 sc sw a res.1 (by rw [hh, ← hd]) hadm hinv
  | dropContent data t a autoActive =>
      simp only [DropOp.apply] at hd
      cases hh : dropContent QT_VERSION st data t a autoActive with
      | none => simp [hh] at hd
      | some res =>
          simp only [hh, Option.map_some', Option.some.injEq] at hd
          exact @dropContent_step QT_VERSION st st1 data t a autoActive res.1 (by rw [hh, ← hd]) hadm hinv

/-- Conservation law of the drop operations: after an admissible sequence that
runs to its end, a content is held as often as before plus once for every
drop of it. -/
theorem runDrops_occurrences (QT_VERSION : Nat) :
    ∀ (ops : List DropOp) (st st1 : ContainerWidget),
      runDrops QT_VERSION st ops = some st1 → admissibleRun QT_VERSION st ops = true →
      DropInv st →
      DropInv st1 ∧
        ∀ uid, occurrences uid st1 = occurrences uid st + (ops.map (·.content.uid)).count uid := by
  intro ops
  induction ops with
  | nil =>
      intro st st1 hr _ hinv
      simp only [runDrops, Option.some.injEq] at hr
      subst hr
      exact ⟨hinv, fun uid => by simp⟩
  | cons op ops ih =>
      intro st st1 hr hadm hinv
      simp only [runDrops] at hr
      simp only [admissibleRun, Bool.and_eq_true] at hadm
      cases ha : op.apply QT_VERSION st with
      | none => simp [ha] at hr
      | some st2 =>
          simp only [ha] at hr hadm
          obtain ⟨i1, i2⟩ := DropOp_step ha hadm.1 hinv
          obtain ⟨j1, j2⟩ := ih st2 st1 hr hadm.2 i1
          refine ⟨j1, fun uid => ?_⟩
          rw [j2 uid, i2 uid, List.map_cons, List.count_cons]
          simp only [beq_iff_eq]
          omega

theorem admissibleRun_take (QT_VERSION : Nat) :
    ∀ (ops : List DropOp) (st : ContainerWidget) (k : Nat),
      admissibleRun QT_VERSION st ops = true →
      admissibleRun QT_VERSION st (ops.take k) = true := by
  intro ops
  induction ops with
  | nil => intro st k h; simpa using h
  | cons op ops ih =>
      intro st k h
      cases k with
      | zero => rfl
      | succ k =>
          simp only [admissibleRun, Bool.and_eq_true, List.take_succ_cons] at h ⊢
          refine ⟨h.1, ?_⟩
          cases ha : op.apply QT_VERSION st with
          | none => rfl
          | some st2 =>
              have h2 := h.2
              simp only [ha] at h2 ⊢
              exact ih st2 k h2

theorem DropInv_new : DropInv ContainerWidget.new :=
  ⟨rfl, List.nodup_nil, fun _ hp => by simp [ContainerWidget.new] at hp⟩

/-- C4, amended: on a new container, for every sequence of admissible drop
operations (one of the five areas, a target that is a section of the container
or none, no `dropContent` with neither target nor edge area) whose contents
have pairwise distinct uids, after each operation (after the first `k`, for
every `k`) every content dropped so far is held exactly once: by one tab of
one section, and by no floating panel. -/
theorem drops_hold_each_content_once (QT_VERSION : Nat) (ops : List DropOp) (k : Nat)
    (st1 : ContainerWidget)
    (hadm : admissibleRun QT_VERSION ContainerWidget.new ops = true)
    (hdist : (ops.map (·.content.uid)).Nodup)
    (hrun : runDrops QT_VERSION ContainerWidget.new (ops.take k) = some st1) :
    ∀ op ∈ ops.take k, occurrences op.content.uid st1 = 1 := by
  intro op hop
  obtain ⟨_, h2⟩ := runDrops_occurrences QT_VERSION (ops.take k) ContainerWidget.new st1 hrun
    (admissibleRun_take QT_VERSION ops _ k hadm) DropInv_new
  rw [h2 op.content.uid]
  have hsub : ((ops.take k).map (·.content.uid)).Nodup :=
    List.Nodup.sublist (List.Sublist.map _ (List.take_sublist k ops)) hdist
  have hmem : op.content.uid ∈ (ops.take k).map (·.content.uid) :=
    List.mem_map_of_mem _ hop
  have h0 : occurrences op.content.uid ContainerWidget.new = 0 := rfl
  rw [h0, List.count_eq_one_of_mem hsub hmem]

theorem drops_hold_each_content_once_witness :
    admissibleRun 0x050000 ContainerWidget.new sampleDrops = true ∧
    (sampleDrops.map (·.content.uid)).Nodup ∧
    (∃ st1, runDrops 0x050000 ContainerWidget.new (sampleDrops.take 3) = some st1 ∧
      ∀ op ∈ sampleDrops.take 3, occurrences op.content.uid st1 = 1) :=
  ⟨by decide, by decide,
   ⟨_, rfl, drops_hold_each_content_once 0x050000 sampleDrops 3 _ (by decide) (by decide) rfl⟩⟩

/-- C4 fails as stated: a content dropped twice is held twice, and a content
dropped by `dropContent` with no target and the Center area is held nowhere. -/
theorem drops_duplicate_or_lose_content :
    (∃ st1, runDrops 0x050000 ContainerWidget.new
        [DropOp.addSectionContent contentA none DropArea.CenterDropArea,
         DropOp.addSectionContent contentA none DropArea.CenterDropArea] = some st1 ∧
      occurrences contentA.uid st1 = 2) ∧
    (∃ st1, runDrops 0x050000 ContainerWidget.new
        [DropOp.addSectionContent contentA none DropArea.CenterDropArea,
         DropOp.dropContent (dataOf contentB) none DropArea.CenterDropArea false] = some st1 ∧
      occurrences contentB.uid st1 = 0) :=
  ⟨⟨_, rfl, by decide⟩, ⟨_, rfl, by decide⟩⟩

/-- C3, at concrete blobs with a valid header whose tree part is a section
without enclosing splitter: `restoreState` returns false, but the section
list was cleared before the walk and is not put back; with a floating entry in
the blob, the content named by it has also left its section and sits in a new
floating panel. -/
theorem restoreState_failure_not_atomic (fuel : Nat) :
    (restoreState fieldStream sampleRegistry (fuel + 1) oneSection
        [Field.u32 0x1337, Field.u32 1, Field.i32 0, Field.i32 2]
      = some (false, { oneSection with _sections := [] }) ∧
     oneSection._sections = [0]) ∧
    (∃ st1, restoreState fieldStream sampleRegistry (fuel + 1) twoSections
        [Field.u32 0x1337, Field.u32 1, Field.i32 1, Field.str "a", Field.bytes [7], Field.i32 2]
        = some (false, st1) ∧
      st1._sections = [] ∧ twoSections._sections = [0, 2] ∧
      st1._floatingWidgets = [3] ∧ twoSections._floatingWidgets = [] ∧
      SectionWidget.contents st1.heap 0 = [] ∧
      SectionWidget.contents twoSections.heap 0 = [contentA] ∧
      FloatingWidget.content st1.heap 3 = some contentA) :=
  ⟨⟨rfl, rfl⟩, ⟨_, rfl, rfl, rfl, rfl, rfl, rfl, rfl, rfl⟩⟩


theorem fieldStream_lawful : fieldStream.Lawful :=
  ⟨fun _ _ => rfl, fun _ _ => rfl, fun _ _ => rfl, fun _ _ => rfl, fun _ _ => rfl⟩

/-! ## The round trip of save and restore -/

theorem saveNames_eq {α : Type} (ds : QDataStream α) :
    ∀ (cs : List SectionContent) (out : List α),
      saveNames ds out cs = out ++ cs.flatMap fun c => ds.writeString c.uniqueName := by
  intro cs
  induction cs with
  | nil => intro out; simp [saveNames]
  | cons c cs ih => intro out; simp [saveNames, ih, List.flatMap_cons]

theorem readStrings_written {α : Type} {ds : QDataStream α} (hlaw : ds.Lawful) (rest : List α) :
    ∀ names : List QString,
      readStrings ds names.length ((names.flatMap fun n => ds.writeString n) ++ rest)
        = (names, rest) := by
  intro names
  induction names with
  | nil => rfl
  | cons n ns ih =>
      simp only [List.length_cons, readStrings, List.flatMap_cons, List.append_assoc,
        hlaw.readString_write, ih]

theorem shapes_congr {f g : Nat → Option Tree} :
    ∀ ps : List Nat, (∀ p ∈ ps, f p = g p) → shapes f ps = shapes g ps := by
  intro ps
  induction ps with
  | nil => intro _; rfl
  | cons p ps ih =>
      intro h
      simp only [shapes, h p (List.mem_cons_self _ _),
        ih (fun q hq => h q (List.mem_cons_of_mem _ hq))]

theorem filterMap_resolvable (reg : Registry) :
    ∀ names : List QString, (names.all fun n => resolvable reg n) = true →
      (names.filterMap reg).map (·.uniqueName) = names := by
  intro names
  induction names with
  | nil => intro _; rfl
  | cons n ns ih =>
      intro h
      simp only [List.all_cons, Bool.and_eq_true] at h
      obtain ⟨h1, h2⟩ := h
      unfold resolvable at h1
      cases hr : reg n with
      | none => simp [hr] at h1
      | some sc =>
          simp only [hr, decide_eq_true_eq] at h1
          simp [List.filterMap_cons, hr, h1, ih h2]

/-- The name loop of a section node, cell by cell. -/
theorem restoreNames_cell {α : Type} (ds : QDataStream α) (reg : Registry) (sw : Nat) :
    ∀ (n : Nat) (inp : List α) (h : Heap) (par : Option Nat) (ts : List InternalContentData)
      (i : Int), h[sw]? = some ⟨par, Widget.SectionWidget ts i⟩ →
      (restoreNames ds reg sw n inp h).2.length = h.length ∧
      ∀ q, (restoreNames ds reg sw n inp h).2[q]? =
        if q = sw then
          some ⟨par, Widget.SectionWidget
            (ts ++ ((readStrings ds n inp).1.filterMap reg).map tabOf) i⟩
        else h[q]? := by
  intro n
  induction n with
  | zero =>
      intro inp h par ts i hc
      refine ⟨rfl, fun q => ?_⟩
      by_cases c : q = sw
      · simp [restoreNames, readStrings, c, hc]
      · simp [restoreNames, c]
  | succ n ih =>
      intro inp h par ts i hc
      simp only [restoreNames, readStrings]
      cases hr : reg (ds.readString inp).1 with
      | none =>
          obtain ⟨h1, h2⟩ := ih (ds.readString inp).2 h par ts i hc
          refine ⟨h1, fun q => ?_⟩
          rw [h2 q]
          simp [List.filterMap_cons, hr]
      | some sc =>
          have hc2 : (SectionWidget.addContentRef h sw sc)[sw]? =
              some ⟨par, Widget.SectionWidget (ts ++ [tabOf sc]) i⟩ := by
            simp [SectionWidget.addContentRef, getElem?_updateAt, hc, tabOf]
          obtain ⟨h1, h2⟩ := ih (ds.readString inp).2 (SectionWidget.addContentRef h sw sc)
            par (ts ++ [tabOf sc]) i hc2
          refine ⟨by rw [h1]; simp [SectionWidget.addContentRef, length_updateAt], fun q => ?_⟩
          rw [h2 q]
          by_cases c : q = sw
          · simp [c, List.filterMap_cons, hr]
          · simp [c, SectionWidget.addContentRef, getElem?_updateAt]

theorem widgetOf_of_cell {h : Heap} {p : Nat} {c : Cell} (hc : h[p]? = some c) :
    widgetOf h p = c.widget := by
  simp [widgetOf, hc]

/-- A section node round-trips. -/
theorem decodes_section {α : Type} {ds : QDataStream α} (hlaw : ds.Lawful) (reg : Registry)
    (fuel : Nat) (h : Heap) (p : Nat) (ts : List InternalContentData) (i : Int)
    (hw : widgetOf h p = Widget.SectionWidget ts i)
    (hres : (ts.all fun t => resolvable reg t.content.uniqueName) = true) :
    Decodes ds reg (fuel + 1) h p
      (ds.writeInt 2 ++ ds.writeInt i ++ ds.writeInt ts.length ++
        (ts.map (·.content)).flatMap fun c => ds.writeString c.uniqueName) := by
  intro st cur rest pc o cs sz hcur
  have hcurlt := lt_of_getElem?_some hcur
  have hne : cur ≠ st.heap.length := by omega
  have h21 : (2 : Int) ≠ 1 := by decide
  have hnames : ((ts.map (·.content)).flatMap fun c => ds.writeString c.uniqueName)
      = (ts.map (·.content.uniqueName)).flatMap fun n => ds.writeString n := by
    simp [List.flatMap_map]
  have hlen : ((ts.length : Nat) : Int).toNat = (ts.map (·.content.uniqueName)).length := by simp
  have hc0 : (SectionWidget.create st).2.heap[st.heap.length]? =
      some ⟨none, Widget.SectionWidget [] (-1)⟩ := by
    simp [SectionWidget.create, alloc]
  obtain ⟨r1, r2⟩ := restoreNames_cell ds reg st.heap.length
    (ts.map (·.content.uniqueName)).length
    (((ts.map (·.content.uniqueName)).flatMap fun n => ds.writeString n) ++ rest)
    (SectionWidget.create st).2.heap none [] (-1) hc0
  have r0 := (restoreNames_spec ds reg st.heap.length (ts.map (·.content.uniqueName)).length
    (((ts.map (·.content.uniqueName)).flatMap fun n => ds.writeString n) ++ rest)
    (SectionWidget.create st).2.heap
    (by simp [isSection, widgetOf, hc0])).1
  rw [readStrings_written hlaw rest] at r0 r2
  simp only [List.nil_append] at r2
  -- the stream is read field by field
  have hwalk : restoreGeometryWalk ds reg (fuel + 1)
      ((ds.writeInt 2 ++ ds.writeInt i ++ ds.writeInt ts.length ++
        (ts.map (·.content)).flatMap fun c => ds.writeString c.uniqueName) ++ rest)
      (some cur) st =
      some (true, rest, { (SectionWidget.create st).2 with
        heap := (QSplitter.addWidget (SectionWidget.setCurrentIndex
          (restoreNames ds reg st.heap.length (ts.map (·.content.uniqueName)).length
            (((ts.map (·.content.uniqueName)).flatMap fun n => ds.writeString n) ++ rest)
            (SectionWidget.create st).2.heap).2 st.heap.length i) cur st.heap.length) }) := by
    simp only [restoreGeometryWalk, List.append_assoc, hlaw.readInt_write, h21, if_false, if_true,
      hnames, hlen]
    rw [show (SectionWidget.create st).1 = st.heap.length from rfl, r0]
  -- the store before `addWidget`
  have hs : ∀ q, (SectionWidget.setCurrentIndex
      (restoreNames ds reg st.heap.length (ts.map (·.content.uniqueName)).length
        (((ts.map (·.content.uniqueName)).flatMap fun n => ds.writeString n) ++ rest)
        (SectionWidget.create st).2.heap).2 st.heap.length i)[q]? =
      if q = st.heap.length then
        some ⟨none, Widget.SectionWidget
          (((ts.map (·.content.uniqueName)).filterMap reg).map tabOf) i⟩
      else st.heap[q]? := by
    intro q
    simp only [SectionWidget.setCurrentIndex, getElem?_updateAt, r2]
    by_cases c : q = st.heap.length
    · simp [c]
    · simp [c, SectionWidget.create, getElem?_alloc]
  have hs1 := hs st.heap.length
  simp only [if_true] at hs1
  have hs2 := hs cur
  simp only [hne, if_false, hcur] at hs2
  have hfin := fun q => QSplitter.getElem?_addWidget_detached hs1 hs2 hne.symm q
  have hlenH : (QSplitter.addWidget (SectionWidget.setCurrentIndex
      (restoreNames ds reg st.heap.length (ts.map (·.content.uniqueName)).length
        (((ts.map (·.content.uniqueName)).flatMap fun n => ds.writeString n) ++ rest)
        (SectionWidget.create st).2.heap).2 st.heap.length i) cur st.heap.length).length
      = st.heap.length + 1 := by
    rw [QSplitter.length_addWidget]
    unfold SectionWidget.setCurrentIndex
    rw [length_updateAt, r1]
    simp [SectionWidget.create, alloc]
  refine ⟨_, hwalk, ⟨?_, ?_, ?_⟩, ?_, ?_, ⟨rfl, rfl, rfl, rfl⟩⟩
  · show st.heap.length < _
    rw [hlenH]
    exact Nat.lt_succ_self _
  · intro h2 hagree
    have hw2 := hagree st.heap.length (Nat.le_refl _) (by rw [hlenH]; exact Nat.lt_succ_self _)
    have hcell := hfin st.heap.length
    rw [if_pos rfl] at hcell
    rw [widgetOf_of_cell hcell] at hw2
    simp only [shapeOf, hw2, hw]
    have hfm := filterMap_resolvable reg (ts.map (·.content.uniqueName))
      (by simpa [List.all_map, Function.comp_def] using hres)
    have hto : ∀ l : List SectionContent,
        (l.map tabOf).map (fun x => x.content.uniqueName) = l.map (·.uniqueName) := by
      intro l
      rw [List.map_map]
      rfl
    rw [hto, hfm]
  · intro q hq c hc
    unfold QSplitter.children widgetOf at hc
    rw [hfin q] at hc
    have hqc : q ≠ cur := by omega
    by_cases c1 : q = st.heap.length
    · rw [if_pos c1] at hc
      simp at hc
    · have hq2 : st.heap.length < q := by omega
      rw [if_neg c1, if_neg hqc, hs q, if_neg c1, List.getElem?_eq_none (by omega)] at hc
      simp at hc
  · rw [hfin cur, if_neg hne, if_pos rfl]
  · intro q hq hqc
    have c1 : q ≠ st.heap.length := by omega
    rw [hfin q, hs q, if_neg c1, if_neg hqc, if_neg c1]

theorem sameFields_refl (st : ContainerWidget) : sameFields st st := ⟨rfl, rfl, rfl, rfl⟩

theorem sameFields_trans {a b c : ContainerWidget} (h1 : sameFields a b) (h2 : sameFields b c) :
    sameFields a c :=
  ⟨h2.1.trans h1.1, h2.2.1.trans h1.2.1, h2.2.2.1.trans h1.2.2.1, h2.2.2.2.trans h1.2.2.2⟩

theorem children_of_length_le {h : Heap} {q : Nat} (hq : h.length ≤ q) :
    QSplitter.children h q = [] := by
  unfold QSplitter.children widgetOf
  rw [List.getElem?_eq_none hq]

theorem children_congr {h h1 : Heap} {q : Nat} (hq : h1[q]? = h[q]?) :
    QSplitter.children h1 q = QSplitter.children h q := by
  unfold QSplitter.children widgetOf
  rw [hq]

theorem widgetOf_congr {h h1 : Heap} {q : Nat} (hq : h1[q]? = h[q]?) :
    widgetOf h1 q = widgetOf h q := by
  unfold widgetOf
  rw [hq]

/-- The children of a splitter round-trip, one after the other. -/
theorem decodes_children {α : Type} {ds : QDataStream α} {reg : Registry} {fuel : Nat}
    (hrt : RoundTrips ds reg fuel) (h : Heap) :
    ∀ cs : List Nat, cs.all (restorable reg h fuel) = true → ∀ out : List α, ∃ encs,
      saveLoop (fun o1 w => saveGeometryWalk ds h fuel o1 (some w)) out cs = some (out ++ encs) ∧
      ∀ (st : ContainerWidget) (sp : Nat) (rest : List α) (pc : Option Nat) (o : Int)
        (kids : List Nat) (sz : List Int),
        st.heap[sp]? = some ⟨pc, Widget.QSplitter o kids sz⟩ →
        ∃ st1 ps,
          restoreLoop (fun i s => restoreGeometryWalk ds reg fuel i (some sp) s) cs.length
            (encs ++ rest) st = some (true, rest, st1) ∧
          NewChildren h fuel cs st.heap.length st1.heap ps ∧
          st1.heap[sp]? = some ⟨pc, Widget.QSplitter o (kids ++ ps) sz⟩ ∧
          (∀ q, q < st.heap.length → q ≠ sp → st1.heap[q]? = st.heap[q]?) ∧
          sameFields st st1 := by
  intro cs
  induction cs with
  | nil =>
      intro _ out
      refine ⟨[], by simp [saveLoop], ?_⟩
      intro st sp rest pc o kids sz hsp
      refine ⟨st, [], by simp [restoreLoop], ⟨Nat.le_refl _, fun _ _ => rfl, ?_, ?_⟩,
        by simpa using hsp, fun _ _ _ => rfl, sameFields_refl st⟩
      · intro q hq c hc
        rw [children_of_length_le hq] at hc
        simp at hc
      · intro c hc
        simp at hc
  | cons c cs ih =>
      intro hall out
      simp only [List.all_cons, Bool.and_eq_true] at hall
      obtain ⟨encC, hsaveC, hdecC⟩ := hrt h c hall.1 out
      obtain ⟨encs, hsave, hdec⟩ := ih hall.2 (out ++ encC)
      refine ⟨encC ++ encs, by simp only [saveLoop, hsaveC, hsave, List.append_assoc], ?_⟩
      intro st sp rest pc o kids sz hsp
      have hsplt := lt_of_getElem?_some hsp
      obtain ⟨sta, hwa, hsub, hspa, hframea, hfa⟩ := hdecC st sp (encs ++ rest) pc o kids sz hsp
      obtain ⟨st1, ps, hw1, hch, hsp1, hframe1, hf1⟩ :=
        hdec sta sp rest pc o (kids ++ [st.heap.length]) sz hspa
      have hgrow := hsub.grows
      refine ⟨st1, st.heap.length :: ps, ?_, ⟨?_, ?_, ?_, ?_⟩, ?_, ?_, sameFields_trans hfa hf1⟩
      · simp only [List.length_cons, restoreLoop, List.append_assoc, hwa, hw1]
      · have := hch.grows
        omega
      · intro h2 hagree
        have g1 : shapeOf h2 fuel st.heap.length = shapeOf h fuel c := by
          refine hsub.shape h2 (fun q hq1 hq2 => ?_)
          have hq3 : q < st1.heap.length := by
            have := hch.grows
            omega
          rw [hagree q hq1 hq3]
          exact widgetOf_congr (hframe1 q hq2 (by omega))
        have g2 : shapes (shapeOf h2 fuel) ps = shapes (shapeOf h fuel) cs := by
          refine hch.shape h2 (fun q hq1 hq2 => hagree q (by omega) hq2)
        simp only [shapes, g1, g2]
      · intro q hq d hd
        by_cases c1 : sta.heap.length ≤ q
        · have := hch.kids q c1 d hd
          omega
        · have hq2 : q < sta.heap.length := by omega
          rw [children_congr (hframe1 q hq2 (by omega))] at hd
          exact hsub.kids q hq d hd
      · intro d hd
        rcases List.mem_cons.mp hd with e | e
        · omega
        · have := hch.fresh d e
          omega
      · rw [hsp1]
        simp
      · intro q hq hqsp
        rw [hframe1 q (by omega) hqsp, hframea q hq hqsp]

/-- A splitter node round-trips up to the last step of the walk, which depends
on the enclosing splitter. -/
theorem decodes_splitter_body {α : Type} {ds : QDataStream α} (hlaw : ds.Lawful) {reg : Registry}
    {fuel : Nat} (hrt : RoundTrips ds reg fuel) (h : Heap) (p : Nat) (o1 : Int)
    (cs1 : List Nat) (sz1 : List Int)
    (hw : widgetOf h p = Widget.QSplitter o1 cs1 sz1)
    (ho : o1 = Horizontal ∨ o1 = Vertical)
    (hall : cs1.all (restorable reg h fuel) = true) (out : List α) :
    ∃ enc, saveGeometryWalk ds h (fuel + 1) out (some p) = some (out ++ enc) ∧
      ∀ (st : ContainerWidget) (curOpt : Option Nat) (rest : List α), ∃ stb ps,
        restoreGeometryWalk ds reg (fuel + 1) (enc ++ rest) curOpt st =
          some (true, rest,
            match curOpt with
            | none =>
                { stb with heap := QSplitter.setSizes stb.heap st.heap.length sz1,
                           _splitter := some st.heap.length }
            | some cur =>
                { stb with
                  heap := (QSplitter.addWidget (QSplitter.setSizes stb.heap st.heap.length sz1)
                    cur st.heap.length) }) ∧
        NewChildren h fuel cs1 (st.heap.length + 1) stb.heap ps ∧
        stb.heap[st.heap.length]? = some ⟨none, Widget.QSplitter o1 ps []⟩ ∧
        (∀ q, q < st.heap.length → stb.heap[q]? = st.heap[q]?) ∧
        sameFields st stb := by
  obtain ⟨encs, hsave, hdec⟩ := decodes_children hrt h cs1 hall
    (out ++ ds.writeInt 1 ++ ds.writeInt (if o1 = Horizontal then 1 else 2) ++
      ds.writeInt cs1.length ++ ds.writeIntList sz1)
  refine ⟨ds.writeInt 1 ++ ds.writeInt (if o1 = Horizontal then 1 else 2) ++
      ds.writeInt cs1.length ++ ds.writeIntList sz1 ++ encs, ?_, ?_⟩
  · have hsave2 := hsave
    simp only [List.append_assoc] at hsave2
    simp only [saveGeometryWalk, hw, List.append_assoc, hsave2]
  · intro st curOpt rest
    have hcode : (if o1 = Horizontal then (1 : Int) else 2) = o1 := by
      rcases ho with e | e
      · simp [e, Horizontal]
      · simp [e, Horizontal, Vertical]
    have hsp : ({ st with heap := (newSplitter st.heap o1).2 } : ContainerWidget).heap[st.heap.length]?
        = some ⟨none, Widget.QSplitter o1 [] []⟩ := by
      simp [newSplitter, alloc]
    obtain ⟨stb, ps, hw1, hch, hspb, hframe, hf⟩ :=
      hdec { st with heap := (newSplitter st.heap o1).2 } st.heap.length rest none o1 [] [] hsp
    have hlen2 : ({ st with heap := (newSplitter st.heap o1).2 } : ContainerWidget).heap.length
        = st.heap.length + 1 := by
      simp [newSplitter, alloc]
    rw [hlen2] at hch
    refine ⟨stb, ps, ?_, hch, by simpa using hspb, ?_, hf⟩
    · simp only [restoreGeometryWalk, List.append_assoc, hlaw.readInt_write,
        hlaw.readIntList_write, if_true, hcode, Int.toNat_ofNat]
      rw [show (newSplitter st.heap o1).1 = st.heap.length from rfl, hw1]
      cases curOpt <;> rfl
    · intro q hq
      rw [hframe q (by rw [hlen2]; omega) (by omega)]
      show (newSplitter st.heap o1).2[q]? = _
      unfold newSplitter
      rw [getElem?_alloc, if_neg (by omega)]

theorem getElem?_setSizes {h : Heap} {sp : Nat} {par : Option Nat} {o : Int} {cs : List Nat}
    {sz : List Int} (sz1 : List Int) (hsp : h[sp]? = some ⟨par, Widget.QSplitter o cs sz⟩)
    (q : Nat) :
    (QSplitter.setSizes h sp sz1)[q]? =
      if q = sp then some ⟨par, Widget.QSplitter o cs sz1⟩ else h[q]? := by
  simp only [QSplitter.setSizes, getElem?_updateAt, hsp, Option.map_some']

/-- A splitter node round-trips below a splitter. -/
theorem decodes_splitter {α : Type} {ds : QDataStream α} (hlaw : ds.Lawful) {reg : Registry}
    {fuel : Nat} (hrt : RoundTrips ds reg fuel) (h : Heap) (p : Nat) (o1 : Int)
    (cs1 : List Nat) (sz1 : List Int)
    (hw : widgetOf h p = Widget.QSplitter o1 cs1 sz1)
    (ho : o1 = Horizontal ∨ o1 = Vertical)
    (hall : cs1.all (restorable reg h fuel) = true) (out : List α) :
    ∃ enc, saveGeometryWalk ds h (fuel + 1) out (some p) = some (out ++ enc) ∧
      Decodes ds reg (fuel + 1) h p enc := by
  obtain ⟨enc, hsave, hbody⟩ := decodes_splitter_body hlaw hrt h p o1 cs1 sz1 hw ho hall out
  refine ⟨enc, hsave, ?_⟩
  intro st cur rest pc o cs sz hcur
  obtain ⟨stb, ps, hwalk, hch, hspb, hframe, hf⟩ := hbody st (some cur) rest
  have hcurlt := lt_of_getElem?_some hcur
  have hne : cur ≠ st.heap.length := by omega
  have h1 := fun q => getElem?_setSizes sz1 hspb q
  have h1sp := h1 st.heap.length
  rw [if_pos rfl] at h1sp
  have h1cur := h1 cur
  rw [if_neg hne, hframe cur hcurlt, hcur] at h1cur
  have hfin := fun q => QSplitter.getElem?_addWidget_detached h1sp h1cur hne.symm q
  have hlenH : (QSplitter.addWidget (QSplitter.setSizes stb.heap st.heap.length sz1) cur
      st.heap.length).length = stb.heap.length := by
    rw [QSplitter.length_addWidget]
    unfold QSplitter.setSizes
    rw [length_updateAt]
  have hgrow : st.heap.length + 1 ≤ stb.heap.length := hch.grows
  have hrest : ∀ q, st.heap.length < q →
      (QSplitter.addWidget (QSplitter.setSizes stb.heap st.heap.length sz1) cur
        st.heap.length)[q]? = stb.heap[q]? := by
    intro q hq
    rw [hfin q, if_neg (by omega), if_neg (by omega), h1 q, if_neg (by omega)]
  refine ⟨_, hwalk, ⟨?_, ?_, ?_⟩, ?_, ?_, hf⟩
  · show st.heap.length < _
    rw [hlenH]
    omega
  · intro h2 hagree
    have hw2 := hagree st.heap.length (Nat.le_refl _) (by rw [hlenH]; omega)
    have hcell := hfin st.heap.length
    rw [if_pos rfl] at hcell
    rw [widgetOf_of_cell hcell] at hw2
    have hsh : shapes (shapeOf h2 fuel) ps = shapes (shapeOf h fuel) cs1 := by
      refine hch.shape h2 (fun q hq1 hq2 => ?_)
      rw [hagree q (by omega) (by rw [hlenH]; exact hq2)]
      exact widgetOf_congr (hrest q (by omega))
    simp only [shapeOf, hw2, hw, hsh]
  · intro q hq c hc
    by_cases c1 : q = st.heap.length
    · have hcell := hfin st.heap.length
      rw [if_pos rfl] at hcell
      rw [c1, QSplitter.children_of_cell hcell] at hc
      have := hch.fresh c hc
      omega
    · rw [children_congr (hrest q (by omega))] at hc
      have := hch.kids q (by omega) c hc
      omega
  · rw [hfin cur, if_neg hne, if_pos rfl]
  · intro q hq hqc
    rw [hfin q, if_neg (by omega), if_neg hqc, h1 q, if_neg (by omega), hframe q hq]

/-- Save followed by restore rebuilds every restorable subtree. -/
theorem roundTrips {α : Type} {ds : QDataStream α} (hlaw : ds.Lawful) (reg : Registry) :
    ∀ fuel, RoundTrips ds reg fuel := by
  intro fuel
  induction fuel with
  | zero =>
      intro h p hres
      simp [restorable] at hres
  | succ fuel ih =>
      intro h p hres out
      unfold restorable at hres
      cases hw : widgetOf h p with
      | QSplitter o1 cs1 sz1 =>
          simp only [hw, Bool.and_eq_true, Bool.or_eq_true, decide_eq_true_eq] at hres
          exact decodes_splitter hlaw ih h p o1 cs1 sz1 hw hres.1 hres.2 out
      | SectionWidget ts i =>
          simp only [hw] at hres
          refine ⟨_, ?_, decodes_section hlaw reg fuel h p ts i hw hres⟩
          simp only [saveGeometryWalk, hw, saveNames_eq, List.append_assoc]
      | FloatingWidget sc tw cw g => simp [hw] at hres
      | deleted => simp [hw] at hres

/-! ## restoreState after saveState -/

theorem length_sectionTakeContent (h : Heap) (sw : Nat) (uid : Int) :
    (SectionWidget.takeContent h sw uid).2.2.length = h.length := by
  unfold SectionWidget.takeContent
  cases SectionWidget.takeTab uid (SectionWidget.tabs h sw) with
  | none => rfl
  | some r => simp [length_updateAt]

theorem length_takeContentSections (uid : Int) :
    ∀ (ss : List Nat) (h : Heap), (takeContentSections uid ss h).2.2.length = h.length := by
  intro ss
  induction ss with
  | nil => intro h; rfl
  | cons s ss ih =>
      intro h
      simp only [takeContentSections]
      have hl := length_sectionTakeContent h s uid
      rcases hr : SectionWidget.takeContent h s uid with ⟨b, d, h1⟩
      rw [hr] at hl
      cases b
      · simp only
        rw [ih h1]
        exact hl
      · exact hl

theorem length_floatingTakeContent (h : Heap) (fw : Nat) :
    (FloatingWidget.takeContent h fw).2.length = h.length := by
  unfold FloatingWidget.takeContent
  cases widgetOf h fw <;> simp [length_updateAt]

theorem length_takeContentFloatings (uid : Int) :
    ∀ (fs : List Nat) (d : Option InternalContentData) (h : Heap),
      (takeContentFloatings uid fs d h).2.2.length = h.length := by
  intro fs
  induction fs with
  | nil => intro d h; rfl
  | cons f fs ih =>
      intro d h
      simp only [takeContentFloatings]
      cases FloatingWidget.content h f with
      | none => exact ih d h
      | some c =>
          simp only
          split_ifs
          · exact length_floatingTakeContent h f
          · rw [ih]
            exact length_floatingTakeContent h f

/-- The function `takeContent` moves payloads only: the store keeps its size and the fields
of the container their values. -/
theorem takeContent_fields (st : ContainerWidget) (sc : SectionContent) :
    (takeContent st sc).2.2.heap.length = st.heap.length ∧
      (takeContent st sc).2.2._mainLayout = st._mainLayout ∧
      (takeContent st sc).2.2._splitter = st._splitter ∧
      (takeContent st sc).2.2._sections = st._sections ∧
      (takeContent st sc).2.2._floatingWidgets = st._floatingWidgets := by
  unfold takeContent
  have hl := length_takeContentSections sc.uid st._sections st.heap
  rcases hr : takeContentSections sc.uid st._sections st.heap with ⟨b, d, h1⟩
  rw [hr] at hl
  cases b
  · simp only [and_true]
    rw [length_takeContentFloatings]
    exact hl
  · simpa using hl

/-- The floating entries are consumed whatever the registry says, and the loop
leaves the layout and the `_splitter` field alone; the store only grows. -/
theorem restoreFloatings_spec {α : Type} (ds : QDataStream α) (reg : Registry) :
    ∀ (n : Nat) (inp : List α) (st : ContainerWidget),
      (restoreFloatings ds reg n inp st).1 = skipFloatings ds n inp ∧
      (restoreFloatings ds reg n inp st).2._mainLayout = st._mainLayout ∧
      (restoreFloatings ds reg n inp st).2._splitter = st._splitter ∧
      st.heap.length ≤ (restoreFloatings ds reg n inp st).2.heap.length := by
  intro n
  induction n with
  | zero => intro inp st; exact ⟨rfl, rfl, rfl, Nat.le_refl _⟩
  | succ n ih =>
      intro inp st
      simp only [restoreFloatings, skipFloatings]
      cases reg (ds.readString inp).1 with
      | none => exact ih _ st
      | some sc =>
          simp only
          obtain ⟨t1, t2, t3, _, _⟩ := takeContent_fields st sc
          rcases hr : takeContent st sc with ⟨b, d, st1⟩
          rw [hr] at t1 t2 t3
          simp only at t1 t2 t3
          cases b
          · simp only
            obtain ⟨i1, i2, i3, i4⟩ := ih (ds.readByteArray (ds.readString inp).2).2 st1
            exact ⟨i1, i2.trans t2, i3.trans t3, by omega⟩
          · simp only
            obtain ⟨i1, i2, i3, i4⟩ := ih (ds.readByteArray (ds.readString inp).2).2
              { (FloatingWidget.create st1 sc (d.bind (·.titleWidget))
                  (d.bind (·.contentWidget))).2 with
                heap := (FloatingWidget.restoreGeometry
                  (FloatingWidget.create st1 sc (d.bind (·.titleWidget))
                    (d.bind (·.contentWidget))).2.heap
                  (FloatingWidget.create st1 sc (d.bind (·.titleWidget))
                    (d.bind (·.contentWidget))).1 (ds.readByteArray (ds.readString inp).2).1) }
            refine ⟨i1, i2.trans t2, i3.trans t3, ?_⟩
            have : st1.heap.length ≤ (FloatingWidget.restoreGeometry
                  (FloatingWidget.create st1 sc (d.bind (·.titleWidget))
                    (d.bind (·.contentWidget))).2.heap
                  (FloatingWidget.create st1 sc (d.bind (·.titleWidget))
                    (d.bind (·.contentWidget))).1
                  (ds.readByteArray (ds.readString inp).2).1).length := by
              simp [FloatingWidget.restoreGeometry, length_updateAt, FloatingWidget.create, alloc]
            simp only at i4
            omega

/-- What `saveState` writes for the floating panels is what the floating loop
of `restoreState` consumes. -/
theorem saveFloatings_skip {α : Type} {ds : QDataStream α} (hlaw : ds.Lawful) (h : Heap) :
    ∀ (fws : List Nat), (∀ fw ∈ fws, (FloatingWidget.content h fw).isSome = true) →
      ∀ out : List α, ∃ enc, saveFloatings ds h out fws = out ++ enc ∧
        ∀ rest : List α, skipFloatings ds fws.length (enc ++ rest) = rest := by
  intro fws
  induction fws with
  | nil =>
      intro _ out
      exact ⟨[], by simp [saveFloatings], fun _ => rfl⟩
  | cons fw fws ih =>
      intro hall out
      have hfw := hall fw (List.mem_cons_self _ _)
      unfold FloatingWidget.content at hfw
      cases hw : widgetOf h fw with
      | FloatingWidget sc tw cw g =>
          obtain ⟨enc, h1, h2⟩ := ih (fun f hf => hall f (List.mem_cons_of_mem _ hf))
            (out ++ ds.writeString sc.uniqueName ++ ds.writeByteArray g)
          refine ⟨ds.writeString sc.uniqueName ++ ds.writeByteArray g ++ enc, ?_, ?_⟩
          · have h1b := h1
            simp only [List.append_assoc] at h1b
            simp only [saveFloatings, hw, List.append_assoc, h1b]
          · intro rest
            simp only [List.length_cons, skipFloatings, List.append_assoc,
              hlaw.readString_write, hlaw.readByteArray_write]
            exact h2 rest
      | QSplitter o cs sz => simp [hw] at hfw
      | SectionWidget ts i => simp [hw] at hfw
      | deleted => simp [hw] at hfw

/-- Deleting a widget leaves every widget that is not its parent splitter as
it was. -/
theorem widgetOf_deleteWidget {h : Heap} {w q : Nat} (hq : q ≠ w)
    (hc : w ∉ QSplitter.children h q) : widgetOf (deleteWidget h w) q = widgetOf h q := by
  unfold deleteWidget
  rw [widgetOf_updateAt, if_neg hq]
  unfold QSplitter.detach
  cases hp : parentOf h w with
  | none => rfl
  | some p =>
      simp only
      rw [widgetOf_updateAt, if_neg hq]
      unfold QSplitter.removeChild
      rw [widgetOf_updateAt]
      by_cases c : q = p
      · subst c
        rw [if_pos rfl]
        unfold QSplitter.children widgetOf at hc
        unfold widgetOf
        cases hcell : h[q]? with
        | none => rfl
        | some cell =>
            rcases cell with ⟨par, wd⟩
            rw [hcell] at hc
            cases wd with
            | QSplitter o cs sz =>
                simp only at hc
                simp [List.erase_of_not_mem hc]
            | SectionWidget ts i => rfl
            | FloatingWidget sc tw cw g => rfl
            | deleted => rfl
      · rw [if_neg c]

/-- Deleting widgets below `lo` leaves a region from `lo` on whose splitters
hold widgets of the region only as it was. -/
theorem widgetOf_qDeleteAll (lo : Nat) :
    ∀ (ws : List Nat) (h : Heap), (∀ w ∈ ws, w < lo) →
      (∀ q, lo ≤ q → ∀ c ∈ QSplitter.children h q, lo ≤ c) →
      ∀ q, lo ≤ q → widgetOf (ws.foldl deleteWidget h) q = widgetOf h q := by
  intro ws
  induction ws with
  | nil => intro h _ _ q _; rfl
  | cons w ws ih =>
      intro h hws hk q hq
      have hwlo := hws w (List.mem_cons_self _ _)
      have step : ∀ q, lo ≤ q → widgetOf (deleteWidget h w) q = widgetOf h q := by
        intro q hq
        refine widgetOf_deleteWidget (by omega) (fun hmem => ?_)
        have := hk q hq w hmem
        omega
      have hk2 : ∀ q, lo ≤ q → ∀ c ∈ QSplitter.children (deleteWidget h w) q, lo ≤ c := by
        intro q hq c hc
        unfold QSplitter.children at hc
        rw [step q hq] at hc
        exact hk q hq c hc
      rw [List.foldl_cons, ih (deleteWidget h w) (fun x hx => hws x (List.mem_cons_of_mem _ hx))
        hk2 q hq, step q hq]

theorem shapes_isSome (f : Nat → Option Tree) :
    ∀ cs : List Nat, (∀ c ∈ cs, (f c).isSome = true) → (shapes f cs).isSome = true := by
  intro cs
  induction cs with
  | nil => intro _; rfl
  | cons c cs ih =>
      intro h
      have h1 := h c (List.mem_cons_self _ _)
      have h2 := ih (fun d hd => h d (List.mem_cons_of_mem _ hd))
      cases hf : f c with
      | none => simp [hf] at h1
      | some t =>
          cases hs : shapes f cs with
          | none => simp [hs] at h2
          | some ts => simp [shapes, hf, hs]

/-- A restorable widget has a tree at that depth. -/
theorem shapeOf_isSome_of_restorable (reg : Registry) (h : Heap) :
    ∀ (fuel p : Nat), restorable reg h fuel p = true → (shapeOf h fuel p).isSome = true := by
  intro fuel
  induction fuel with
  | zero => intro p hp; simp [restorable] at hp
  | succ fuel ih =>
      intro p hp
      unfold restorable at hp
      unfold shapeOf
      cases hw : widgetOf h p with
      | QSplitter o cs sz =>
          simp only [hw, Bool.and_eq_true, List.all_eq_true] at hp
          have := shapes_isSome (shapeOf h fuel) cs (fun c hc => ih c (hp.2 c hc))
          cases hs : shapes (shapeOf h fuel) cs with
          | none => simp [hs] at this
          | some ts => simp [hs]
      | SectionWidget ts i => rfl
      | FloatingWidget sc tw cw g => simp [hw] at hp
      | deleted => simp [hw] at hp

theorem qDeleteAll_fields (st : ContainerWidget) (ws : List Nat) :
    (qDeleteAll st ws)._mainLayout = st._mainLayout ∧
      (qDeleteAll st ws)._splitter = st._splitter ∧
      (qDeleteAll st ws).heap = ws.foldl deleteWidget st.heap :=
  ⟨rfl, rfl, rfl⟩

/-- C1, amended: for a container whose main layout holds its top-level
splitter, whose splitters are horizontal or vertical and whose section
contents are all resolvable through the registry (`restorable`, with `fuel`
above the depth of the tree), `saveState` returns a blob on which
`restoreState` returns true, and the new top-level splitter, installed in the
main layout and in `_splitter`, carries a tree equal to the saved one: same
orientations, same nesting and child order, same content names in tab order
and same active index in every section. The blob ends with what
`saveGeometryWalk` wrote for the top-level splitter, and `restoreGeometryWalk`
consumes exactly that: run on it, followed by any further items, it returns
true and leaves the further items. -/
theorem restoreState_saveState_roundtrip {α : Type} (ds : QDataStream α) (hlaw : ds.Lawful)
    (reg : Registry) (fuel : Nat) (st : ContainerWidget) (root : Nat)
    (hlay : st._mainLayout = [some root])
    (hroot : isSplitter st.heap root = true)
    (hres : restorable reg st.heap fuel root = true)
    (hfl : ∀ fw ∈ st._floatingWidgets, (FloatingWidget.content st.heap fw).isSome = true)
    (hold : ∀ p, p ∈ st._sections ∨ p ∈ st._floatingWidgets → p < st.heap.length) :
    ∃ blob st1 root1,
      saveState ds fuel st = some blob ∧
      restoreState ds reg fuel st blob = some (true, st1) ∧
      st1._mainLayout = [some root1] ∧ st1._splitter = some root1 ∧
      shapeOf st1.heap fuel root1 = shapeOf st.heap fuel root ∧
      (shapeOf st.heap fuel root).isSome = true ∧
      ∃ pre enc, blob = pre ++ enc ∧
        saveGeometryWalk ds st.heap fuel pre (some root) = some (pre ++ enc) ∧
        ∀ (s : ContainerWidget) (cur : Option Nat) (rest : List α),
          ∃ s1, restoreGeometryWalk ds reg fuel (enc ++ rest) cur s = some (true, rest, s1) := by
  have hsome := shapeOf_isSome_of_restorable reg st.heap fuel root hres
  cases fuel with
  | zero => simp [restorable] at hres
  | succ fuel =>
  obtain ⟨par, o1, cs1, sz1, hc⟩ := isSplitter_cell hroot
  have hw : widgetOf st.heap root = Widget.QSplitter o1 cs1 sz1 := widgetOf_of_cell hc
  unfold restorable at hres
  simp only [hw, Bool.and_eq_true, Bool.or_eq_true, decide_eq_true_eq] at hres
  obtain ⟨encF, hF1, hF2⟩ := saveFloatings_skip hlaw st.heap st._floatingWidgets hfl
    (ds.writeUInt32 0x00001337 ++ ds.writeUInt32 1 ++ ds.writeInt st._floatingWidgets.length)
  obtain ⟨encT, hT1, hbody⟩ := decodes_splitter_body hlaw (roundTrips hlaw reg fuel) st.heap root
    o1 cs1 sz1 hw hres.1 hres.2
    (ds.writeUInt32 0x00001337 ++ ds.writeUInt32 1 ++ ds.writeInt st._floatingWidgets.length
      ++ encF)
  have hsave : saveState ds (fuel + 1) st =
      some (ds.writeUInt32 0x00001337 ++ ds.writeUInt32 1 ++
        ds.writeInt st._floatingWidgets.length ++ encF ++ encT) := by
    simp only [saveState, hF1, hlay, saveLayout, hT1]
  -- the floating loop
  obtain ⟨f1, f2, f3, f4⟩ := restoreFloatings_spec ds reg st._floatingWidgets.length
    (encF ++ encT) st
  rw [hF2 encT] at f1
  obtain ⟨stb, ps, hwalk, hch, hspb, hframe, hf⟩ := hbody
    { (restoreFloatings ds reg st._floatingWidgets.length (encF ++ encT) st).2 with
      _sections := [] } none []
  rw [List.append_nil] at hwalk
  simp only at hwalk hch hspb hframe
  generalize hfl2 : (restoreFloatings ds reg st._floatingWidgets.length (encF ++ encT) st) = fl
    at f1 f2 f3 f4 hwalk hch hspb hframe hf
  have hlo : ∀ p, p ∈ st._sections ∨ p ∈ st._floatingWidgets → p < fl.2.heap.length :=
    fun p hp => Nat.lt_of_lt_of_le (hold p hp) f4
  -- the store after the walk
  have h2 := fun q => getElem?_setSizes sz1 hspb q
  have h2sp := h2 fl.2.heap.length
  rw [if_pos rfl] at h2sp
  have hgrow : fl.2.heap.length + 1 ≤ stb.heap.length := hch.grows
  have hk2 : ∀ q, fl.2.heap.length ≤ q →
      ∀ c ∈ QSplitter.children (QSplitter.setSizes stb.heap fl.2.heap.length sz1) q,
        fl.2.heap.length ≤ c := by
    intro q hq c hcm
    by_cases c1 : q = fl.2.heap.length
    · rw [c1, QSplitter.children_of_cell h2sp] at hcm
      have := hch.fresh c hcm
      omega
    · rw [children_congr ((h2 q).trans (if_neg c1))] at hcm
      have := hch.kids q (by omega) c hcm
      omega
  have hd1 := widgetOf_qDeleteAll fl.2.heap.length st._floatingWidgets
    (QSplitter.setSizes stb.heap fl.2.heap.length sz1) (fun w hw => hlo w (Or.inr hw)) hk2
  have hk3 : ∀ q, fl.2.heap.length ≤ q →
      ∀ c ∈ QSplitter.children (st._floatingWidgets.foldl deleteWidget
        (QSplitter.setSizes stb.heap fl.2.heap.length sz1)) q, fl.2.heap.length ≤ c := by
    intro q hq c hcm
    unfold QSplitter.children at hcm
    rw [hd1 q hq] at hcm
    exact hk2 q hq c hcm
  have hd2 := widgetOf_qDeleteAll fl.2.heap.length st._sections
    (st._floatingWidgets.foldl deleteWidget (QSplitter.setSizes stb.heap fl.2.heap.length sz1))
    (fun w hw => hlo w (Or.inl hw)) hk3
  have hfinal : ∀ q, fl.2.heap.length ≤ q →
      widgetOf (st._sections.foldl deleteWidget (st._floatingWidgets.foldl deleteWidget
        (QSplitter.setSizes stb.heap fl.2.heap.length sz1))) q =
      widgetOf (QSplitter.setSizes stb.heap fl.2.heap.length sz1) q :=
    fun q hq => (hd2 q hq).trans (hd1 q hq)
  have hdet : QSplitter.detach (QSplitter.setSizes stb.heap fl.2.heap.length sz1)
      fl.2.heap.length = QSplitter.setSizes stb.heap fl.2.heap.length sz1 :=
    QSplitter.detach_of_cell_none h2sp
  have hlayb : stb._mainLayout = [some root] := by
    rw [hf.1]
    show fl.2._mainLayout = _
    rw [f2, hlay]
  refine ⟨_, { stb with
      heap := (st._sections.foldl deleteWidget (st._floatingWidgets.foldl deleteWidget
        (QSplitter.setSizes stb.heap fl.2.heap.length sz1))),
      _mainLayout := [some fl.2.heap.length],
      _splitter := some fl.2.heap.length,
      _sections := (stb._sections.filter (fun p => !st._floatingWidgets.contains p)).filter
        (fun p => !st._sections.contains p),
      _floatingWidgets :=
        (stb._floatingWidgets.filter (fun p => !st._floatingWidgets.contains p)).filter
        (fun p => !st._sections.contains p) },
    fl.2.heap.length, hsave, ?_, rfl, rfl, ?_, hsome,
    ⟨_, encT, rfl, hT1, fun s cur rest => by
      obtain ⟨sb, _, hwk, _⟩ := hbody s cur rest
      exact ⟨_, hwk⟩⟩⟩
  · have hm : ¬ ((4919 : Nat) ≠ 4919) := by decide
    have hv : ¬ ((1 : Nat) ≠ 1) := by decide
    simp only [restoreState, List.append_assoc, hlaw.readUInt32_write, hlaw.readInt_write,
      Int.toNat_ofNat, hm, hv, if_false, hfl2, f1, hwalk, if_true, QLayout.takeAt,
      QLayout.addWidget, qDeleteAll, hlayb, hdet, List.eraseIdx_cons_zero, List.nil_append]
  · show shapeOf (st._sections.foldl deleteWidget (st._floatingWidgets.foldl deleteWidget
        (QSplitter.setSizes stb.heap fl.2.heap.length sz1))) (fuel + 1) fl.2.heap.length = _
    have hwsp := hfinal fl.2.heap.length (Nat.le_refl _)
    rw [widgetOf_of_cell h2sp] at hwsp
    have hsh : shapes (shapeOf (st._sections.foldl deleteWidget
        (st._floatingWidgets.foldl deleteWidget
          (QSplitter.setSizes stb.heap fl.2.heap.length sz1))) fuel) ps
        = shapes (shapeOf st.heap fuel) cs1 := by
      refine hch.shape _ (fun q hq1 hq2 => ?_)
      rw [hfinal q (by omega)]
      exact widgetOf_congr ((h2 q).trans (if_neg (by omega)))
    simp only [shapeOf, hwsp, hw, hsh]

theorem restoreState_saveState_roundtrip_witness :
    twoSections._mainLayout = [some 1] ∧
    isSplitter twoSections.heap 1 = true ∧
    restorable sampleRegistry twoSections.heap 2 1 = true ∧
    (∃ blob st1 root1,
      saveState fieldStream 2 twoSections = some blob ∧
      restoreState fieldStream sampleRegistry 2 twoSections blob = some (true, st1) ∧
      st1._mainLayout = [some root1] ∧ st1._splitter = some root1 ∧
      shapeOf st1.heap 2 root1 = shapeOf twoSections.heap 2 1 ∧
      (shapeOf twoSections.heap 2 1).isSome = true ∧
      ∃ pre enc, blob = pre ++ enc ∧
        saveGeometryWalk fieldStream twoSections.heap 2 pre (some 1) = some (pre ++ enc) ∧
        ∀ (s : ContainerWidget) (cur : Option Nat) (rest : List Field),
          ∃ s1, restoreGeometryWalk fieldStream sampleRegistry 2 (enc ++ rest) cur s
            = some (true, rest, s1)) :=
  ⟨rfl, by decide, by decide,
   restoreState_saveState_roundtrip fieldStream fieldStream_lawful sampleRegistry 2 twoSections 1
     rfl (by decide) (by decide)
     (by intro fw hfw; simp [twoSections] at hfw)
     (by
       intro p hp
       simp [twoSections] at hp
       rcases hp with e | e <;> subst e <;> decide)⟩

/-- C1 fails as stated. `restoreState` of a blob whose splitter node carries
the orientation value 3 succeeds and leaves a container with a top-level
splitter of orientation 3 and no content; saving this state writes the
orientation code 2 (not horizontal), and restoring the saved blob yields a
top-level splitter of orientation 2: the tree is not the saved one. And a new
container, which has no top-level splitter, is saved without tree part; on
this blob the walk succeeds without setting `_splitter`, and `restoreState`
dereferences the null `_splitter`: it does not return true, whatever the
fuel. -/
theorem restoreState_saveState_changes_orientation :
    (restoreState fieldStream sampleRegistry 2 ContainerWidget.new blobOrientation3
      = some (true, orientation3) ∧
    shapeOf orientation3.heap 2 0 = some (Tree.splitter 3 []) ∧
    ∃ blob st1,
      saveState fieldStream 2 orientation3 = some blob ∧
      restoreState fieldStream sampleRegistry 2 orientation3 blob = some (true, st1) ∧
      st1._mainLayout = [some 1] ∧ st1._splitter = some 1 ∧
      shapeOf st1.heap 2 1 = some (Tree.splitter 2 []) ∧
      shapeOf st1.heap 2 1 ≠ shapeOf orientation3.heap 2 0) ∧
    (ContainerWidget.new._mainLayout = [] ∧ ContainerWidget.new._splitter = none ∧
     ∀ fuel, ∃ blob,
      saveState fieldStream fuel ContainerWidget.new = some blob ∧
      restoreState fieldStream sampleRegistry fuel ContainerWidget.new blob = none) := by
  refine ⟨⟨rfl, rfl, _, _, rfl, rfl, rfl, rfl, rfl, ?_⟩, rfl, rfl, fun fuel => ⟨_, rfl, ?_⟩⟩
  · intro h
    have h1 : (some (Tree.splitter 2 []) : Option Tree) = some (Tree.splitter 3 []) := h
    injection h1 with h2
    injection h2 with h3
    exact absurd h3 (by decide)
  · cases fuel <;> rfl

theorem restoreGeometryWalk_section_resolves_witness :
    (fieldStream.readInt
      [Field.i32 2, Field.i32 1, Field.i32 3, Field.str "a", Field.str "zz", Field.str "c",
       Field.i32 0]).1 = 2 ∧
    ∃ st1, restoreGeometryWalk fieldStream sampleRegistry 1
        [Field.i32 2, Field.i32 1, Field.i32 3, Field.str "a", Field.str "zz", Field.str "c",
         Field.i32 0] (some 1) twoSections = some (true, [Field.i32 0], st1) ∧
      SectionWidget.contents st1.heap 3 = [contentA, contentC] :=
  ⟨rfl, by
    obtain ⟨st1, h1, h2, _⟩ := restoreGeometryWalk_section_resolves fieldStream sampleRegistry 0
      [Field.i32 2, Field.i32 1, Field.i32 3, Field.str "a", Field.str "zz", Field.str "c",
       Field.i32 0] 1 twoSections rfl
    exact ⟨st1, h1, h2⟩⟩

/-! ## takeContent -/

theorem twoFloating_reached :
    restoreState fieldStream sampleRegistry 2 twoSections blobFloatingAB
      = some (true, twoFloating) := by rfl

theorem nestedSections_reached (v : Nat) :
    runDrops v ContainerWidget.new sampleDrops = some nestedSections := by rfl

/-- C11, on a container with floating panels: the second loop of `takeContent`
calls `FloatingWidget::takeContent(data)` on every panel it scans, whether the
panel holds the content or not. With the contents a and b in floating panels,
`takeContent` of the absent content c returns false, but both panels have
handed their title and content widgets to `data`: afterwards the container
holds no content at all. -/
theorem takeContent_absent_strips_floating :
    restoreState fieldStream sampleRegistry 2 twoSections blobFloatingAB
      = some (true, twoFloating) ∧
    heldContents twoFloating = [contentA, contentB] ∧
    occurrences contentC.uid twoFloating = 0 ∧
    ∃ st1, takeContent twoFloating contentC = (false, some (dataOf contentB), st1) ∧
      st1 ≠ twoFloating ∧
      widgetOf twoFloating.heap 3
        = Widget.FloatingWidget contentA (some ⟨contentA⟩) (some ⟨contentA⟩) [7] ∧
      widgetOf st1.heap 3 = Widget.FloatingWidget contentA none none [7] ∧
      widgetOf st1.heap 4 = Widget.FloatingWidget contentB none none [8] ∧
      heldContents st1 = [] :=
  ⟨rfl, rfl, rfl, _, rfl, by decide, rfl, rfl, rfl, rfl⟩

/-- C12, with the content in the second floating panel: `takeContent` of b
returns true and hands back the payload of b, but the scan has also called
`FloatingWidget::takeContent(data)` on the panel of a, which comes first in the
list: the panel of a has lost its title and content widgets, so a is no longer
held anywhere. -/
theorem takeContent_floating_strips_earlier_panels :
    restoreState fieldStream sampleRegistry 2 twoSections blobFloatingAB
      = some (true, twoFloating) ∧
    twoFloating._floatingWidgets = [3, 4] ∧
    FloatingWidget.holds twoFloating.heap 3 = some contentA ∧
    FloatingWidget.holds twoFloating.heap 4 = some contentB ∧
    occurrences contentB.uid twoFloating = 1 ∧
    ∃ st1, takeContent twoFloating contentB = (true, some (dataOf contentB), st1) ∧
      widgetOf st1.heap 4 = Widget.FloatingWidget contentB none none [8] ∧
      widgetOf st1.heap 3 = Widget.FloatingWidget contentA none none [7] ∧
      widgetOf st1.heap 3 ≠ widgetOf twoFloating.heap 3 ∧
      FloatingWidget.holds st1.heap 3 = none ∧
      occurrences contentA.uid twoFloating = 1 ∧
      occurrences contentA.uid st1 = 0 :=
  ⟨rfl, rfl, rfl, rfl, rfl, _, rfl, rfl, rfl, by decide, rfl, rfl, rfl⟩

/-! ## addSection and splitSections on a nested section -/

/-- C15, with a section that sits in a nested splitter: `addSection` looks for
the section among the direct children of `_splitter` only
(`_splitter->indexOf(section)`), does not find the section of a, which is the
second child of the nested splitter 4, and adds it to the top-level splitter:
the section has moved from index 1 of splitter 4 to index 2 of splitter 1. -/
theorem addSection_moves_nested_section (v : Nat) :
    runDrops v ContainerWidget.new sampleDrops = some nestedSections ∧
    nestedSections._splitter = some 1 ∧
    QSplitter.children nestedSections.heap 1 = [4, 2] ∧
    QSplitter.children nestedSections.heap 4 = [3, 0] ∧
    parentOf nestedSections.heap 0 = some 4 ∧
    addSection nestedSections 0 ≠ nestedSections ∧
    QSplitter.children (addSection nestedSections 0).heap 1 = [4, 2, 0] ∧
    QSplitter.children (addSection nestedSections 0).heap 4 = [3] ∧
    parentOf (addSection nestedSections 0).heap 0 = some 1 :=
  ⟨rfl, rfl, rfl, rfl, rfl, by decide, rfl, rfl, rfl⟩

/-- C14, with a section A that sits in a nested splitter: in the container
`nestedSections` the section 0 (content a) is the child of index 1 of the
splitter 4. `splitSections(A, NULL, Qt::Horizontal)` first calls
`addSection(A)`, which moves A to the end of the top-level splitter 1, so the
new splitter 6 with the children [A, B] enters the top-level splitter at index
2; the splitter 4 is left with its other child only, and nothing stands at
A's old position. -/
theorem splitSections_nested_leaves_parent (v : Nat) :
    runDrops v ContainerWidget.new sampleDrops = some nestedSections ∧
    findParentSplitter nestedSections.heap 0 = some 4 ∧
    QSplitter.indexOf nestedSections.heap 4 0 = 1 ∧
    QSplitter.children nestedSections.heap 4 = [3, 0] ∧
    QSplitter.children nestedSections.heap 1 = [4, 2] ∧
    widgetOf (splitSections nestedSections 0 none Horizontal).heap 6
      = Widget.QSplitter Horizontal [0, 5] [] ∧
    widgetOf (splitSections nestedSections 0 none Horizontal).heap 5
      = Widget.SectionWidget [] (-1) ∧
    QSplitter.children (splitSections nestedSections 0 none Horizontal).heap 4 = [3] ∧
    QSplitter.children (splitSections nestedSections 0 none Horizontal).heap 1 = [4, 2, 6] ∧
    parentOf (splitSections nestedSections 0 none Horizontal).heap 6 = some 1 :=
  ⟨rfl, rfl, by decide, rfl, rfl, rfl, rfl, rfl, rfl, rfl⟩

/-! ## restoreState: contents named twice -/

/-- C17, at a blob that names the content a in a floating entry and in a
section: the floating entry takes a out of its section and puts it in a new
floating panel (`takeContent` first), but the section node adds a to the new
section with `addContent(sc)` without taking it from anywhere. `restoreState`
returns true, and a is held twice: by the floating panel 2 and by the
section 4. -/
theorem restoreState_places_content_twice :
    occurrences contentA.uid oneSection = 1 ∧
    heldContents oneSection = [contentA] ∧
    ∃ st1, restoreState fieldStream sampleRegistry 3 oneSection blobTwice = some (true, st1) ∧
      st1._sections = [4] ∧ st1._floatingWidgets = [2] ∧
      SectionWidget.contents st1.heap 4 = [contentA] ∧
      FloatingWidget.holds st1.heap 2 = some contentA ∧
      heldContents st1 = [contentA, contentA] ∧
      occurrences contentA.uid st1 = 2 :=
  ⟨rfl, rfl, _, rfl, rfl, rfl, rfl, rfl, rfl, rfl⟩

/-! ## The `_splitter` field -/

/-- C20, after an outer drop that wraps the top-level splitter: from a new
container, `addSectionContent(a, NULL, Center)`, `addSectionContent(b, NULL,
Right)` and `addSectionContent(c, NULL, Top)` lead to a state in which the
`_splitter` field still names the first splitter 1, while the main layout does
not hold it: with Qt 5 the layout holds the new splitter 4, in which 1 is
nested, with Qt 4 the layout is empty. -/
theorem splitter_field_stale_after_outer_wrap :
    rootSplitterInstalled ContainerWidget.new = true ∧
    (∃ st1, runDrops 0x050000 ContainerWidget.new
        [DropOp.addSectionContent contentA none DropArea.CenterDropArea,
         DropOp.addSectionContent contentB none DropArea.RightDropArea,
         DropOp.addSectionContent contentC none DropArea.TopDropArea] = some st1 ∧
      st1._splitter = some 1 ∧
      st1._mainLayout = [some 4] ∧
      widgetOf st1.heap 4 = Widget.QSplitter Vertical [3, 1] [] ∧
      parentOf st1.heap 1 = some 4 ∧
      rootSplitterInstalled st1 = false) ∧
    (∃ st1, runDrops 0x040800 ContainerWidget.new
        [DropOp.addSectionContent contentA none DropArea.CenterDropArea,
         DropOp.addSectionContent contentB none DropArea.RightDropArea,
         DropOp.addSectionContent contentC none DropArea.TopDropArea] = some st1 ∧
      st1._splitter = some 1 ∧
      st1._mainLayout = [] ∧
      widgetOf st1.heap 4 = Widget.QSplitter Vertical [3, 1] [] ∧
      parentOf st1.heap 1 = some 4 ∧
      rootSplitterInstalled st1 = false) :=
  ⟨rfl, ⟨_, rfl, rfl, rfl, rfl, rfl, rfl⟩, ⟨_, rfl, rfl, rfl, rfl, rfl, rfl⟩⟩

/-! ## dropContent: the returned section -/

/-- An outer drop returns as soon as the container has a top-level splitter. -/
theorem dropContentOuterHelper_returns (QT_VERSION : Nat) (st : ContainerWidget)
    (data : InternalContentData) (o : Int) (app : Bool) {S : Nat}
    (hS : findImmediateSplitter st = some S) :
    ∃ st1, dropContentOuterHelper QT_VERSION st data o app = some (st.heap.length, st1) := by
  have hS1 : findImmediateSplitter
      { (SectionWidget.create st).2 with
        heap := SectionWidget.addContent (SectionWidget.create st).2.heap
          (SectionWidget.create st).1 data true } = some S := by
    rw [← hS]
    exact findImmediateSplitter_congr rfl (fun p _ => isSplitter_newSection st data p)
  unfold dropContentOuterHelper
  simp only [hS1]
  split_ifs <;> exact ⟨_, rfl⟩

/-- C16: for a target section that sits in a splitter and each of the five
areas, `dropContent` returns a section whose content list holds the dropped
content: for an edge area the section created by the call (at the next free
address, holding exactly the dropped content), for Center the target. Without
target the returned pointer is null whatever the area, and for an edge area on
a container with a top-level splitter the call has nevertheless created a
section that holds exactly the dropped content. -/
theorem dropContent_return_value (QT_VERSION : Nat) (st : ContainerWidget)
    (data : InternalContentData) (a : DropArea) (autoActive : Bool)
    (ha : a ≠ DropArea.InvalidDropArea) :
    (∀ T P, isSection st.heap T = true → findParentSplitter st.heap T = some P →
      ∃ ret st1, dropContent QT_VERSION st data (some T) a autoActive = some (some ret, st1) ∧
        data ∈ SectionWidget.tabs st1.heap ret ∧
        (a.isEdge = true → ret = st.heap.length ∧ isSection st.heap ret = false ∧
          SectionWidget.tabs st1.heap ret = [data] ∧ ret ∈ st1._sections) ∧
        (a = DropArea.CenterDropArea → ret = T ∧
          SectionWidget.tabs st1.heap T = SectionWidget.tabs st.heap T ++ [data])) ∧
    (∀ r, dropContent QT_VERSION st data none a autoActive = some r → r.1 = none) ∧
    (∀ S, findImmediateSplitter st = some S → a.isEdge = true →
      ∃ st1, dropContent QT_VERSION st data none a autoActive = some (none, st1) ∧
        SectionWidget.tabs st1.heap st.heap.length = [data] ∧
        st.heap.length ∈ st1._sections) ∧
    (a = DropArea.CenterDropArea →
      dropContent QT_VERSION st data none a autoActive = some (none, st)) := by
  refine ⟨?_, ?_, ?_, ?_⟩
  · intro T P hT hP
    by_cases hedge : a.isEdge = true
    · have hex : ∃ st1, dropContent QT_VERSION st data (some T) a autoActive
          = some (some st.heap.length, st1) := by
        cases a <;> simp [DropArea.isEdge] at hedge <;> simp only [dropContent, hP] <;>
          split_ifs <;> exact ⟨_, rfl⟩
      obtain ⟨st1, h1⟩ := hex
      obtain ⟨hs, _, hl⟩ := dropContent_target_edge_leaf hedge h1
      have htabs : SectionWidget.tabs st1.heap st.heap.length = [data] := by
        rw [tabs_eq, hl]; simp [Widget.tabs]
      refine ⟨st.heap.length, st1, h1, by rw [htabs]; exact List.mem_singleton_self _, ?_, ?_⟩
      · intro _
        refine ⟨rfl, ?_, htabs, by rw [hs]; simp⟩
        simp [isSection, widgetOf]
      · intro hc; rw [hc] at hedge; simp [DropArea.isEdge] at hedge
    · have hc : a = DropArea.CenterDropArea := by
        cases a <;> simp [DropArea.isEdge] at hedge ha ⊢
      subst hc
      obtain ⟨par, ts, i, hcell⟩ := isSection_cell hT
      have htabs : SectionWidget.tabs (SectionWidget.addContent st.heap T data autoActive) T
          = SectionWidget.tabs st.heap T ++ [data] := by
        simp [SectionWidget.tabs, SectionWidget.addContent, widgetOf, getElem?_updateAt, hcell]
      refine ⟨T, _, rfl, ?_, fun h => absurd h hedge, fun _ => ⟨rfl, htabs⟩⟩
      show data ∈ SectionWidget.tabs (SectionWidget.addContent st.heap T data autoActive) T
      rw [htabs]; simp
  · intro r hr
    cases a <;> simp only [dropContent] at hr <;>
      first
      | (simp only [Option.some.injEq] at hr; rw [← hr])
      | (cases hd : dropContentOuterHelper QT_VERSION st data _ _ with
          | none => rw [hd] at hr; simp at hr
          | some x => rw [hd] at hr; simp at hr; rw [← hr])
  · intro S hS hedge
    rw [dropContent_outer QT_VERSION st data a autoActive hedge]
    obtain ⟨st1, h1⟩ := dropContentOuterHelper_returns QT_VERSION st data a.axis a.append hS
    obtain ⟨hs, _, hl⟩ := dropContentOuterHelper_leaf h1
    refine ⟨st1, by rw [h1]; rfl, ?_, by rw [hs]; simp⟩
    rw [tabs_eq, hl]; simp [Widget.tabs]
  · intro hc; subst hc; rfl

theorem dropContent_return_value_witness :
    DropArea.TopDropArea ≠ DropArea.InvalidDropArea ∧
    isSection twoSections.heap 0 = true ∧
    findParentSplitter twoSections.heap 0 = some 1 ∧
    findImmediateSplitter twoSections = some 1 ∧
    (∃ ret st1, dropContent 0x050000 twoSections (dataOf contentC) (some 0)
        DropArea.TopDropArea false = some (some ret, st1) ∧
      dataOf contentC ∈ SectionWidget.tabs st1.heap ret ∧ ret = 3) ∧
    (∃ st1, dropContent 0x050000 twoSections (dataOf contentC) none
        DropArea.TopDropArea false = some (none, st1) ∧
      SectionWidget.tabs st1.heap 3 = [dataOf contentC]) :=
  ⟨by decide, by decide, by decide, by decide, by
    obtain ⟨h1, _, _, _⟩ := dropContent_return_value 0x050000 twoSections (dataOf contentC)
      DropArea.TopDropArea false (by decide)
    obtain ⟨ret, st1, h2, h3, h4, _⟩ := h1 0 1 (by decide) (by decide)
    exact ⟨ret, st1, h2, h3, (h4 rfl).1⟩, by
    obtain ⟨_, _, h1, _⟩ := dropContent_return_value 0x050000 twoSections (dataOf contentC)
      DropArea.TopDropArea false (by decide)
    obtain ⟨st1, h2, h3, _⟩ := h1 1 (by decide) rfl
    exact ⟨st1, h2, h3⟩⟩

/-! ## addSectionContent on a container without sections -/

theorem fieldStream_consuming : fieldStream.Consuming where
  readInt_le := by
    intro inp
    rcases inp with _ | ⟨f, r⟩
    · simp [fieldStream]
    · cases f <;> simp [fieldStream]
  readInt_lt := by
    intro inp h
    rcases inp with _ | ⟨f, r⟩
    · simp [fieldStream] at h
    · cases f <;> simp [fieldStream]
  readString_le := by
    intro inp
    rcases inp with _ | ⟨f, r⟩
    · simp [fieldStream]
    · cases f <;> simp [fieldStream]
  readIntList_le := by
    intro inp
    rcases inp with _ | ⟨f, r⟩
    · simp [fieldStream]
    · cases f <;> simp [fieldStream]

theorem length_readStrings {α : Type} {ds : QDataStream α} (hc : ds.Consuming) :
    ∀ (n : Nat) (inp : List α), (readStrings ds n inp).2.length ≤ inp.length := by
  intro n
  induction n with
  | zero => intro inp; exact Nat.le_refl _
  | succ n ih =>
      intro inp
      simp only [readStrings]
      exact Nat.le_trans (ih _) (hc.readString_le inp)

/-- A loop over a walk that returns true on every stream shorter than `fuel`
returns true on every such stream. -/
theorem restoreLoop_returns {α : Type} {fuel : Nat}
    {walk : List α → ContainerWidget → Option (Bool × List α × ContainerWidget)}
    (hwalk : ∀ inp st, inp.length < fuel →
      ∃ inp1 st1, walk inp st = some (true, inp1, st1) ∧ inp1.length ≤ inp.length) :
    ∀ (n : Nat) (inp : List α) (st : ContainerWidget), inp.length < fuel →
      ∃ inp1 st1, restoreLoop walk n inp st = some (true, inp1, st1) ∧
        inp1.length ≤ inp.length := by
  intro n
  induction n with
  | zero => intro inp st _; exact ⟨inp, st, rfl, Nat.le_refl _⟩
  | succ n ih =>
      intro inp st hlt
      obtain ⟨inp1, st1, h1, h2⟩ := hwalk inp st hlt
      obtain ⟨inp2, st2, h3, h4⟩ := ih inp1 st1 (by omega)
      exact ⟨inp2, st2, by simp only [restoreLoop, h1, h3], by omega⟩

/-- A nested walk returns true, with fuel above the length of the stream. -/
theorem restoreGeometryWalk_nested {α : Type} {ds : QDataStream α} (hc : ds.Consuming)
    (reg : Registry) :
    ∀ (fuel : Nat) (inp : List α) (cur : Nat) (st : ContainerWidget), inp.length < fuel →
      ∃ inp1 st1, restoreGeometryWalk ds reg fuel inp (some cur) st = some (true, inp1, st1) ∧
        inp1.length ≤ inp.length := by
  intro fuel
  induction fuel with
  | zero => intro inp cur st h; omega
  | succ fuel ih =>
      intro inp cur st hlt
      unfold restoreGeometryWalk
      by_cases h1 : (ds.readInt inp).1 = 1
      · have hlt1 : (ds.readInt inp).2.length < inp.length :=
          hc.readInt_lt inp (by rw [h1]; decide)
        have hlo := hc.readInt_le (ds.readInt inp).2
        have hlc := hc.readInt_le (ds.readInt (ds.readInt inp).2).2
        have hls := hc.readIntList_le (ds.readInt (ds.readInt (ds.readInt inp).2).2).2
        obtain ⟨inp1, st1, h3, h4⟩ := restoreLoop_returns
          (fun i s hi => ih i (newSplitter st.heap (ds.readInt (ds.readInt inp).2).1).1 s hi)
          (ds.readInt (ds.readInt (ds.readInt inp).2).2).1.toNat
          (ds.readIntList (ds.readInt (ds.readInt (ds.readInt inp).2).2).2).2
          { st with heap := (newSplitter st.heap (ds.readInt (ds.readInt inp).2).1).2 }
          (by omega)
        simp only [h1, if_true, h3]
        exact ⟨inp1, _, rfl, by omega⟩
      · by_cases h2 : (ds.readInt inp).1 = 2
        · simp only [h1, h2, if_false, if_true]
          refine ⟨_, _, rfl, ?_⟩
          have hs : isSection (SectionWidget.create st).2.heap (SectionWidget.create st).1
              = true := by
            simp [isSection, widgetOf, SectionWidget.create, alloc]
          rw [(restoreNames_spec ds reg (SectionWidget.create st).1 _ _ _ hs).1]
          have := length_readStrings hc (ds.readInt (ds.readInt (ds.readInt inp).2).2).1.toNat
            (ds.readInt (ds.readInt (ds.readInt inp).2).2).2
          have hl0 := hc.readInt_le inp
          have hl1 := hc.readInt_le (ds.readInt inp).2
          have hl2 := hc.readInt_le (ds.readInt (ds.readInt inp).2).2
          omega
        · simp only [h1, h2, if_false]
          exact ⟨_, _, rfl, hc.readInt_le inp⟩

theorem widgetOf_deleteWidget_self (h : Heap) (p : Nat) :
    widgetOf (deleteWidget h p) p = Widget.deleted := by
  unfold deleteWidget
  rw [widgetOf_updateAt, if_pos rfl]
  cases (QSplitter.detach h p)[p]? <;> rfl

theorem widgetOf_deleteWidget_deleted {h : Heap} {w q : Nat}
    (hq : widgetOf h q = Widget.deleted) : widgetOf (deleteWidget h w) q = Widget.deleted := by
  by_cases e : q = w
  · subst e
    exact widgetOf_deleteWidget_self h q
  · rw [widgetOf_deleteWidget e (by simp [QSplitter.children, hq])]
    exact hq

theorem widgetOf_foldl_deleteWidget_deleted :
    ∀ (ws : List Nat) (h : Heap) (q : Nat), widgetOf h q = Widget.deleted →
      widgetOf (ws.foldl deleteWidget h) q = Widget.deleted := by
  intro ws
  induction ws with
  | nil => intro h q hq; exact hq
  | cons w ws ih =>
      intro h q hq
      exact ih (deleteWidget h w) q (widgetOf_deleteWidget_deleted hq)

/-- Every widget of the list is deleted by `qDeleteAll`. -/
theorem widgetOf_foldl_deleteWidget_mem :
    ∀ (ws : List Nat) (h : Heap) (p : Nat), p ∈ ws →
      widgetOf (ws.foldl deleteWidget h) p = Widget.deleted := by
  intro ws
  induction ws with
  | nil => intro h p hp; simp at hp
  | cons w ws ih =>
      intro h p hp
      rcases List.mem_cons.mp hp with e | hmem
      · subst e
        exact widgetOf_foldl_deleteWidget_deleted ws _ p (widgetOf_deleteWidget_self h p)
      · exact ih (deleteWidget h w) p hmem

theorem not_mem_filter_contains {ws : List Nat} {p : Nat} (hp : p ∈ ws) (l : List Nat) :
    p ∉ l.filter (fun q => !ws.contains q) := by
  intro h
  have := (List.mem_filter.mp h).2
  simp [hp] at this

/-- With fuel above the length of the stream and reads that use up the
stream, `restoreGeometryWalk` returns. Called without enclosing splitter it
returns false exactly when the first node kind read is 2; called with an
enclosing splitter it returns true. A node whose kind is neither 1 nor 2 (the
null marker 0 and the value read from the exhausted stream included) takes the
kind field only, changes nothing and is reported as success. When the tree
part of a blob with a valid header starts with such a kind, `restoreState` on
a container whose `_splitter` is set returns true, and the old sections and
floating panels are deleted and no longer listed; on a container whose
`_splitter` is null it does not return. -/
theorem restoreGeometryWalk_failure_condition {α : Type} (ds : QDataStream α) (hc : ds.Consuming)
    (reg : Registry) (fuel : Nat) (inp : List α) (st : ContainerWidget)
    (hfuel : inp.length < fuel) :
    (∃ b inp1 st1, restoreGeometryWalk ds reg fuel inp none st = some (b, inp1, st1) ∧
      (b = false ↔ (ds.readInt inp).1 = 2)) ∧
    (∀ cur, ∃ inp1 st1,
      restoreGeometryWalk ds reg fuel inp (some cur) st = some (true, inp1, st1)) ∧
    ((ds.readInt inp).1 ≠ 1 → (ds.readInt inp).1 ≠ 2 →
      ∀ cur, restoreGeometryWalk ds reg fuel inp cur st = some (true, (ds.readInt inp).2, st)) ∧
    (∀ data : List α, (ds.readUInt32 data).1 = 0x00001337 →
      (ds.readUInt32 (ds.readUInt32 data).2).1 = 1 →
      (ds.readInt (skipFloatings ds (ds.readInt (ds.readUInt32 (ds.readUInt32 data).2).2).1.toNat
        (ds.readInt (ds.readUInt32 (ds.readUInt32 data).2).2).2)).1 ≠ 1 →
      (ds.readInt (skipFloatings ds (ds.readInt (ds.readUInt32 (ds.readUInt32 data).2).2).1.toNat
        (ds.readInt (ds.readUInt32 (ds.readUInt32 data).2).2).2)).1 ≠ 2 →
      (∀ sp, st._splitter = some sp →
        ∃ st1, restoreState ds reg fuel st data = some (true, st1) ∧
          ∀ p, p ∈ st._sections ∨ p ∈ st._floatingWidgets →
            widgetOf st1.heap p = Widget.deleted ∧ p ∉ st1._sections ∧
              p ∉ st1._floatingWidgets) ∧
      (st._splitter = none → restoreState ds reg fuel st data = none)) := by
  obtain ⟨f, rfl⟩ : ∃ f, fuel = f + 1 := ⟨fuel - 1, by omega⟩
  have hother : ∀ (i : List α) (s : ContainerWidget) (cur : Option Nat),
      (ds.readInt i).1 ≠ 1 → (ds.readInt i).1 ≠ 2 →
      restoreGeometryWalk ds reg (f + 1) i cur s = some (true, (ds.readInt i).2, s) := by
    intro i s cur h1 h2
    unfold restoreGeometryWalk
    simp only [h1, h2, if_false]
  refine ⟨?_, ?_, fun h1 h2 cur => hother inp st cur h1 h2, ?_⟩
  · by_cases h1 : (ds.readInt inp).1 = 1
    · have hlt1 : (ds.readInt inp).2.length < inp.length :=
        hc.readInt_lt inp (by rw [h1]; decide)
      have hlo := hc.readInt_le (ds.readInt inp).2
      have hlc := hc.readInt_le (ds.readInt (ds.readInt inp).2).2
      have hls := hc.readIntList_le (ds.readInt (ds.readInt (ds.readInt inp).2).2).2
      obtain ⟨inp1, st1, h3, _⟩ := restoreLoop_returns
        (fun i s hi => restoreGeometryWalk_nested hc reg f i
          (newSplitter st.heap (ds.readInt (ds.readInt inp).2).1).1 s hi)
        (ds.readInt (ds.readInt (ds.readInt inp).2).2).1.toNat
        (ds.readIntList (ds.readInt (ds.readInt (ds.readInt inp).2).2).2).2
        { st with heap := (newSplitter st.heap (ds.readInt (ds.readInt inp).2).1).2 }
        (by omega)
      have hex : ∃ st2, restoreGeometryWalk ds reg (f + 1) inp none st
          = some (true, inp1, st2) := by
        unfold restoreGeometryWalk
        simp only [h1, if_true, h3]
        exact ⟨_, rfl⟩
      obtain ⟨st2, h4⟩ := hex
      exact ⟨true, inp1, st2, h4, by simp [h1]⟩
    · by_cases h2 : (ds.readInt inp).1 = 2
      · refine ⟨false, (ds.readInt inp).2, st, ?_, by simp [h2]⟩
        unfold restoreGeometryWalk
        simp only [if_neg h1, if_pos h2]
      · exact ⟨true, _, st, hother inp st none h1 h2, by simp [h2]⟩
  · intro cur
    obtain ⟨inp1, st1, h, _⟩ := restoreGeometryWalk_nested hc reg (f + 1) inp cur st hfuel
    exact ⟨inp1, st1, h⟩
  · intro data hm hv h1 h2
    have hskip := (restoreFloatings_spec ds reg
      (ds.readInt (ds.readUInt32 (ds.readUInt32 data).2).2).1.toNat
      (ds.readInt (ds.readUInt32 (ds.readUInt32 data).2).2).2 st).1
    have hsplit := (restoreFloatings_spec ds reg
      (ds.readInt (ds.readUInt32 (ds.readUInt32 data).2).2).1.toNat
      (ds.readInt (ds.readUInt32 (ds.readUInt32 data).2).2).2 st).2.2.1
    constructor
    swap
    · intro hnone
      rw [hnone] at hsplit
      unfold restoreState
      simp only [hm, hv, ne_eq, not_true_eq_false, if_false, hskip]
      rw [hother _ _ none h1 h2]
      simp only [if_true, QLayout.takeAt, hsplit]
    intro sp hsp
    rw [hsp] at hsplit
    unfold restoreState
    simp only [hm, hv, ne_eq, not_true_eq_false, if_false, hskip]
    rw [hother _ _ none h1 h2]
    simp only [if_true, QLayout.takeAt, hsplit]
    refine ⟨_, rfl, ?_⟩
    intro p hp
    refine ⟨?_, ?_, ?_⟩
    · show widgetOf (st._sections.foldl deleteWidget (st._floatingWidgets.foldl deleteWidget _)) p
        = Widget.deleted
      rcases hp with hp | hp
      · exact widgetOf_foldl_deleteWidget_mem _ _ p hp
      · exact widgetOf_foldl_deleteWidget_deleted _ _ p
          (widgetOf_foldl_deleteWidget_mem _ _ p hp)
    · show p ∉ (qDeleteAll (qDeleteAll _ st._floatingWidgets) st._sections)._sections
      rcases hp with hp | hp
      · exact not_mem_filter_contains hp _
      · exact fun hmem => not_mem_filter_contains hp _ (List.mem_of_mem_filter hmem)
    · show p ∉ (qDeleteAll (qDeleteAll _ st._floatingWidgets) st._sections)._floatingWidgets
      rcases hp with hp | hp
      · exact not_mem_filter_contains hp _
      · exact fun hmem => not_mem_filter_contains hp _ (List.mem_of_mem_filter hmem)

theorem restoreGeometryWalk_failure_condition_example :
    fieldStream.Consuming ∧ ([Field.i32 2] : List Field).length < 2 ∧
    (∃ b inp1 st1,
      restoreGeometryWalk fieldStream sampleRegistry 2 [Field.i32 2] none oneSection
        = some (b, inp1, st1) ∧
      (b = false ↔ (fieldStream.readInt [Field.i32 2]).1 = 2)) ∧
    (∃ st1, restoreState fieldStream sampleRegistry 2 oneSection
        [Field.u32 0x1337, Field.u32 1, Field.i32 0] = some (true, st1) ∧
      ∀ p, p ∈ oneSection._sections ∨ p ∈ oneSection._floatingWidgets →
        widgetOf st1.heap p = Widget.deleted ∧ p ∉ st1._sections ∧
          p ∉ st1._floatingWidgets) :=
  ⟨fieldStream_consuming, by decide,
   (restoreGeometryWalk_failure_condition fieldStream fieldStream_consuming sampleRegistry 2
      [Field.i32 2] oneSection (by decide)).1,
   ((restoreGeometryWalk_failure_condition fieldStream fieldStream_consuming sampleRegistry 2
      [Field.i32 2] oneSection (by decide)).2.2.2
      [Field.u32 0x1337, Field.u32 1, Field.i32 0] rfl rfl (by decide) (by decide)).1 1 rfl⟩

/-- C19, on a container without top-level splitter: a new container is saved
as the header and the floating count 0, without tree part. On this blob the
walk reads the kind 0 from the exhausted stream, takes nothing else, changes
nothing and reports success, as the claim says; but `restoreState` then passes
the null `_splitter` to `_mainLayout->addWidget` and dereferences it, so it
does not return true, whatever the fuel. On the container with the section of
a, whose `_splitter` is set, the same blob is restored with success and the
old section is deleted. -/
theorem restoreState_unknown_kind_null_splitter :
    ContainerWidget.new._splitter = none ∧
    saveState fieldStream 1 ContainerWidget.new
      = some [Field.u32 0x1337, Field.u32 1, Field.i32 0] ∧
    (fieldStream.readInt []).1 = 0 ∧
    restoreGeometryWalk fieldStream sampleRegistry 1 [] none ContainerWidget.new
      = some (true, [], ContainerWidget.new) ∧
    (∀ fuel, restoreState fieldStream sampleRegistry fuel ContainerWidget.new
      [Field.u32 0x1337, Field.u32 1, Field.i32 0] = none) ∧
    (∃ st1, restoreState fieldStream sampleRegistry 1 oneSection
        [Field.u32 0x1337, Field.u32 1, Field.i32 0] = some (true, st1) ∧
      st1._splitter = some 1 ∧ st1._mainLayout = [some 1] ∧ st1._sections = [] ∧
      widgetOf st1.heap 0 = Widget.deleted) :=
  ⟨rfl, rfl, rfl, rfl, fun fuel => by cases fuel <;> rfl, _, rfl, rfl, rfl, rfl, rfl⟩

/-! ## restoreState: the floating entries -/

theorem skipFloatings_add {α : Type} (ds : QDataStream α) :
    ∀ (m n : Nat) (inp : List α),
      skipFloatings ds (m + n) inp = skipFloatings ds n (skipFloatings ds m inp) := by
  intro m
  induction m with
  | zero => intro n inp; simp [skipFloatings]
  | succ m ih =>
      intro n inp
      rw [Nat.add_right_comm]
      simp only [skipFloatings]
      exact ih n _

theorem takeTab_none {uid : Int} :
    ∀ {ts : List InternalContentData}, (∀ t ∈ ts, t.content.uid ≠ uid) →
      SectionWidget.takeTab uid ts = none := by
  intro ts
  induction ts with
  | nil => intro _; rfl
  | cons t ts ih =>
      intro h
      have h1 := h t (List.mem_cons_self _ _)
      have h2 := ih (fun x hx => h x (List.mem_cons_of_mem _ hx))
      simp [SectionWidget.takeTab, h1, h2]

/-- The tab `takeTab` hands back is the first one with the uid, and the rest
is the list without it. -/
theorem takeTab_some {uid : Int} :
    ∀ {ts : List InternalContentData} {d : InternalContentData} {rest : List InternalContentData},
      SectionWidget.takeTab uid ts = some (d, rest) →
      ∃ l1 l2, ts = l1 ++ d :: l2 ∧ rest = l1 ++ l2 ∧ d.content.uid = uid ∧
        ∀ t ∈ l1, t.content.uid ≠ uid := by
  intro ts
  induction ts with
  | nil => intro d rest h; simp [SectionWidget.takeTab] at h
  | cons t ts ih =>
      intro d rest h
      by_cases ht : t.content.uid = uid
      · simp only [SectionWidget.takeTab, ht, if_true, Option.some.injEq, Prod.mk.injEq] at h
        obtain ⟨rfl, rfl⟩ := h
        exact ⟨[], ts, rfl, rfl, ht, by simp⟩
      · simp only [SectionWidget.takeTab, ht, if_false] at h
        cases hr : SectionWidget.takeTab uid ts with
        | none => simp [hr] at h
        | some r =>
            rcases r with ⟨d1, rest1⟩
            simp only [hr, Option.some.injEq, Prod.mk.injEq] at h
            obtain ⟨rfl, rfl⟩ := h
            obtain ⟨l1, l2, e1, e2, e3, e4⟩ := ih hr
            refine ⟨t :: l1, l2, by simp [e1], by simp [e2], e3, ?_⟩
            intro x hx
            rcases List.mem_cons.mp hx with e | hm
            · subst e; exact ht
            · exact e4 x hm

/-- The section loop of `takeContent` on sections that do not hold the content. -/
theorem takeContentSections_absent (uid : Int) :
    ∀ (ss : List Nat) (h : Heap),
      (∀ s ∈ ss, ∀ t ∈ SectionWidget.tabs h s, t.content.uid ≠ uid) →
      takeContentSections uid ss h = (false, none, h) := by
  intro ss
  induction ss with
  | nil => intro h _; rfl
  | cons s ss ih =>
      intro h habs
      have h1 := takeTab_none (habs s (List.mem_cons_self _ _))
      simp only [takeContentSections, SectionWidget.takeContent, h1]
      exact ih h (fun x hx => habs x (List.mem_cons_of_mem _ hx))

/-- Without floating panels, `takeContent` of a content that no section holds
returns false and changes nothing. -/
theorem takeContent_absent_no_floating {st : ContainerWidget} {sc : SectionContent}
    (hf : st._floatingWidgets = [])
    (habs : ∀ s ∈ st._sections, ∀ t ∈ SectionWidget.tabs st.heap s, t.content.uid ≠ sc.uid) :
    takeContent st sc = (false, none, st) := by
  unfold takeContent
  rw [takeContentSections_absent sc.uid st._sections st.heap habs]
  rcases st with ⟨h, l, o, sp, ss, fws⟩
  simp only at hf
  subst hf
  rfl

/-- A present section that is a direct child of the top-level splitter is left
where it is by `addSection`. -/
theorem addSection_direct_child {st : ContainerWidget} {sp sw : Nat}
    (hsp : st._splitter = some sp) (hmem : sw ∈ QSplitter.children st.heap sp) :
    addSection st sw = st := by
  have hidx : QSplitter.indexOf st.heap sp sw ≠ -1 := by
    simp only [QSplitter.indexOf, hmem, if_true]
    omega
  simp only [addSection, hsp, hidx, ne_eq, not_false_eq_true, if_true]

theorem takeContentSections_found (uid : Int) {s : Nat} {d : InternalContentData}
    {rest : List InternalContentData} (post : List Nat) :
    ∀ (pre : List Nat) (h : Heap),
      (∀ x ∈ pre, ∀ t ∈ SectionWidget.tabs h x, t.content.uid ≠ uid) →
      SectionWidget.takeTab uid (SectionWidget.tabs h s) = some (d, rest) →
      takeContentSections uid (pre ++ s :: post) h = (true, some d, (SectionWidget.takeContent h s uid).2.2) := by
  intro pre
  induction pre with
  | nil =>
      intro h _ htab
      simp only [List.nil_append, takeContentSections, SectionWidget.takeContent, htab]
  | cons x pre ih =>
      intro h habs htab
      have h1 := takeTab_none (habs x (List.mem_cons_self _ _))
      simp only [List.cons_append, takeContentSections, SectionWidget.takeContent, h1]
      have := ih h (fun y hy => habs y (List.mem_cons_of_mem _ hy)) htab
      simpa [SectionWidget.takeContent, htab] using this

/-- The content sits in a section: `takeContent` returns true, hands back the
tab of the content, the section keeps its other tabs in their order and no
other widget changes. -/
theorem takeContent_from_section {st : ContainerWidget} {sc : SectionContent}
    {pre post : List Nat} {s : Nat} {d : InternalContentData} {rest : List InternalContentData}
    (hsec : st._sections = pre ++ s :: post)
    (hpre : ∀ x ∈ pre, ∀ t ∈ SectionWidget.tabs st.heap x, t.content.uid ≠ sc.uid)
    (htab : SectionWidget.takeTab sc.uid (SectionWidget.tabs st.heap s) = some (d, rest)) :
    ∃ h1, takeContent st sc = (true, some d, { st with heap := h1 }) ∧
      d.content.uid = sc.uid ∧
      SectionWidget.tabs h1 s = rest ∧ ∀ q, q ≠ s → h1[q]? = st.heap[q]? := by
  refine ⟨(SectionWidget.takeContent st.heap s sc.uid).2.2, ?_, ?_, ?_, ?_⟩
  · unfold takeContent
    rw [hsec, takeContentSections_found sc.uid post pre st.heap hpre htab]
  · obtain ⟨_, _, _, _, e, _⟩ := takeTab_some htab
    exact e
  · simp only [SectionWidget.takeContent, htab]
    unfold SectionWidget.tabs widgetOf at htab ⊢
    rw [getElem?_updateAt, if_pos rfl]
    cases hc : st.heap[s]? with
    | none => simp [hc, SectionWidget.takeTab] at htab
    | some c =>
        rcases c with ⟨par, w⟩
        cases w with
        | SectionWidget ts i => simp
        | QSplitter o cs sz => simp [hc, SectionWidget.takeTab] at htab
        | FloatingWidget a b c g => simp [hc, SectionWidget.takeTab] at htab
        | deleted => simp [hc, SectionWidget.takeTab] at htab
  · intro q hq
    simp only [SectionWidget.takeContent, htab]
    rw [getElem?_updateAt, if_neg hq]

/-- The content sits in the first floating panel and in no section:
`takeContent` returns true, hands back the payload of the panel and changes no
other widget. -/
theorem takeContent_from_first_floating {st : ContainerWidget} {sc c : SectionContent}
    {fw : Nat} {fws : List Nat} {tw : Option SectionTitleWidget}
    {cw : Option SectionContentWidget} {g : QByteArray}
    (hfl : st._floatingWidgets = fw :: fws)
    (hfw : widgetOf st.heap fw = Widget.FloatingWidget c tw cw g) (huid : c.uid = sc.uid)
    (habs : ∀ s ∈ st._sections, ∀ t ∈ SectionWidget.tabs st.heap s, t.content.uid ≠ sc.uid) :
    ∃ h1, takeContent st sc = (true, some ⟨c, tw, cw⟩, { st with heap := h1 }) ∧
      widgetOf h1 fw = Widget.FloatingWidget c none none g ∧
      ∀ q, q ≠ fw → h1[q]? = st.heap[q]? := by
  refine ⟨(FloatingWidget.takeContent st.heap fw).2, ?_, ?_, ?_⟩
  · unfold takeContent
    rw [takeContentSections_absent sc.uid st._sections st.heap habs]
    simp only [hfl, takeContentFloatings, FloatingWidget.content, hfw, huid, decide_True, if_true]
    simp [FloatingWidget.takeContent, hfw]
  · simp only [FloatingWidget.takeContent, hfw]
    rw [widgetOf_updateAt, if_pos rfl]
    unfold widgetOf at hfw
    cases hc : st.heap[fw]? with
    | none => simp [hc] at hfw
    | some cell =>
        simp only [hc] at hfw
        simp [hfw]
  · intro q hq
    simp only [FloatingWidget.takeContent, hfw]
    rw [getElem?_updateAt, if_neg hq]

/-! ## splitSections at the top-level splitter -/

/-- The calls `splitter->addWidget(s1)`, `splitter->addWidget(s2)` and
`currentSplitter->insertWidget(index, splitter)` of `splitSections`, for two
children `A` and `B` of the splitter `R` and the new splitter `N`. -/
theorem split_two_children {h : Heap} {N R A B : Nat} {wa wb : Widget} {par : Option Nat}
    {o ax : Int} {pre post : List Nat} {sz : List Int}
    (hN : h[N]? = some ⟨none, Widget.QSplitter ax [] []⟩)
    (hR : h[R]? = some ⟨par, Widget.QSplitter o (pre ++ A :: post ++ [B]) sz⟩)
    (hA : h[A]? = some ⟨some R, wa⟩) (hB : h[B]? = some ⟨some R, wb⟩)
    (hNR : N ≠ R) (hNA : N ≠ A) (hNB : N ≠ B) (hAR : A ≠ R) (hBR : B ≠ R) (hAB : A ≠ B)
    (hpre : A ∉ pre) (hB1 : B ∉ pre) (hB2 : B ∉ post) (q : Nat) :
    (QSplitter.insertWidget (QSplitter.addWidget (QSplitter.addWidget h N A) N B)
        R (pre.length : Int) N)[q]? =
      if q = N then some ⟨some R, Widget.QSplitter ax [A, B] []⟩
      else if q = A then some ⟨some N, wa⟩
      else if q = B then some ⟨some N, wb⟩
      else if q = R then some ⟨par, Widget.QSplitter o (pre ++ N :: post) sz⟩
      else h[q]? := by
  have e1 : (pre ++ A :: post ++ [B]).erase A = pre ++ post ++ [B] := by
    rw [List.append_assoc, List.cons_append, erase_append_cons _ hpre, List.append_assoc]
  have e2 : (pre ++ post ++ [B]).erase B = pre ++ post := by
    have hnot : B ∉ pre ++ post := by simp [hB1, hB2]
    have := @erase_append_cons (pre ++ post) B [] hnot
    simpa using this
  have a1 : ∀ q, (QSplitter.addWidget h N A)[q]? =
      if q = A then some ⟨some N, wa⟩
      else if q = N then some ⟨none, Widget.QSplitter ax ([] ++ [A]) []⟩
      else if q = R then some ⟨par, Widget.QSplitter o ((pre ++ A :: post ++ [B]).erase A) sz⟩
      else h[q]? := fun q =>
    QSplitter.getElem?_addWidget_moved hA hR hN hNR.symm hNA.symm hAR q
  have a2 : ∀ q, (QSplitter.addWidget (QSplitter.addWidget h N A) N B)[q]? =
      if q = B then some ⟨some N, wb⟩
      else if q = N then some ⟨none, Widget.QSplitter ax (([] ++ [A]) ++ [B]) []⟩
      else if q = R then some ⟨par, Widget.QSplitter o ((pre ++ post ++ [B]).erase B) sz⟩
      else (QSplitter.addWidget h N A)[q]? := fun q =>
    QSplitter.getElem?_addWidget_moved
      (by rw [a1]; simp [hAB.symm, hNB.symm, hBR, hB])
      (by rw [a1, e1]; simp [hAR.symm, hNR.symm])
      (by rw [a1]; simp [hNA]) hNR.symm hNB.symm hBR q
  have a3 : ∀ q, (QSplitter.insertWidget (QSplitter.addWidget (QSplitter.addWidget h N A) N B)
        R (pre.length : Int) N)[q]? =
      if q = N then some ⟨some R, Widget.QSplitter ax (([] ++ [A]) ++ [B]) []⟩
      else if q = R then
        some ⟨par, Widget.QSplitter o (insertAt (pre ++ post)
          (QSplitter.clampIndex (pre.length : Int) (pre ++ post).length) N) sz⟩
      else (QSplitter.addWidget (QSplitter.addWidget h N A) N B)[q]? := fun q =>
    QSplitter.getElem?_insertWidget_detached (pre.length : Int)
      (by rw [a2]; simp [hNB])
      (by rw [a2, e2]; simp [hBR.symm, hNR.symm]) hNR q
  rw [a3, a2, a1, QSplitter.clampIndex_of_le (by simp), insertAt_append]
  by_cases c1 : q = N
  · simp [c1]
  · by_cases c2 : q = A
    · simp [c2, hNA.symm, hAB, hAR]
    · by_cases c3 : q = B
      · simp [c3, hNB.symm, hAB.symm, hBR]
      · by_cases c4 : q = R
        · simp [c4, hNR.symm, hAR.symm, hBR.symm]
        · simp [c1, c2, c3, c4]

/-- For a section `A` that is a direct child of the top-level splitter `R`,
`splitSections(A, NULL, O)` creates an empty section `B` and a splitter of
orientation `O` with the children [A, B], which takes the position of `A` in
`R`; the other children of `R` keep their order and no other widget changes. -/
theorem splitSections_at_root {st : ContainerWidget} {R A : Nat} {par : Option Nat}
    {o : Int} {pre post : List Nat} {sz : List Int} {ts : List InternalContentData} {i : Int}
    (O : Int) (hsp : st._splitter = some R)
    (hR : st.heap[R]? = some ⟨par, Widget.QSplitter o (pre ++ A :: post) sz⟩)
    (hA : st.heap[A]? = some ⟨some R, Widget.SectionWidget ts i⟩)
    (hpre : A ∉ pre) (hkids : ∀ c ∈ pre ++ post, c < st.heap.length) :
    (splitSections st A none O)._sections = st._sections ++ [st.heap.length] ∧
    (splitSections st A none O)._splitter = some R ∧
    (splitSections st A none O)._mainLayout = st._mainLayout ∧
    ∀ q, (splitSections st A none O).heap[q]? =
      if q = st.heap.length + 1 then
        some ⟨some R, Widget.QSplitter O [A, st.heap.length] []⟩
      else if q = A then some ⟨some (st.heap.length + 1), Widget.SectionWidget ts i⟩
      else if q = st.heap.length then
        some ⟨some (st.heap.length + 1), Widget.SectionWidget [] (-1)⟩
      else if q = R then some ⟨par, Widget.QSplitter o (pre ++ (st.heap.length + 1) :: post) sz⟩
      else st.heap[q]? := by
  have hAlt := lt_of_getElem?_some hA
  have hRlt := lt_of_getElem?_some hR
  have hAR : A ≠ R := by
    intro e
    rw [e, hR] at hA
    simp at hA
  have hB1 : st.heap.length ∉ pre := fun hm =>
    Nat.lt_irrefl _ (hkids _ (List.mem_append_left _ hm))
  have hB2 : st.heap.length ∉ post := fun hm =>
    Nat.lt_irrefl _ (hkids _ (List.mem_append_right _ hm))
  -- addSection(s1) finds s1 among the children of the top-level splitter
  have h1 : addSection st A = st :=
    addSection_direct_child hsp (by rw [QSplitter.children_of_cell hR]; simp)
  -- the new section s2 and addSection(s2)
  have hn : (SectionWidget.create st).2.heap[st.heap.length]?
      = some ⟨none, Widget.SectionWidget [] (-1)⟩ := by
    simp [SectionWidget.create, alloc]
  have hR1 : (SectionWidget.create st).2.heap[R]?
      = some ⟨par, Widget.QSplitter o (pre ++ A :: post) sz⟩ := by
    simp only [SectionWidget.create, getElem?_alloc, if_neg (Nat.ne_of_lt hRlt), hR]
  have hidx : QSplitter.indexOf (SectionWidget.create st).2.heap R st.heap.length = -1 := by
    have hnm : st.heap.length ∉ pre ++ A :: post := by
      simp [hB1, hB2, Nat.ne_of_gt hAlt]
    simp [QSplitter.indexOf, QSplitter.children_of_cell hR1, hnm]
  have h2 : addSection (SectionWidget.create st).2 st.heap.length
      = { (SectionWidget.create st).2 with
          heap := QSplitter.addWidget (SectionWidget.create st).2.heap R st.heap.length } := by
    have hs1 : (SectionWidget.create st).2._splitter = some R := hsp
    simp only [addSection, hs1, hidx, ne_eq, not_true_eq_false, if_false]
  have hH3 : ∀ q, (QSplitter.addWidget (SectionWidget.create st).2.heap R st.heap.length)[q]? =
      if q = st.heap.length then some ⟨some R, Widget.SectionWidget [] (-1)⟩
      else if q = R then some ⟨par, Widget.QSplitter o (pre ++ A :: post ++ [st.heap.length]) sz⟩
      else st.heap[q]? := by
    intro q
    rw [QSplitter.getElem?_addWidget_detached hn hR1 (Nat.ne_of_gt hRlt) q]
    by_cases c1 : q = st.heap.length
    · simp [c1]
    · by_cases c2 : q = R
      · simp [c1, c2]
      · simp only [if_neg c1, if_neg c2, SectionWidget.create, getElem?_alloc]
  have hA3 := hH3 A
  rw [if_neg (Nat.ne_of_lt hAlt), if_neg hAR, hA] at hA3
  have hR3 := hH3 R
  rw [if_neg (Nat.ne_of_lt hRlt), if_pos rfl] at hR3
  have hn3 := hH3 st.heap.length
  rw [if_pos rfl] at hn3
  have hlen3 : (QSplitter.addWidget (SectionWidget.create st).2.heap R st.heap.length).length
      = st.heap.length + 1 := by
    simp [QSplitter.length_addWidget, SectionWidget.create, alloc]
  have hfp : findParentSplitter
      (QSplitter.addWidget (SectionWidget.create st).2.heap R st.heap.length) A = some R := by
    simp [findParentSplitter, parentOf, hA3, isSplitter_of_cell hR3]
  have hindex : QSplitter.indexOf
      (QSplitter.addWidget (SectionWidget.create st).2.heap R st.heap.length) R A
      = (pre.length : Int) := by
    have hR3b : (QSplitter.addWidget (SectionWidget.create st).2.heap R st.heap.length)[R]?
        = some ⟨par, Widget.QSplitter o (pre ++ A :: (post ++ [st.heap.length])) sz⟩ := by
      rw [hR3]; simp
    exact QSplitter.indexOf_of_cell hR3b hpre
  have hN1 : (newSplitter
      (QSplitter.addWidget (SectionWidget.create st).2.heap R st.heap.length) O).1
      = st.heap.length + 1 := by
    simp [newSplitter, alloc, hlen3]
  have hH4 : ∀ q, (newSplitter
      (QSplitter.addWidget (SectionWidget.create st).2.heap R st.heap.length) O).2[q]? =
      if q = st.heap.length + 1 then some ⟨none, Widget.QSplitter O [] []⟩
      else (QSplitter.addWidget (SectionWidget.create st).2.heap R st.heap.length)[q]? := by
    intro q
    simp only [newSplitter, getElem?_alloc, hlen3]
  have hsplit : splitSections st A none O
      = { (SectionWidget.create st).2 with
          heap := QSplitter.insertWidget
            (QSplitter.addWidget
              (QSplitter.addWidget
                (newSplitter
                  (QSplitter.addWidget (SectionWidget.create st).2.heap R st.heap.length) O).2
                (st.heap.length + 1) A)
              (st.heap.length + 1) st.heap.length)
            R (pre.length : Int) (st.heap.length + 1) } := by
    simp only [splitSections, h1]
    rw [show (SectionWidget.create st).1 = st.heap.length from rfl, h2]
    simp only [hfp, hindex, hN1]
  have hheap : (splitSections st A none O).heap = QSplitter.insertWidget
            (QSplitter.addWidget
              (QSplitter.addWidget
                (newSplitter
                  (QSplitter.addWidget (SectionWidget.create st).2.heap R st.heap.length) O).2
                (st.heap.length + 1) A)
              (st.heap.length + 1) st.heap.length)
            R (pre.length : Int) (st.heap.length + 1) := by rw [hsplit]
  have hsec : (splitSections st A none O)._sections = st._sections ++ [st.heap.length] := by
    rw [hsplit]; rfl
  have hspl : (splitSections st A none O)._splitter = some R := by
    rw [hsplit]; exact hsp
  have hlay : (splitSections st A none O)._mainLayout = st._mainLayout := by
    rw [hsplit]; rfl
  refine ⟨hsec, hspl, hlay, fun q => ?_⟩
  rw [hheap]
  have hNlt : st.heap.length + 1 ≠ R := by omega
  have hNA : st.heap.length + 1 ≠ A := by omega
  have hNB : st.heap.length + 1 ≠ st.heap.length := by omega
  have k1 : (newSplitter (QSplitter.addWidget (SectionWidget.create st).2.heap R
      st.heap.length) O).2[st.heap.length + 1]? = some ⟨none, Widget.QSplitter O [] []⟩ := by
    rw [hH4, if_pos rfl]
  have k2 : (newSplitter (QSplitter.addWidget (SectionWidget.create st).2.heap R
      st.heap.length) O).2[R]?
      = some ⟨par, Widget.QSplitter o (pre ++ A :: post ++ [st.heap.length]) sz⟩ := by
    rw [hH4, if_neg hNlt.symm, hR3]
  have k3 : (newSplitter (QSplitter.addWidget (SectionWidget.create st).2.heap R
      st.heap.length) O).2[A]? = some ⟨some R, Widget.SectionWidget ts i⟩ := by
    rw [hH4, if_neg hNA.symm, hA3]
  have k4 : (newSplitter (QSplitter.addWidget (SectionWidget.create st).2.heap R
      st.heap.length) O).2[st.heap.length]? = some ⟨some R, Widget.SectionWidget [] (-1)⟩ := by
    rw [hH4, if_neg hNB.symm, hn3]
  rw [split_two_children k1 k2 k3 k4 hNlt hNA hNB hAR (Nat.ne_of_gt hRlt) (Nat.ne_of_lt hAlt)
    hpre hB1 hB2 q]
  by_cases c1 : q = st.heap.length + 1
  · simp only [if_pos c1]
  · by_cases c2 : q = A
    · simp only [if_neg c1, if_pos c2]
    · by_cases c3 : q = st.heap.length
      · simp only [if_neg c1, if_neg c2, if_pos c3]
      · by_cases c4 : q = R
        · simp only [if_neg c1, if_neg c2, if_neg c3, if_pos c4]
        · simp only [if_neg c1, if_neg c2, if_neg c3, if_neg c4, hH4, hH3]

end ads
